import Mathlib

/-!
ndppd: a shallow embedding of the session clock and the interface pipeline.

The definitions follow `src/session.cc`, `src/interface.cpp`, `src/conf.cpp`
and `src/ndppd.cc`.  Objects that
the C++ code reaches through pointers are records here; a pointer comparison is
a comparison of the object identity stored in the record (sessions) or of the
records themselves (interfaces, of which the registry keeps one per index).
Calls into classes whose source is not part of the repository snapshot
(`Proxy`, `Socket`, `Netlink`, `Address`, `Cidr`) are recorded as events or
modelled from the specification, each such definition saying so.
-/

namespace ndppd

/-! ## Bytes and addresses -/

/-- One octet. -/
abbrev Byte := Fin 256

/-- The 128 bits of an IPv6 address (`in6_addr`), as the sixteen octets
`s6_addr[0..15]` in network order.  `Address` compares the full 128 bits. -/
structure Address where
  octets : List Byte
  length_eq : octets.length = 16
deriving DecidableEq

/-- The octet `s6_addr[i]`. -/
def Address.s6_addr (a : Address) (i : Fin 16) : Byte := a.octets.getD i.val 0

/-- A 48-bit Ethernet address (`ether_addr`). -/
structure ether_addr where
  octets : List Byte
  length_eq : octets.length = 6
deriving DecidableEq

/-- The octet `ether_addr_octet[i]`. -/
def ether_addr.ether_addr_octet (a : ether_addr) (i : Fin 6) : Byte := a.octets.getD i.val 0

/-- Modelled from the spec: `Address::Address()` (address.cpp is absent) is the
all-zero address. -/
def Address.zero : Address := ⟨List.replicate 16 0, rfl⟩

/-- Modelled from the spec: `Address::is_multicast` (address.cpp is absent);
the IPv6 multicast addresses are those of `ff00::/8`. -/
def Address.is_multicast (a : Address) : Bool := a.s6_addr 0 == 0xff

/-- Modelled from the spec: `Address::is_unicast` (address.cpp is absent);
every address outside `ff00::/8` is unicast. -/
def Address.is_unicast (a : Address) : Bool := a.s6_addr 0 != 0xff

/-- The 128-bit number an address denotes (octet 0 is the most significant). -/
def Address.toNat (a : Address) : Nat :=
  a.octets.foldl (fun acc b => acc * 256 + b.val) 0

/-- An address with a prefix length (`Cidr`). -/
structure Cidr where
  addr : Address
  prefix_len : Nat
deriving DecidableEq

/-- Modelled from the spec: `Cidr::operator%` (cidr.cpp is absent), prefix
containment: both sides are masked with `~((1 << (128 - prefix)) - 1)` and
compared. -/
def Cidr.contains (c : Cidr) (a : Address) : Bool :=
  c.addr.toNat / 2 ^ (128 - c.prefix_len) == a.toNat / 2 ^ (128 - c.prefix_len)

/-! ## Machine integers -/

/-- The least value of the type `int` (32 bits, two's complement). -/
def INT_MIN : Int := -2147483648

/-- The greatest value of the type `int`. -/
def INT_MAX : Int := 2147483647

/-- The values of the type `int`. -/
abbrev is_int (x : Int) : Prop := INT_MIN ≤ x ∧ x ≤ INT_MAX

/-- The conversion of a `long` to `int`. -/
def int_of_long (x : Int) : Int := (x + 2 ^ 31) % 2 ^ 32 - 2 ^ 31

/-- The subtraction `a - b` of two `int`s as the machine carries it out: the
difference reduced modulo 2^32 into the range of `int`.  Within that range it
is the difference; beyond it C leaves the result undefined and the two's
complement arithmetic of the machine wraps. -/
def int_sub (a b : Int) : Int := int_of_long (a - b)

/-! ## Sessions (`src/session.cc`) -/

/-- Modelled from the spec: the three values of `session::_status`
(session.h is absent). -/
inductive Status where
  | WAITING
  | VALID
  | INVALID
deriving DecidableEq, Repr

/-- Modelled from the spec: the part of the `proxy` class (proxy.h is absent)
that sessions and `configure` touch: the identity of the object and the three
settings `router`, `ttl` and `timeout`. -/
structure proxy where
  ptr : Nat
  _router : Bool
  _ttl : Int
  _timeout : Int
deriving DecidableEq

/-- The fields of a `session` object.  `_weak_ptr` is the identity of the
object: the entries of `session::_sessions` are pointers and
`_sessions.remove(_weak_ptr)` compares pointers.  `_ifaces` lists the
interfaces by index. -/
structure session where
  _weak_ptr : Nat
  _pr : proxy
  _saddr : Address
  _daddr : Address
  _taddr : Address
  _status : Status
  _ttl : Int
  _ifaces : List Nat
deriving DecidableEq

/-- The effect of `_sessions.remove(_weak_ptr)` in `session::~session`: every
entry pointing to the destroyed object leaves the list. -/
def session.list_remove (p : Nat) (l : List session) : List session :=
  l.filter (fun s => s._weak_ptr != p)

/-- What one call of `session::update_all` produces: the session list
afterwards and the sessions handed to `proxy::remove_session`, in call order. -/
structure update_result where
  sessions : List session
  removed : List session
deriving DecidableEq

/-- The loop of `session::update_all`.  `visited` is the part of `_sessions`
before the iterator, `rest` the part from the iterator on; `fuel` bounds the
number of iterations.  `_ttl` and `elapsed_time` are `int`s, and
`se->_ttl -= elapsed_time` is the `int` subtraction `int_sub`.

Modelled from the spec: `proxy::remove_session` (proxy.cpp is absent) drops the
proxy's reference to the session, which destroys it; the destructor
`session::~session` then removes the object from `_sessions`. -/
def session.update_all_loop (elapsed_time : Int) :
    Nat → List session → List session → List session → update_result
  | 0, visited, removed, rest => ⟨visited ++ rest, removed⟩
  | _ + 1, visited, removed, [] => ⟨visited, removed⟩
  | fuel + 1, visited, removed, se :: rest =>
    let se1 := { se with _ttl := int_sub se._ttl elapsed_time }
    if se1._ttl ≥ 0 then
      session.update_all_loop elapsed_time fuel (visited ++ [se1]) removed rest
    else
      match se1._status with
      | Status.WAITING =>
        session.update_all_loop elapsed_time fuel
          (visited ++ [{ se1 with _status := Status.INVALID, _ttl := 30 * 1000 }]) removed rest
      | _ =>
        session.update_all_loop elapsed_time fuel
          (session.list_remove se1._weak_ptr visited) (removed ++ [se1])
          (session.list_remove se1._weak_ptr rest)

/-- The function `session::update_all(elapsed_time)` on the list `_sessions`. -/
def session.update_all (elapsed_time : Int) (_sessions : List session) : update_result :=
  session.update_all_loop elapsed_time (_sessions.length + 1) [] [] _sessions

/-! ### The loop on a list of distinct objects -/

/-- What one iteration of the loop of `session::update_all` leaves in the list
for the session it visits: `none` when the session is handed to
`remove_session`. -/
def session.tick (elapsed_time : Int) (se : session) : Option session :=
  if int_sub se._ttl elapsed_time ≥ 0 then
    some { se with _ttl := int_sub se._ttl elapsed_time }
  else
    match se._status with
    | Status.WAITING =>
      some { se with _status := Status.INVALID, _ttl := 30 * 1000 }
    | _ => none

/-- The sessions that an iteration hands to `remove_session`: the ttl has run
below zero and the status is not `WAITING`. -/
def session.expires (elapsed_time : Int) (se : session) : Bool :=
  decide (int_sub se._ttl elapsed_time < 0) && (se._status != Status.WAITING)

/-- The session as `update_all` passes it to `remove_session`. -/
def session.aged (elapsed_time : Int) (se : session) : session :=
  { se with _ttl := int_sub se._ttl elapsed_time }

/-! ## Interfaces, rules and proxies (`src/interface.cpp`) -/

/-- The fields of an `Interface` object that the handlers read.  The lists
`_serves` and `_parents` are passed to the handlers separately. -/
structure Interface where
  _index : Nat
  _name : String
  hwaddr : ether_addr
deriving DecidableEq

/-- Modelled from the spec: a `Rule` (rule.h is absent).  `iface` is
`rule->iface()`, a null pointer for a rule without interface. -/
structure Rule where
  cidr : Cidr
  iface : Option Interface
  autovia : Bool
deriving DecidableEq

/-- Modelled from the spec: a `Proxy` (proxy.h is absent).  `ptr` is the
identity of the object, `iface` is `proxy.iface()`, which may be null. -/
structure Proxy where
  ptr : Nat
  iface : Option Interface
  rules : List Rule
deriving DecidableEq

/-- An entry of `Netlink::local_addresses()`. -/
structure NetlinkAddress where
  address : Address
  index : Nat
deriving DecidableEq

/-- The process-wide tables the handlers consult: `Netlink::local_addresses()`
and `Proxy::proxies()`. -/
structure World where
  local_addresses : List NetlinkAddress
  proxies : List Proxy

/-- Modelled from the spec: `Netlink::is_local` (netlink.cpp is absent) holds
for the addresses of the local-address table. -/
def Netlink.is_local (w : World) (addr : Address) : Bool :=
  w.local_addresses.any (fun nla => nla.address == addr)

/-- The function `Interface::is_local`. -/
def Interface.is_local (w : World) (addr : Address) : Bool :=
  Netlink.is_local w addr

/-- What a handler does to the outside: a message sent on the ICMPv6 socket of
the interface called `ifname`, or a call into a `Proxy` (proxy.cpp is absent). -/
inductive Event where
  | sendmsg (ifname : String) (daddr : Address) (payload : List Byte)
  | handle_solicit (pr : Proxy) (saddr taddr : Address) (ifname : String)
  | handle_stateless_advert (pr : Proxy) (saddr taddr : Address) (ifname : String)
      (autovia : Bool)
  | handle_advert (pr : Proxy) (saddr taddr : Address) (ifname : String) (autovia : Bool)
deriving DecidableEq

/-! ### Buffers -/

/-- A byte buffer, addressed by offset. -/
abbrev Buffer := Nat → Byte

/-- A zero-initialised buffer (`char buf[128] = {}`). -/
def Buffer.zero : Buffer := fun _ => 0

/-- Store one octet at `off`. -/
def Buffer.store8 (b : Buffer) (off : Nat) (v : Byte) : Buffer :=
  fun j => if j = off then v else b j

/-- Store a 32-bit word at `off`, most significant octet first. -/
def Buffer.store32 (b : Buffer) (off : Nat) (v : Nat) : Buffer :=
  fun j => if off ≤ j ∧ j < off + 4 then
      ⟨v / 2 ^ (8 * (3 - (j - off))) % 256, Nat.mod_lt _ (by decide)⟩
    else b j

/-- Store the sixteen octets of an address at `off`. -/
def Buffer.store_addr (b : Buffer) (off : Nat) (a : Address) : Buffer :=
  fun j => if off ≤ j ∧ j < off + 16 then a.octets.getD (j - off) 0 else b j

/-- Store the six octets of an Ethernet address at `off`. -/
def Buffer.store_hwaddr (b : Buffer) (off : Nat) (a : ether_addr) : Buffer :=
  fun j => if off ≤ j ∧ j < off + 6 then a.octets.getD (j - off) 0 else b j

/-- The first `len` octets of a buffer. -/
def Buffer.bytes (b : Buffer) (len : Nat) : List Byte :=
  (List.range len).map b

/-- The address stored at `off`. -/
def Buffer.load_addr (b : Buffer) (off : Nat) : Address :=
  ⟨(List.range 16).map (fun i => b (off + i)), by simp⟩

/-- The Ethernet address stored at `off`. -/
def Buffer.load_hwaddr (b : Buffer) (off : Nat) : ether_addr :=
  ⟨(List.range 6).map (fun i => b (off + i)), by simp⟩

/-- Modelled from the spec: `Socket::recvmsg` (socket.cpp is absent) copies at
most `size` octets of the received data to the start of `msg`; the rest of
`msg` keeps what it held. -/
def Socket.recvmsg (msg : Buffer) (size : Nat) (data : List Byte) : Buffer :=
  fun j => (data.take size).getD j (msg j)

/-! ### Constants of the system headers -/

/-- `ETH_HLEN` and `sizeof(ether_header)`. -/
def ETH_HLEN : Nat := 14
/-- `offsetof(ether_header, ether_type)`. -/
def offsetof_ether_type : Nat := 12
/-- `sizeof(ip6_hdr)`. -/
def sizeof_ip6_hdr : Nat := 40
/-- `offsetof(ip6_hdr, ip6_nxt)`. -/
def offsetof_ip6_nxt : Nat := 6
/-- `offsetof(ip6_hdr, ip6_src)`. -/
def offsetof_ip6_src : Nat := 8
/-- `offsetof(ip6_hdr, ip6_dst)`. -/
def offsetof_ip6_dst : Nat := 24
/-- `offsetof(icmp6_hdr, icmp6_type)`. -/
def offsetof_icmp6_type : Nat := 0
/-- The offset of `nd_na_flags_reserved` in `nd_neighbor_advert`. -/
def offsetof_nd_na_flags_reserved : Nat := 4
/-- The offset of `nd_ns_target` and of `nd_na_target`. -/
def offsetof_nd_target : Nat := 8
/-- `sizeof(nd_neighbor_solicit)`. -/
def sizeof_nd_neighbor_solicit : Nat := 24
/-- `sizeof(nd_neighbor_advert)`. -/
def sizeof_nd_neighbor_advert : Nat := 24
/-- `sizeof(nd_opt_hdr)`; `nd_opt_type` is at offset 0, `nd_opt_len` at 1. -/
def sizeof_nd_opt_hdr : Nat := 2
/-- `ETHERTYPE_IPV6`. -/
def ETHERTYPE_IPV6 : Nat := 0x86dd
/-- `IPPROTO_ICMPV6`. -/
def IPPROTO_ICMPV6 : Nat := 58
/-- `ND_NEIGHBOR_SOLICIT`. -/
def ND_NEIGHBOR_SOLICIT : Nat := 135
/-- `ND_NEIGHBOR_ADVERT`. -/
def ND_NEIGHBOR_ADVERT : Nat := 136
/-- `ND_OPT_SOURCE_LINKADDR`. -/
def ND_OPT_SOURCE_LINKADDR : Nat := 1
/-- `ND_OPT_TARGET_LINKADDR`. -/
def ND_OPT_TARGET_LINKADDR : Nat := 2
/-- `ND_NA_FLAG_ROUTER`, as the value of the 32-bit field on the wire (the
header defines it per host byte order so that it sets the top bit of the first
octet of the field). -/
def ND_NA_FLAG_ROUTER : Nat := 0x80000000
/-- `ND_NA_FLAG_SOLICITED`, as the value of the 32-bit field on the wire. -/
def ND_NA_FLAG_SOLICITED : Nat := 0x40000000

/-- An octet from a number (`uint8_t` assignment). -/
def Byte.ofNat (n : Nat) : Byte := ⟨n % 256, Nat.mod_lt _ (by decide)⟩

/-! ### The socket filter of `Interface::ensure_packet_socket` -/

/-- One instruction of a classic BPF program (`struct sock_filter`). -/
structure sock_filter where
  code : Nat
  jt : Nat
  jf : Nat
  k : Nat
deriving DecidableEq

def BPF_LD : Nat := 0x00
def BPF_H : Nat := 0x08
def BPF_B : Nat := 0x10
def BPF_ABS : Nat := 0x20
def BPF_JMP : Nat := 0x05
def BPF_JEQ : Nat := 0x10
def BPF_K : Nat := 0x00
def BPF_RET : Nat := 0x06

/-- The initialiser `BPF_STMT(code, k)`. -/
def BPF_STMT (code k : Nat) : sock_filter := ⟨code, 0, 0, k⟩

/-- The initialiser `BPF_JUMP(code, k, jt, jf)`. -/
def BPF_JUMP (code k jt jf : Nat) : sock_filter := ⟨code, jt, jf, k⟩

/-- The array `filter` of `Interface::ensure_packet_socket`. -/
def Interface.filter : List sock_filter :=
  [ BPF_STMT (BPF_LD ||| BPF_H ||| BPF_ABS) offsetof_ether_type,
    BPF_JUMP (BPF_JMP ||| BPF_JEQ ||| BPF_K) ETHERTYPE_IPV6 0 5,
    BPF_STMT (BPF_LD ||| BPF_B ||| BPF_ABS) (ETH_HLEN + offsetof_ip6_nxt),
    BPF_JUMP (BPF_JMP ||| BPF_JEQ ||| BPF_K) IPPROTO_ICMPV6 0 3,
    BPF_STMT (BPF_LD ||| BPF_B ||| BPF_ABS) (ETH_HLEN + sizeof_ip6_hdr + offsetof_icmp6_type),
    BPF_JUMP (BPF_JMP ||| BPF_JEQ ||| BPF_K) ND_NEIGHBOR_SOLICIT 0 1,
    BPF_STMT (BPF_RET ||| BPF_K) ((2 : Nat) ^ 32 - 1),
    BPF_STMT (BPF_RET ||| BPF_K) 0 ]

/-- The length `fprog.len` given to `SO_ATTACH_FILTER`. -/
def Interface.fprog_len : Nat := 8

/-- Modelled from the spec: the classic BPF machine, for the four instruction
kinds the filter uses.  `pc` is the program counter and `acc` the accumulator.
A load that reaches past the end of the frame ends the run with 0; an
instruction of another kind, a program counter outside the program and the
exhaustion of `fuel` give `none`. -/
def bpf_run (prog : List sock_filter) (frame : List Byte) : Nat → Nat → Nat → Option Nat
  | 0, _, _ => none
  | fuel + 1, pc, acc =>
    match prog[pc]? with
    | none => none
    | some ins =>
      if ins.code = (BPF_LD ||| BPF_H ||| BPF_ABS) then
        match frame[ins.k]?, frame[ins.k + 1]? with
        | some hi, some lo => bpf_run prog frame fuel (pc + 1) (hi.val * 256 + lo.val)
        | _, _ => some 0
      else if ins.code = (BPF_LD ||| BPF_B ||| BPF_ABS) then
        match frame[ins.k]? with
        | some b => bpf_run prog frame fuel (pc + 1) b.val
        | none => some 0
      else if ins.code = (BPF_JMP ||| BPF_JEQ ||| BPF_K) then
        bpf_run prog frame fuel (pc + 1 + (if acc = ins.k then ins.jt else ins.jf)) acc
      else if ins.code = (BPF_RET ||| BPF_K) then
        some ins.k
      else none

/-- The verdict of the installed filter on a frame: the first `fprog_len`
instructions of `filter`, run from instruction 0; one step per instruction is
enough because classic BPF only jumps forward. -/
def Interface.run_filter (frame : List Byte) : Option Nat :=
  bpf_run (Interface.filter.take Interface.fprog_len) frame Interface.fprog_len 0 0

/-! ### Encoding and decoding -/

/-- The address `ff02::1:ff00:0000` (`static Address multicast` of
`write_solicit`). -/
def Interface.write_solicit_multicast : Address :=
  ⟨[0xff, 0x02, 0, 0, 0, 0, 0, 0, 0, 0, 0, 0x01, 0xff, 0, 0, 0], rfl⟩

/-- The assignment `a.addr().s6_addr[i] = v`. -/
def Address.set (a : Address) (i : Fin 16) (v : Byte) : Address :=
  ⟨a.octets.set i.val v, by rw [List.length_set]; exact a.length_eq⟩

/-- The buffer `buf` that `Interface::write_solicit` fills. -/
def Interface.write_solicit_buf (this : Interface) (taddr : Address) : Buffer :=
  let buf := Buffer.zero
  let buf := buf.store8 0 (Byte.ofNat ND_NEIGHBOR_SOLICIT)
  let buf := buf.store_addr offsetof_nd_target taddr
  let buf := buf.store8 sizeof_nd_neighbor_solicit (Byte.ofNat ND_OPT_SOURCE_LINKADDR)
  let buf := buf.store8 (sizeof_nd_neighbor_solicit + 1) 1
  buf.store_hwaddr (sizeof_nd_neighbor_solicit + sizeof_nd_opt_hdr) this.hwaddr

/-- The destination `daddr` that `Interface::write_solicit` computes. -/
def Interface.write_solicit_daddr (taddr : Address) : Address :=
  let daddr := Interface.write_solicit_multicast
  let daddr := daddr.set 13 (taddr.s6_addr 13)
  let daddr := daddr.set 14 (taddr.s6_addr 14)
  daddr.set 15 (taddr.s6_addr 15)

/-- The function `Interface::write_solicit`: the `sendmsg` on the ICMPv6
socket. -/
def Interface.write_solicit (this : Interface) (taddr : Address) : Event :=
  Event.sendmsg this._name (Interface.write_solicit_daddr taddr)
    ((Interface.write_solicit_buf this taddr).bytes
      (sizeof_nd_neighbor_solicit + sizeof_nd_opt_hdr + 6))

/-- The buffer `buf` that `Interface::write_advert` fills. -/
def Interface.write_advert_buf (this : Interface) (daddr taddr : Address) (router : Bool) :
    Buffer :=
  let buf := Buffer.zero
  let buf := buf.store8 0 (Byte.ofNat ND_NEIGHBOR_ADVERT)
  let buf := buf.store32 offsetof_nd_na_flags_reserved
    (((if daddr.is_multicast then 0 else ND_NA_FLAG_SOLICITED) |||
      (if router then ND_NA_FLAG_ROUTER else 0)) % 2 ^ 32)
  let buf := buf.store_addr offsetof_nd_target taddr
  let buf := buf.store8 sizeof_nd_neighbor_advert (Byte.ofNat ND_OPT_TARGET_LINKADDR)
  let buf := buf.store8 (sizeof_nd_neighbor_advert + 1) 1
  buf.store_hwaddr (sizeof_nd_neighbor_advert + sizeof_nd_opt_hdr) this.hwaddr

/-- The function `Interface::write_advert`: the `sendmsg` on the ICMPv6
socket. -/
def Interface.write_advert (this : Interface) (daddr taddr : Address) (router : Bool) :
    Event :=
  Event.sendmsg this._name daddr
    ((Interface.write_advert_buf this daddr taddr router).bytes
      (sizeof_nd_neighbor_advert + sizeof_nd_opt_hdr + 6))

/-- The return value and the three output arguments of
`Interface::read_solicit`. -/
structure read_solicit_result where
  ret : Int
  saddr : Address
  daddr : Address
  taddr : Address
deriving DecidableEq

/-- The function `Interface::read_solicit`.  `recv` is what the packet socket
delivers: `none` when `recvmsg` fails, else the frame; `stack` is what the
array `msg` holds before the call; `saddr`, `daddr` and `taddr` are the output
arguments as the caller passes them. -/
def Interface.read_solicit (w : World) (stack : Buffer) (recv : Option (List Byte))
    (saddr daddr taddr : Address) : read_solicit_result :=
  match recv with
  | none => ⟨-1, saddr, daddr, taddr⟩
  | some frame =>
    let msg := Socket.recvmsg stack 256 frame
    let len : Int := (frame.take 256).length
    let taddr := msg.load_addr (ETH_HLEN + sizeof_ip6_hdr + offsetof_nd_target)
    let daddr := msg.load_addr (ETH_HLEN + offsetof_ip6_dst)
    let saddr := msg.load_addr (ETH_HLEN + offsetof_ip6_src)
    if Interface.is_local w saddr then ⟨0, saddr, daddr, taddr⟩
    else ⟨len, saddr, daddr, taddr⟩

/-- The return value and the two output arguments of `Interface::read_advert`. -/
structure read_advert_result where
  ret : Int
  saddr : Address
  taddr : Address
deriving DecidableEq

/-- The function `Interface::read_advert`.  `recv` is what the ICMPv6 socket
delivers: `none` when `recvmsg` fails, else the sender's address and the
ICMPv6 message. -/
def Interface.read_advert (w : World) (stack : Buffer) (recv : Option (Address × List Byte))
    (saddr taddr : Address) : read_advert_result :=
  match recv with
  | none => ⟨-1, saddr, taddr⟩
  | some (t_saddr, data) =>
    let msg := Socket.recvmsg stack 256 data
    let len : Int := (data.take 256).length
    let saddr := t_saddr
    if Interface.is_local w saddr then ⟨0, saddr, taddr⟩
    else if (msg offsetof_icmp6_type).val ≠ ND_NEIGHBOR_ADVERT then ⟨-1, saddr, taddr⟩
    else ⟨len, saddr, msg.load_addr offsetof_nd_target⟩

/-! ### The handlers

A handler returns the events it causes, in order.  `none` stands for the
dereference of a null `rule->iface()`, after which nothing is defined. -/

/-- The loop over `proxy->rules()` in `Interface::handle_local`: `some true`
when a rule's interface has the index `index`. -/
def Interface.handle_local_rules (index : Nat) : List Rule → Option Bool
  | [] => some false
  | rule :: rules =>
    match rule.iface with
    | none => none
    | some ifa =>
      if ifa._index = index then some true
      else Interface.handle_local_rules index rules

/-- The loop over `Proxy::proxies()` in `Interface::handle_local`. -/
def Interface.handle_local_proxies (this : Interface) (index : Nat) :
    List Proxy → Option Bool
  | [] => some false
  | proxy :: proxies =>
    if proxy.iface ≠ some this then
      Interface.handle_local_proxies this index proxies
    else
      match Interface.handle_local_rules index proxy.rules with
      | none => none
      | some true => some true
      | some false => Interface.handle_local_proxies this index proxies

/-- The loop over `Netlink::local_addresses()` in `Interface::handle_local`. -/
def Interface.handle_local_addresses (this : Interface) (proxies : List Proxy)
    (target : Address) : List NetlinkAddress → Option Bool
  | [] => some false
  | nla :: nlas =>
    if nla.address ≠ target then
      Interface.handle_local_addresses this proxies target nlas
    else
      match Interface.handle_local_proxies this nla.index proxies with
      | none => none
      | some true => some true
      | some false => Interface.handle_local_addresses this proxies target nlas

/-- The function `Interface::handle_local`: its return value and the events it
causes. -/
def Interface.handle_local (w : World) (this : Interface) (source target : Address) :
    Option (Bool × List Event) :=
  match Interface.handle_local_addresses this w.proxies target w.local_addresses with
  | none => none
  | some true => some (true, [Interface.write_advert this source target false])
  | some false => some (false, [])

/-- The loop over `proxy.rules()` in `Interface::handle_reverse_advert`. -/
def Interface.handle_reverse_advert_rules (proxy : Proxy) (saddr : Address)
    (ifname : String) : List Rule → Option (List Event)
  | [] => some []
  | rule :: rules =>
    if rule.cidr.contains saddr then
      match rule.iface with
      | none => none
      | some ifa =>
        if ifa._name = ifname then
          (Interface.handle_reverse_advert_rules proxy saddr ifname rules).map
            (fun evs => Event.handle_stateless_advert proxy saddr saddr ifname rule.autovia :: evs)
        else Interface.handle_reverse_advert_rules proxy saddr ifname rules
    else Interface.handle_reverse_advert_rules proxy saddr ifname rules

/-- The loop over `_parents` in `Interface::handle_reverse_advert`. -/
def Interface.handle_reverse_advert_parents (saddr : Address) (ifname : String) :
    List Proxy → Option (List Event)
  | [] => some []
  | proxy :: parents =>
    if proxy.iface.isSome then
      Interface.handle_reverse_advert_parents saddr ifname parents
    else
      match Interface.handle_reverse_advert_rules proxy saddr ifname proxy.rules with
      | none => none
      | some evs =>
        (Interface.handle_reverse_advert_parents saddr ifname parents).map (fun evs2 => evs ++ evs2)

/-- The function `Interface::handle_reverse_advert`. -/
def Interface.handle_reverse_advert (_parents : List Proxy) (saddr : Address)
    (ifname : String) : Option (List Event) :=
  if !saddr.is_unicast then some []
  else Interface.handle_reverse_advert_parents saddr ifname _parents

/-- The body of the loop of `Interface::packet_handler` after a successful
`read_solicit`. -/
def Interface.packet_handler_body (w : World) (this : Interface)
    (_serves _parents : List Proxy) (saddr taddr : Address) : Option (List Event) :=
  match Interface.handle_local w this saddr taddr with
  | none => none
  | some (true, evs) => some evs
  | some (false, evs) =>
    match Interface.handle_reverse_advert _parents saddr this._name with
    | none => none
    | some evs2 =>
      some (evs ++ evs2 ++
        _serves.map (fun proxy => Event.handle_solicit proxy saddr taddr this._name))

/-- The function `Interface::packet_handler`.  `pending` holds the frames the
packet socket has queued; when it is empty `recvmsg` fails with `EAGAIN`. -/
def Interface.packet_handler (w : World) (this : Interface) (_serves _parents : List Proxy)
    (stack : Buffer) : List (List Byte) → Option (List Event)
  | [] => some []
  | frame :: pending =>
    let r := Interface.read_solicit w stack (some frame) Address.zero Address.zero Address.zero
    if r.ret < 0 then some []
    else
      match Interface.packet_handler_body w this _serves _parents r.saddr r.taddr with
      | none => none
      | some evs =>
        (Interface.packet_handler w this _serves _parents stack pending).map
          (fun evs2 => evs ++ evs2)

/-- The loop over `_parents` in `Interface::icmp6_handler`: the events, and
whether the loop left the handler through `return`. -/
def Interface.icmp6_handler_parents (this : Interface) (saddr taddr : Address) :
    List Proxy → List Event × Bool
  | [] => ([], false)
  | proxy :: parents =>
    if proxy.iface.isNone then ([], true)
    else
      match proxy.rules.find? (fun rule =>
          rule.cidr.contains taddr &&
            (rule.iface.isSome && decide (rule.iface.map Interface._name = some this._name))) with
      | none => Interface.icmp6_handler_parents this saddr taddr parents
      | some rule =>
        let rest := Interface.icmp6_handler_parents this saddr taddr parents
        (Event.handle_advert proxy saddr taddr this._name rule.autovia :: rest.1, rest.2)

/-- The function `Interface::icmp6_handler`.  `pending` holds the messages the
ICMPv6 socket has queued, each with its sender; when it is empty `recvmsg`
fails. -/
def Interface.icmp6_handler (w : World) (this : Interface) (_parents : List Proxy)
    (stack : Buffer) : List (Address × List Byte) → List Event
  | [] => []
  | packet :: pending =>
    let r := Interface.read_advert w stack (some packet) Address.zero Address.zero
    if r.ret < 0 then []
    else
      let res := Interface.icmp6_handler_parents this r.saddr r.taddr _parents
      if res.2 then res.1
      else res.1 ++ Interface.icmp6_handler w this _parents stack pending

/-- Whether `handle_local` finds, for a local address with index `index`, a
proxy on `this` with a rule bound to the interface with that index. -/
def Interface.local_match (this : Interface) (proxies : List Proxy) (index : Nat) : Prop :=
  ∃ p ∈ proxies, p.iface = some this ∧
    ∃ r ∈ p.rules, ∃ ifa, r.iface = some ifa ∧ ifa._index = index

/-- The test `icmp6_handler` applies to a rule: the CIDR contains `taddr`, the
rule has an interface and that interface has the name `ifname`. -/
def Rule.relevant (taddr : Address) (ifname : String) (rule : Rule) : Bool :=
  rule.cidr.contains taddr &&
    (rule.iface.isSome && decide (rule.iface.map Interface._name = some ifname))

/-- The target of an advert event: the address at `nd_na_target` of a sent
message of type `ND_NEIGHBOR_ADVERT`, or the `taddr` argument of
`handle_stateless_advert`. -/
def Event.advert_target : Event → Option Address
  | Event.sendmsg _ _ payload =>
    if payload[0]? = some (Byte.ofNat ND_NEIGHBOR_ADVERT) then
      if h : ((payload.drop offsetof_nd_target).take 16).length = 16 then
        some ⟨(payload.drop offsetof_nd_target).take 16, h⟩
      else none
    else none
  | Event.handle_stateless_advert _ _ taddr _ _ => some taddr
  | _ => none

/-- The rules of a parent for which `handle_reverse_advert` calls
`handle_stateless_advert`: the CIDR contains `saddr` and the rule's interface
has the name `ifname`. -/
def Rule.reverse_match (saddr : Address) (ifname : String) (rule : Rule) : Bool :=
  rule.cidr.contains saddr && decide (rule.iface.map Interface._name = some ifname)

/-! ## Sessions over time and `session::create` -/

/-- The session list after `session::update_all` has been called with each of
the elapsed times `es` in turn. -/
def session.run (es : List Int) (l : List session) : List session :=
  es.foldl (fun l e => (session.update_all e l).sessions) l

/-- One session under the calls of `update_all` with the elapsed times `es`:
`none` once it has been handed to `remove_session`. -/
def session.ticks (es : List Int) (se : session) : Option session :=
  es.foldl (fun o e => o.bind (session.tick e)) (some se)

/-- Modelled from the spec: the constructor `session::session()` (session.h is
absent) leaves a new session `WAITING`, with ttl 0 and without interfaces. -/
def session.new (p : Nat) (pr : proxy) : session :=
  ⟨p, pr, Address.zero, Address.zero, Address.zero, Status.WAITING, 0, []⟩

/-- The function `session::create` on the list `_sessions`: the session it
returns and the list afterwards.  `p` is the address of the object that
`new session()` allocates. -/
def session.create (_sessions : List session) (p : Nat) (pr : proxy)
    (saddr daddr taddr : Address) : session × List session :=
  let se := session.new p pr
  let se := { se with _weak_ptr := p }
  let se := { se with _pr := pr }
  let se := { se with _saddr := saddr }
  let se := { se with _taddr := taddr }
  let se := { se with _daddr := daddr }
  let se := { se with _ttl := 500 }
  (se, _sessions ++ [se])

/-- The triple `(proxy, taddr, saddr)` of a session. -/
def session.key (se : session) : Nat × Address × Address :=
  (se._pr.ptr, se._taddr, se._saddr)

/-- The session lists that arise from the empty list through `update_all` and
through `create` called with a newly allocated object and only for a
`(proxy, taddr, saddr)` that no session of the list has. -/
inductive session.Reachable : List session → Prop where
  | init : session.Reachable []
  | create (l : List session) (p : Nat) (pr : proxy) (saddr daddr taddr : Address) :
      session.Reachable l →
      p ∉ l.map session._weak_ptr →
      (pr.ptr, taddr, saddr) ∉ l.map session.key →
      session.Reachable (session.create l p pr saddr daddr taddr).2
  | update_all (l : List session) (e : Int) :
      session.Reachable l →
      session.Reachable (session.update_all e l).sessions

/-! ## C strings and the character classes of libc -/

/-- The character `*p` of a NUL-terminated text whose rest is `p`. -/
def cstr_deref (p : List Char) : Char := p.headD '\x00'

/-- The character `*(p + 1)`. -/
def cstr_deref1 (p : List Char) : Char := (p.drop 1).headD '\x00'

/-- The libc function `isspace` in the C locale. -/
def isspace (c : Char) : Bool :=
  c == ' ' || c == '\t' || c == '\n' || c == '\x0b' || c == '\x0c' || c == '\r'

/-- The libc function `isalnum` in the C locale. -/
def isalnum (c : Char) : Bool := c.isAlphanum

/-- The libc function `isgraph` in the C locale. -/
def isgraph (c : Char) : Bool := decide (0x21 ≤ c.toNat) && decide (c.toNat ≤ 0x7e)

/-! ## Configuration (`src/conf.cpp`, `src/ndppd.cc`) -/

/-- A node of the configuration tree (`class conf`): `_value`, `_is_block` and
the multimap `_map` in iteration order. -/
inductive conf where
  | mk (_value : String) (_is_block : Bool) (_map : List (String × conf))

/-- The member `_value`. -/
def conf._value : conf → String
  | conf.mk v _ _ => v

/-- The member `_is_block`. -/
def conf._is_block : conf → Bool
  | conf.mk _ b _ => b

/-- The member `_map`. -/
def conf._map : conf → List (String × conf)
  | conf.mk _ _ m => m

/-- The function `conf::as_str` (`value()` in `ndppd.cc`). -/
def conf.as_str (cf : conf) : String := cf._value

/-- The function `conf::as_bool` (`bool_value()` in `ndppd.cc`): `strcasecmp`
with "true" and with "yes". -/
def conf.as_bool (cf : conf) : Bool :=
  decide (cf._value.data.map Char.toLower = ['t', 'r', 'u', 'e']) ||
    decide (cf._value.data.map Char.toLower = ['y', 'e', 's'])

/-- The greatest value of the type `long` (64 bits). -/
def LONG_MAX : Int := 9223372036854775807

/-- The least value of the type `long`. -/
def LONG_MIN : Int := -9223372036854775808

/-- The digits loop of `strtol` in base 10: the number that the leading
decimal digits of the text denote. -/
def strtol_digits : Nat → List Char → Nat
  | acc, [] => acc
  | acc, c :: cs => if c.isDigit then strtol_digits (acc * 10 + (c.toNat - 48)) cs else acc

/-- The libc function `strtol(s, NULL, 10)`: leading white space (`isspace`),
an optional sign, decimal digits; a number beyond the range of `long` gives
`LONG_MAX` or `LONG_MIN`. -/
def strtol (s : List Char) : Int :=
  let p := s.dropWhile isspace
  if cstr_deref p == '-' then max LONG_MIN (-(strtol_digits 0 (p.drop 1) : Int))
  else if cstr_deref p == '+' then min LONG_MAX (strtol_digits 0 (p.drop 1) : Int)
  else min LONG_MAX (strtol_digits 0 p : Int)

/-- The libc function `atoi`, which is `(int) strtol(s, NULL, 10)`: the `long`
is converted to `int`. -/
def atoi (s : List Char) : Int := int_of_long (strtol s)

/-- The function `conf::as_int` (`int_value()` in `ndppd.cc`). -/
def conf.as_int (cf : conf) : Int := atoi cf._value.data

/-- The function `conf::find_all` (`find(name)` in `ndppd.cc`): the children
stored under `name`, in order. -/
def conf.find_all (cf : conf) (name : String) : List conf :=
  (cf._map.filter (fun kv => kv.1 == name)).map Prod.snd

/-- The loop of `conf::find(name, index)`, from the iterator `_map.find(name)`
to `_map.end()`. -/
def conf.find_loop : List (String × conf) → Int → Option conf
  | [], _ => none
  | kv :: rest, index => if index ≤ 0 then some kv.2 else conf.find_loop rest (index - 1)

/-- The function `conf::find(name, index)`; `none` is the null pointer. -/
def conf.find (cf : conf) (name : String) (index : Int) : Option conf :=
  conf.find_loop (cf._map.dropWhile (fun kv => kv.1 != name)) index

/-- The function `conf::operator[]`. -/
def conf.get (cf : conf) (name : String) : Option conf := cf.find name 0

/-- What `configure` writes to the log. -/
inductive LogEntry where
  | error (msg : String)
  | warning_static_prefix (prefix_len : Nat)
deriving DecidableEq

/-- A rule as `configure` adds it: `add_rule(addr)` leaves `iface` empty,
`add_rule(addr, iface::open_ifd(name))` records the name. -/
structure configured_rule where
  addr : Cidr
  iface : Option String
deriving DecidableEq

/-- A proxy as `configure` leaves it: the object that `proxy::open(ifname)`
returned with its settings, and the rules added to it. -/
structure configured_proxy where
  pr : proxy
  ifname : String
  rules : List configured_rule
deriving DecidableEq

/-- The return value of `configure`, the proxies it opened and its log. -/
structure configure_result where
  ret : Bool
  proxies : List configured_proxy
  log : List LogEntry
deriving DecidableEq

/-- The loop over the `rule` entries of a proxy block in `configure`: `false`
when the loop leaves `configure` with `return false`.  `parse` stands for the
constructor `address(const std::string&)` (address.cc is absent). -/
def configure_rules (parse : String → Cidr) :
    List conf → List configured_rule → List LogEntry →
      Bool × List configured_rule × List LogEntry
  | [], rules, log => (true, rules, log)
  | ru_cf :: rest, rules, log =>
    if ru_cf.as_str = "" then
      (false, rules, log ++ [LogEntry.error "'rule' is missing an IPv6 address/net"])
    else
      let addr := parse ru_cf.as_str
      match ru_cf.get "iface" with
      | none =>
        if addr.prefix_len ≤ 120 then
          configure_rules parse rest (rules ++ [⟨addr, none⟩])
            (log ++ [LogEntry.warning_static_prefix addr.prefix_len])
        else
          configure_rules parse rest rules log
      | some x_cf =>
        if x_cf.as_str = "" then
          configure_rules parse rest rules
            (log ++ [LogEntry.error "'iface' expected an interface name or 'auto' as argument"])
        else
          configure_rules parse rest (rules ++ [⟨addr, some x_cf.as_str⟩]) log

/-- The settings `configure` gives the proxy of a block: `router`, `ttl` and
`timeout`. -/
def configure_settings (pr_cf : conf) (pr : proxy) : proxy :=
  let pr := match pr_cf.get "router" with
    | none => { pr with _router := true }
    | some x_cf => { pr with _router := x_cf.as_bool }
  let pr := match pr_cf.get "ttl" with
    | none => { pr with _ttl := 30000 }
    | some x_cf => { pr with _ttl := x_cf.as_int }
  match pr_cf.get "timeout" with
  | none => { pr with _timeout := 500 }
  | some x_cf => { pr with _timeout := x_cf.as_int }

/-- The loop over the `proxy` blocks in `configure`.  `proxy_open` stands for
`proxy::open` (proxy.cc is absent): the new proxy object, or `none` for the
null pointer. -/
def configure_proxies (proxy_open : String → Option proxy) (parse : String → Cidr) :
    List conf → List configured_proxy → List LogEntry → configure_result
  | [], proxies, log => ⟨true, proxies, log⟩
  | pr_cf :: rest, proxies, log =>
    if pr_cf.as_str = "" then
      ⟨false, proxies, log ++ [LogEntry.error "'proxy' section is missing interface name"]⟩
    else
      match proxy_open pr_cf.as_str with
      | none =>
        ⟨false, proxies,
          log ++ [LogEntry.error ("Configuration failed for proxy '" ++ pr_cf.as_str ++ "'")]⟩
      | some pr =>
        let pr := configure_settings pr_cf pr
        let r := configure_rules parse (pr_cf.find_all "rule") [] log
        if r.1 then
          configure_proxies proxy_open parse rest (proxies ++ [⟨pr, pr_cf.as_str, r.2.1⟩]) r.2.2
        else
          ⟨false, proxies ++ [⟨pr, pr_cf.as_str, r.2.1⟩], r.2.2⟩

/-- The function `configure`.  `load` is the result of `conf::load(path)`,
`none` for the null pointer. -/
def configure (proxy_open : String → Option proxy) (parse : String → Cidr)
    (load : Option conf) : configure_result :=
  match load with
  | none => ⟨false, [], []⟩
  | some cf => configure_proxies proxy_open parse (cf.find_all "proxy") [] []

/-- The settings C19 names for a proxy block: the values of the keys `router`,
`ttl` and `timeout` where present, else true, 30000 and 500. -/
def configured_proxy.has_settings_of (p : configured_proxy) (pr_cf : conf) : Prop :=
  p.pr._router = (match pr_cf.get "router" with
    | none => true
    | some x_cf => x_cf.as_bool) ∧
  p.pr._ttl = (match pr_cf.get "ttl" with
    | none => 30000
    | some x_cf => x_cf.as_int) ∧
  p.pr._timeout = (match pr_cf.get "timeout" with
    | none => 500
    | some x_cf => x_cf.as_int)

/-! ## The main loop (`src/ndppd.cc`) -/

/-- A `struct timeval`. -/
structure timeval where
  tv_sec : Int
  tv_usec : Int
deriving DecidableEq

/-- The value `elapsed_time` that `main` computes from two time stamps; the
division is C's, which truncates. -/
def elapsed_time (t1 t2 : timeval) : Int :=
  int_of_long (((t2.tv_sec - t1.tv_sec) * 1000) + Int.tdiv (t2.tv_usec - t1.tv_usec) 1000)

/-- The value `main` returns and the arguments of its calls of
`session::update_all`, in order. -/
structure main_result where
  exit_code : Int
  update_all_calls : List Int
deriving DecidableEq

/-- The loop `while (iface::poll_all() >= 0)` of `main`.  Each entry of `polls`
is the result of one call of `iface::poll_all` (iface.cc is absent) and the
time `gettimeofday` gives after it; when `polls` is used up without a negative
result the loop is still running and `main` has not returned. -/
def main_loop : timeval → List (Int × timeval) → List Int → Option main_result
  | _, [], _ => none
  | t1, (poll, t2) :: rest, calls =>
    if poll ≥ 0 then main_loop t2 rest (calls ++ [elapsed_time t1 t2])
    else some ⟨0, calls⟩

/-- The function `main` after the options are read: `daemon` is the flag of
`-d`, `daemonize_ret` the result of `daemonize()`, `configure_ret` the result
of `configure`, `t1` the first time stamp. -/
def main (daemon : Bool) (daemonize_ret : Int) (configure_ret : Bool) (t1 : timeval)
    (polls : List (Int × timeval)) : Option main_result :=
  if daemon && decide (daemonize_ret < 0) then some ⟨1, []⟩
  else if !configure_ret then some ⟨-1, []⟩
  else main_loop t1 polls []

/-- The exit status the system reports for a value returned by `main`. -/
def exit_status (ret : Int) : Int := ret % 256

/-- The log entries after which `configure` goes on: the warning for a static
rule and the error for an `iface` entry without a name. -/
def LogEntry.passed_over (entry : LogEntry) : Prop :=
  (∃ n, entry = LogEntry.warning_static_prefix n) ∨
  entry = LogEntry.error "'iface' expected an interface name or 'auto' as argument"

/-! ## The interface registry (`Interface::get_or_create`) -/

/-- An entry of the list `interfaces`: a weak pointer to an `Interface`
object.  `ptr` is the address of the object, `iface` its fields, `live`
whether the object still exists (`ptr.lock()` is not null). -/
structure registered where
  ptr : Nat
  iface : Interface
  live : Bool
deriving DecidableEq

/-- The hardware address of an `Interface` before `ensure_icmp6_socket` has
read it: the constructor leaves `hwaddr` unset, here all zero. -/
def ether_addr.unset : ether_addr := ⟨List.replicate 6 0, rfl⟩

/-- The function `Interface::get_or_create(index, name)`: the instance it
returns and the list `interfaces` afterwards.  `p` is the address of the object
that `make_shared` allocates when a new instance is made. -/
def Interface.get_or_create (interfaces : List registered) (p : Nat) (index : Nat)
    (name : String) : registered × List registered :=
  match interfaces.find? (fun e =>
      e.live && (decide (e.iface._index = index) || decide (e.iface._name = name))) with
  | some e => (e, interfaces)
  | none =>
    let iface : registered := ⟨p, ⟨index, name, ether_addr.unset⟩, true⟩
    (iface, interfaces ++ [iface])

/-- The end of the life of the object at address `p`: the weak pointers to it
in `interfaces` expire. -/
def Interface.registry_expire (interfaces : List registered) (p : Nat) : List registered :=
  interfaces.map (fun e => if e.ptr = p then { e with live := false } else e)

/-- The states of `interfaces` that arise from the empty list through calls of
`get_or_create(index, name)`, each allocating at an address not in use, and
through the end of the life of instances. -/
inductive Interface.RegistryReachable : List registered → Prop where
  | init : Interface.RegistryReachable []
  | get_or_create (reg : List registered) (p index : Nat) (name : String) :
      Interface.RegistryReachable reg →
      p ∉ reg.map registered.ptr →
      Interface.RegistryReachable (Interface.get_or_create reg p index name).2
  | expire (reg : List registered) (p : Nat) :
      Interface.RegistryReachable reg →
      Interface.RegistryReachable (Interface.registry_expire reg p)

/-- Two entries of the registry do not clash: they are different objects,
and when both are live they differ in index and in name. -/
def registered.apart (a b : registered) : Prop :=
  a.ptr ≠ b.ptr ∧
    (a.live = true → b.live = true →
      a.iface._index ≠ b.iface._index ∧ a.iface._name ≠ b.iface._name)

/-! ## Interface flags (`allmulti`, `promisc`, `ensure_packet_socket`, destructor) -/

/-- `IFF_PROMISC`. -/
def IFF_PROMISC : Nat := 0x100
/-- `IFF_ALLMULTI`. -/
def IFF_ALLMULTI : Nat := 0x200

/-- The flag word of the network interface in the kernel, and the words
written to it with `SIOCSIFFLAGS`, in order. -/
structure nic where
  flags : Nat
  writes : List Nat
deriving DecidableEq

/-- The assignment `ifr.ifr_flags |= mask` (`ifr_flags` has 16 bits). -/
def ifr_flags_set (flags mask : Nat) : Nat := (flags ||| mask) % 2 ^ 16

/-- The assignment `ifr.ifr_flags &= ~mask`. -/
def ifr_flags_clear (flags mask : Nat) : Nat := flags &&& ((2 ^ 16 - 1) ^^^ mask)

/-- The body that `Interface::allmulti` and `Interface::promisc` share; they
differ in the flag `mask` only.  Returns `old_state` and the kernel state. -/
def Interface.toggle_flag (mask : Nat) (k : nic) (state : Bool) : Int × nic :=
  let ifr_flags := k.flags
  let old_state : Bool := (ifr_flags &&& mask) != 0
  if state = old_state then
    (if old_state then 1 else 0, k)
  else
    let ifr_flags := if state then ifr_flags_set ifr_flags mask
      else ifr_flags_clear ifr_flags mask
    (if old_state then 1 else 0, ⟨ifr_flags, k.writes ++ [ifr_flags]⟩)

/-- The function `Interface::allmulti(state)`. -/
def Interface.allmulti (k : nic) (state : Bool) : Int × nic :=
  Interface.toggle_flag IFF_ALLMULTI k state

/-- The function `Interface::promisc(state)`. -/
def Interface.promisc (k : nic) (state : Bool) : Int × nic :=
  Interface.toggle_flag IFF_PROMISC k state

/-- The members of an `Interface` that `ensure_packet_socket` and the
destructor use: whether `_packet_socket` is set, `_prev_allmulti` and
`_prev_promisc`. -/
structure Interface.members where
  _packet_socket : Bool
  _prev_allmulti : Int
  _prev_promisc : Int
deriving DecidableEq

/-- The function `Interface::ensure_packet_socket(promisc)`, as far as the
flags go.  `allmulti_default` and `promisc_default` are the default arguments
of `allmulti()` and `promisc()`, which interface.h (absent) declares. -/
def Interface.ensure_packet_socket (allmulti_default promisc_default : Bool)
    (o : Interface.members) (k : nic) (promisc : Bool) : Interface.members × nic :=
  if o._packet_socket then (o, k)
  else
    let r1 := Interface.allmulti k allmulti_default
    let r2 := if promisc then Interface.promisc r1.2 promisc_default else (-1, r1.2)
    (⟨true, r1.1, r2.1⟩, r2.2)

/-- The destructor `Interface::~Interface`, as far as the flags go. -/
def Interface.destroy (o : Interface.members) (k : nic) : nic :=
  if o._packet_socket then
    let k := if o._prev_allmulti ≥ 0 then
        (Interface.allmulti k (decide (o._prev_allmulti ≠ 0))).2 else k
    if o._prev_promisc ≥ 0 then
      (Interface.promisc k (decide (o._prev_promisc ≠ 0))).2 else k
  else k

/-- Several calls of `ensure_packet_socket`, with the arguments `args`. -/
def Interface.ensure_packet_socket_calls (allmulti_default promisc_default : Bool)
    (o : Interface.members) (k : nic) (args : List Bool) : Interface.members × nic :=
  args.foldl (fun s a =>
    Interface.ensure_packet_socket allmulti_default promisc_default s.1 s.2 a) (o, k)

/-- Two flag words agree in every bit but those of `IFF_PROMISC` (bit 8) and
`IFF_ALLMULTI` (bit 9). -/
def flags_agree (a b : Nat) : Prop :=
  ∀ i : Nat, i ≠ 8 → i ≠ 9 → a.testBit i = b.testBit i

/-! ## The configuration parser (`conf::skip`, `conf::parse`, `conf::parse_block`) -/

/-- The loop `while (*str && isspace(*str) && ((*str != '\n') || newlines)) str++`
of `conf::skip`. -/
def conf.skip_space (newlines : Bool) : List Char → List Char
  | [] => []
  | c :: cs =>
    if c != '\x00' && isspace c && (c != '\n' || newlines) then conf.skip_space newlines cs
    else c :: cs

/-- The loop `while (*str && (*str != '\n')) str++` of `conf::skip`. -/
def conf.skip_line : List Char → List Char
  | [] => []
  | c :: cs => if c != '\x00' && c != '\n' then conf.skip_line cs else c :: cs

/-- The loop over a `/* */` comment of `conf::skip`. -/
def conf.skip_comment : List Char → List Char
  | [] => []
  | c :: cs =>
    if c == '\x00' then c :: cs
    else if c == '*' && cstr_deref cs == '/' then cs.drop 1
    else conf.skip_comment cs

/-- The outer loop `while (*str)` of `conf::skip`; `fuel` bounds the number of
iterations. -/
def conf.skip_loop (newlines : Bool) : Nat → List Char → List Char
  | 0, str => str
  | fuel + 1, str =>
    if cstr_deref str == '\x00' then str
    else
      let str := conf.skip_space newlines str
      if cstr_deref str == '#' || (cstr_deref str == '/' && cstr_deref1 str == '/') then
        conf.skip_loop newlines fuel (conf.skip_line str)
      else if cstr_deref str == '/' && cstr_deref1 str == '*' then
        conf.skip_loop newlines fuel (conf.skip_comment str)
      else str

/-- The function `conf::skip(str, newlines)`; every iteration of its outer loop
but the last consumes a character, so the length of the text bounds their
number. -/
def conf.skip (str : List Char) (newlines : Bool) : List Char :=
  conf.skip_loop newlines (str.length + 1) str

/-- The function `_map.insert` of the multimap: the pair goes behind the last
entry whose key is not greater. -/
def conf.map_insert : List (String × conf) → String × conf → List (String × conf)
  | [], kv => [kv]
  | x :: xs, kv => if kv.1 < x.1 then kv :: x :: xs else x :: conf.map_insert xs kv

/-- What `conf::parse_block` and `conf::parse` give back: the return value,
the position `*str` and what was built (the `_map`, the node). -/
abbrev conf.parsed (α : Type) : Type := Bool × List Char × α

/-- The function `conf::parse(str)`; `parse_block` stands for the call of
`parse_block` on the new node.  `none` when that call does not return. -/
def conf.parse_with (parse_block : List Char → Option (conf.parsed (List (String × conf))))
    (str : List Char) : Option (conf.parsed conf) :=
  let p := conf.skip str false
  let r : String × List Char :=
    if cstr_deref p == '\'' || cstr_deref p == '"' then
      let e := cstr_deref p
      let q := p.drop 1
      (String.mk (q.takeWhile (fun c => c != '\x00' && c != e && c != '\n')),
        conf.skip (q.dropWhile (fun c => c != '\x00' && c != e && c != '\n')) false)
    else
      (String.mk (p.takeWhile (fun c => c != '\x00' && isgraph c && c != '{' && c != '}')),
        p.dropWhile (fun c => c != '\x00' && isgraph c && c != '{' && c != '}'))
  let _value := r.1
  let p := conf.skip r.2 false
  if cstr_deref p == '{' then
    let p := p.drop 1
    match parse_block p with
    | none => none
    | some (false, _, _) => some (false, str, conf.mk _value true [])
    | some (true, p, _map) =>
      if cstr_deref p != '}' then some (false, str, conf.mk _value true _map)
      else some (true, p.drop 1, conf.mk _value true _map)
  else some (true, p, conf.mk _value false [])

/-- The function `conf::parse_block(str)` on a node whose `_map` is `_map`.
`fuel` bounds the number of loop iterations and the depth of the nested
calls; `none` when it is used up, that is when the function has not returned
within that bound. -/
def conf.parse_block : Nat → List Char → List (String × conf) →
    Option (conf.parsed (List (String × conf)))
  | 0, _, _ => none
  | fuel + 1, p, _map =>
    if cstr_deref p == '\x00' then some (true, p, _map)
    else
      let p := conf.skip p true
      if cstr_deref p == '}' || cstr_deref p == '\x00' then some (true, p, _map)
      else
        let name := String.mk (p.takeWhile (fun c => isalnum c || c == '_' || c == '-'))
        let p := p.dropWhile (fun c => isalnum c || c == '_' || c == '-')
        let p := conf.skip p false
        let p := if cstr_deref p == '=' then conf.skip (p.drop 1) false else p
        match conf.parse_with (fun q => conf.parse_block fuel q []) p with
        | none => none
        | some (false, _, _) => some (false, p, _map)
        | some (true, p, cf) => conf.parse_block fuel p (conf.map_insert _map (name, cf))

/-- The function `conf::parse(str)` with the nested calls bounded by `fuel`. -/
def conf.parse (fuel : Nat) (str : List Char) : Option (conf.parsed conf) :=
  conf.parse_with (fun q => conf.parse_block fuel q []) str

/-- A view of a configuration tree three levels deep: names and values. -/
def conf.view (m : List (String × conf)) :
    List (String × String × List (String × String × List (String × String))) :=
  m.map (fun kv => (kv.1, kv.2.as_str,
    kv.2._map.map (fun kv2 => (kv2.1, kv2.2.as_str,
      kv2.2._map.map (fun kv3 => (kv3.1, kv3.2.as_str))))))

/-- The function `conf::load(path)` on the text `buf` read from the file:
`some none` is the null pointer (the text could not be parsed), `none` stands
for a call of `parse_block` that has not returned within `fuel`. -/
def conf.load (fuel : Nat) (buf : List Char) : Option (Option conf) :=
  match conf.parse_block fuel buf [] with
  | none => none
  | some (true, _, _map) => some (some (conf.mk "" true _map))
  | some (false, _, _) => some none

/-! ## Example data -/

/-- The address `fe80::1`. -/
def addr_fe80_1 : Address := ⟨[0xfe, 0x80, 0, 0, 0, 0, 0, 0, 0, 0, 0, 0, 0, 0, 0, 1], rfl⟩

/-- The address `2001:db8::42`. -/
def addr_2001_db8_42 : Address :=
  ⟨[0x20, 0x01, 0x0d, 0xb8, 0, 0, 0, 0, 0, 0, 0, 0, 0, 0, 0, 0x42], rfl⟩

/-- A proxy with the default settings. -/
def example_proxy : proxy := ⟨1, true, 30000, 500⟩

/-- A session with the given identity, status and ttl, for `2001:db8::42`. -/
def example_session (p : Nat) (st : Status) (ttl : Int) : session :=
  ⟨p, example_proxy, addr_fe80_1, addr_fe80_1, addr_2001_db8_42, st, ttl, []⟩

/-- The payload of a `sendmsg` event. -/
def Event.payload : Event → List Byte
  | Event.sendmsg _ _ payload => payload
  | _ => []

/-- The destination of a `sendmsg` event. -/
def Event.daddr : Event → Option Address
  | Event.sendmsg _ daddr _ => some daddr
  | _ => none

/-- The address `2001:db8::`. -/
def addr_2001_db8 : Address :=
  ⟨[0x20, 0x01, 0x0d, 0xb8, 0, 0, 0, 0, 0, 0, 0, 0, 0, 0, 0, 0], rfl⟩

/-- The address `2001:db8::9`. -/
def addr_2001_db8_9 : Address :=
  ⟨[0x20, 0x01, 0x0d, 0xb8, 0, 0, 0, 0, 0, 0, 0, 0, 0, 0, 0, 9], rfl⟩

/-- The address `ff02::1:ff00:42`, the solicited-node address of
`2001:db8::42`. -/
def addr_ff02_1_ff00_42 : Address :=
  ⟨[0xff, 0x02, 0, 0, 0, 0, 0, 0, 0, 0, 0, 0x01, 0xff, 0, 0, 0x42], rfl⟩

/-- A hardware address. -/
def example_hwaddr : ether_addr := ⟨[0x02, 0x00, 0x5e, 0x10, 0x20, 0x30], rfl⟩

/-- The upstream interface `up0`. -/
def up0 : Interface := ⟨1, "up0", example_hwaddr⟩

/-- The downstream interface `dn0`. -/
def dn0 : Interface := ⟨2, "dn0", example_hwaddr⟩

/-- The rule `2001:db8::/64` bound to `dn0`. -/
def rule_dn0 : Rule := ⟨⟨addr_2001_db8, 64⟩, some dn0, false⟩

/-- The static rule `2001:db8::/64`, without interface. -/
def rule_static : Rule := ⟨⟨addr_2001_db8, 64⟩, none, false⟩

/-- A proxy on `up0` with the rule `2001:db8::/64` bound to `dn0`. -/
def proxy_up0 : Proxy := ⟨1, some up0, [rule_dn0]⟩

/-- A proxy on `up0` with the static rule `2001:db8::/64`. -/
def proxy_up0_static : Proxy := ⟨2, some up0, [rule_static]⟩

/-- A proxy without upstream interface, with the rule `2001:db8::/64` bound to
`dn0`. -/
def proxy_unbound : Proxy := ⟨3, none, [rule_dn0]⟩

/-- An Ethernet header for an IPv6 frame. -/
def example_ether_header : List Byte :=
  [0x33, 0x33, 0xff, 0x00, 0x00, 0x42, 0x02, 0x00, 0x5e, 0x00, 0x00, 0x01, 0x86, 0xdd]

/-- An IPv6 header for an ICMPv6 payload of 32 octets, from `saddr` to
`daddr`. -/
def example_ip6_hdr (saddr daddr : Address) : List Byte :=
  [0x60, 0, 0, 0, 0, 32, 58, 255] ++ saddr.octets ++ daddr.octets

/-- The frame of a neighbor solicitation from `saddr` for `taddr`, as the
packet socket delivers it: the payload is the one `write_solicit` builds. -/
def example_solicit_frame (saddr taddr : Address) : List Byte :=
  example_ether_header ++ example_ip6_hdr saddr (Interface.write_solicit_daddr taddr) ++
    (Interface.write_solicit dn0 taddr).payload

/-- A neighbor advertisement for `taddr`, as the ICMPv6 socket delivers it. -/
def example_advert (taddr : Address) : List Byte :=
  (Interface.write_advert dn0 addr_fe80_1 taddr true).payload

/-- A host that owns `fe80::1` on the interface with index 1 and `2001:db8::9`
on the interface with index 2, with the single proxy `proxy_up0`. -/
def example_world : World := ⟨[⟨addr_fe80_1, 1⟩, ⟨addr_2001_db8_9, 2⟩], [proxy_up0]⟩

/-- The same host with the single proxy `proxy_up0_static`. -/
def example_world_static : World :=
  ⟨[⟨addr_fe80_1, 1⟩, ⟨addr_2001_db8_9, 2⟩], [proxy_up0_static]⟩

/-- The rule `::/0` bound to `dn0`. -/
def rule_any_dn0 : Rule := ⟨⟨Address.zero, 0⟩, some dn0, false⟩

/-- A proxy on `up0` with the rule `::/0` bound to `dn0`. -/
def proxy_up0_any : Proxy := ⟨4, some up0, [rule_any_dn0]⟩

/-- The address `fe80::2`, which the example host does not own. -/
def addr_fe80_2 : Address := ⟨[0xfe, 0x80, 0, 0, 0, 0, 0, 0, 0, 0, 0, 0, 0, 0, 0, 2], rfl⟩

/-- A proxy configured with `timeout 1000`. -/
def example_proxy_slow : proxy := ⟨2, true, 30000, 1000⟩

/-- A leaf of the configuration tree. -/
def conf.leaf (v : String) : conf := conf.mk v false []

/-- The rule entry `rule 2001:db8::1/128` without `iface`. -/
def conf_rule_host : conf := conf.mk "2001:db8::1/128" true []

/-- The rule entry `rule 2001:db8::/64` without `iface`. -/
def conf_rule_net : conf := conf.mk "2001:db8::/64" true []

/-- The rule entry `rule 2001:db8::/64 { iface dn0 }`. -/
def conf_rule_dn0 : conf := conf.mk "2001:db8::/64" true [("iface", conf.leaf "dn0")]

/-- The block `proxy up0 { router no; timeout 1000; rule ...; }` with the given
rule entries. -/
def conf_proxy_up0 (rules : List conf) : conf :=
  conf.mk "up0" true
    ([("router", conf.leaf "no")] ++ rules.map (fun r => ("rule", r)) ++
      [("timeout", conf.leaf "1000")])

/-- A configuration file with the given proxy blocks. -/
def conf_root (proxies : List conf) : conf :=
  conf.mk "" true (proxies.map (fun p => ("proxy", p)))

/-- A stand-in for `proxy::open`: every interface can be opened. -/
def example_proxy_open (_name : String) : Option proxy := some ⟨1, false, 0, 0⟩

/-- A stand-in for the address constructor, for the two texts of the
examples. -/
def example_parse (s : String) : Cidr :=
  if s = "2001:db8::/64" then ⟨addr_2001_db8, 64⟩
  else if s = "2001:db8::1/128" then
    ⟨⟨[0x20, 0x01, 0x0d, 0xb8, 0, 0, 0, 0, 0, 0, 0, 0, 0, 0, 0, 1], rfl⟩, 128⟩
  else ⟨Address.zero, 128⟩

/-- The rule entry `rule 2001:db8::/64` whose block holds the bare word
`iface`: the `iface` entry has no name. -/
def conf_rule_iface_empty : conf := conf.mk "2001:db8::/64" true [("iface", conf.leaf "")]

/-- The rule entry `rule ""`, without address. -/
def conf_rule_empty : conf := conf.mk "" true []

/-- A configuration node with the children `a -> x` and `b -> y`. -/
def conf_two_keys : conf := conf.mk "" true [("a", conf.leaf "x"), ("b", conf.leaf "y")]

/-- A registry with one live interface, index 1 and name `eth0`. -/
def registry_eth0 : List registered := [⟨100, ⟨1, "eth0", ether_addr.unset⟩, true⟩]

/-- A configuration file whose rule has an `iface` entry without a name. -/
def conf_text_iface_bare : String :=
  "proxy up0 \x7b\n  rule 2001:db8::/64 \x7b\n    iface\n  \x7d\n\x7d\n"

/-- The same configuration on one line, the name written as an empty quoted
text. -/
def conf_text_iface_quoted : String :=
  "proxy up0 \x7b rule 2001:db8::/64 \x7b iface \"\" \x7d \x7d"

/-- A configuration file whose rule has no address. -/
def conf_text_rule_bare : String :=
  "proxy up0 \x7b\n  rule \x7b\n    iface dn0\n  \x7d\n\x7d\n"

/-- The registry after `get_or_create(1, "eth0")` and `get_or_create(2, "eth1")`
on the empty registry, the objects being allocated at 100 and 101. -/
def registry_two : List registered :=
  (Interface.get_or_create (Interface.get_or_create [] 100 1 "eth0").2 101 2 "eth1").2

/-! # Theorems -/

/-! ## `session::update_all` -/

theorem session.list_remove_of_not_mem (p : Nat) (l : List session)
    (h : p ∉ l.map session._weak_ptr) : session.list_remove p l = l := by
  unfold session.list_remove
  rw [List.filter_eq_self]
  intro s hs
  have : s._weak_ptr ≠ p := fun hp => h (hp ▸ List.mem_map_of_mem _ hs)
  simpa using this

theorem session.tick_weak_ptr (e : Int) (se t : session)
    (h : session.tick e se = some t) : t._weak_ptr = se._weak_ptr := by
  unfold session.tick at h
  split at h
  · cases h; rfl
  · split at h
    · cases h; rfl
    · cases h

theorem session.nodup_split (visited rest : List session) (se : session)
    (hnd : ((visited ++ se :: rest).map session._weak_ptr).Nodup) :
    se._weak_ptr ∉ visited.map session._weak_ptr ∧
    se._weak_ptr ∉ rest.map session._weak_ptr ∧
    ((visited ++ rest).map session._weak_ptr).Nodup := by
  simp only [List.map_append, List.map_cons] at hnd ⊢
  have h3 := List.nodup_cons.mp (List.nodup_middle.mp hnd)
  exact ⟨fun hm => h3.1 (List.mem_append_left _ hm),
    fun hm => h3.1 (List.mem_append_right _ hm), h3.2⟩

theorem int_sub_eq (a b : Int) (h : is_int (a - b)) : int_sub a b = a - b := by
  obtain ⟨h1, h2⟩ := h
  unfold INT_MIN at h1
  unfold INT_MAX at h2
  unfold int_sub int_of_long
  omega

theorem int_sub_is_int (a b : Int) : is_int (int_sub a b) := by
  unfold is_int INT_MIN INT_MAX int_sub int_of_long
  omega

theorem session.update_all_loop_eq (e : Int) :
    ∀ (fuel : Nat) (visited removed rest : List session),
      rest.length < fuel →
      ((visited ++ rest).map session._weak_ptr).Nodup →
      session.update_all_loop e fuel visited removed rest =
        ⟨visited ++ rest.filterMap (session.tick e),
         removed ++ (rest.filter (session.expires e)).map (session.aged e)⟩ := by
  intro fuel
  induction fuel with
  | zero => intro _ _ rest h; exact absurd h (Nat.not_lt_zero _)
  | succ n ih =>
    intro visited removed rest hlen hnd
    cases rest with
    | nil => simp [session.update_all_loop]
    | cons se rest =>
      have hlen2 : rest.length < n := by simpa using hlen
      simp only [session.update_all_loop]
      by_cases hge : int_sub se._ttl e ≥ 0
      · have hnd2 : (((visited ++ [{ se with _ttl := int_sub se._ttl e }]) ++ rest).map
            session._weak_ptr).Nodup := by simpa using hnd
        rw [if_pos hge, ih _ _ _ hlen2 hnd2]
        have hx : session.expires e se = false := by
          simp [session.expires]; intro h; omega
        simp [session.tick, hge, List.filter_cons, hx]
      · rw [if_neg hge]
        cases hst : se._status with
        | WAITING =>
          have hx : session.expires e se = false := by simp [session.expires, hst]
          simp only [hst]
          rw [ih _ _ _ hlen2 (by simpa using hnd)]
          simp [session.tick, hge, hst, List.filter_cons, hx]
        | VALID =>
          obtain ⟨hv, hr, hnd2⟩ := session.nodup_split visited rest se hnd
          have hx : session.expires e se = true := by
            simp [session.expires, hst]; omega
          simp only [hst]
          rw [session.list_remove_of_not_mem _ _ hv, session.list_remove_of_not_mem _ _ hr,
            ih _ _ _ hlen2 hnd2]
          simp [session.tick, hge, hst, List.filter_cons, hx, session.aged]
        | INVALID =>
          obtain ⟨hv, hr, hnd2⟩ := session.nodup_split visited rest se hnd
          have hx : session.expires e se = true := by
            simp [session.expires, hst]; omega
          simp only [hst]
          rw [session.list_remove_of_not_mem _ _ hv, session.list_remove_of_not_mem _ _ hr,
            ih _ _ _ hlen2 hnd2]
          simp [session.tick, hge, hst, List.filter_cons, hx, session.aged]

/-- On a list of distinct session objects `update_all` is one pass of
`session.tick`, and it hands exactly the expiring sessions to
`remove_session`. -/
theorem session.update_all_eq (e : Int) (l : List session)
    (hnd : (l.map session._weak_ptr).Nodup) :
    session.update_all e l =
      ⟨l.filterMap (session.tick e),
       (l.filter (session.expires e)).map (session.aged e)⟩ := by
  unfold session.update_all
  rw [session.update_all_loop_eq e _ [] [] l (Nat.lt_succ_self _) (by simpa using hnd)]
  simp

theorem session.eq_of_mem_of_weak_ptr_eq (l : List session) (a b : session)
    (hnd : (l.map session._weak_ptr).Nodup) (ha : a ∈ l) (hb : b ∈ l)
    (h : a._weak_ptr = b._weak_ptr) : a = b :=
  List.inj_on_of_nodup_map hnd ha hb h

/-- C2 as stated fails: the subtraction `_ttl -= elapsed_time` is carried out
on `int`s.  For a `VALID` session with ttl 2147483647 and the elapsed time -1
the ttl minus the elapsed time is 2147483648, not below zero; the `int` wraps to
-2147483648 and the session is handed to `remove_session` and leaves the
list. -/
theorem session.update_all_removes_wrapped :
    is_int 2147483647 ∧ is_int (-1) ∧
    ¬ ((example_session 7 Status.VALID 2147483647)._ttl - (-1) < 0) ∧
    int_sub 2147483647 (-1) = -2147483648 ∧
    session.update_all (-1) [example_session 7 Status.VALID 2147483647] =
      ⟨[], [example_session 7 Status.VALID (-2147483648)]⟩ := by
  decide

/-- C2, amended: for a list of distinct session objects and any elapsed time
`e`, `update_all e` hands every session whose status is not `WAITING` and whose
ttl minus `e`, as the `int` the code computes, is below zero to
`remove_session`, and no entry for that object is in the list afterwards; every
other session of the list still has its entry, and nothing else is handed to
`remove_session`.  That `int` is the ttl minus `e` whenever the latter is
within the range of `int`. -/
theorem session.update_all_removes_expired (e : Int) (l : List session)
    (hnd : (l.map session._weak_ptr).Nodup) :
    (∀ se ∈ l, se._status ≠ Status.WAITING → int_sub se._ttl e < 0 →
        session.aged e se ∈ (session.update_all e l).removed ∧
        ∀ t ∈ (session.update_all e l).sessions, t._weak_ptr ≠ se._weak_ptr) ∧
    (∀ se ∈ l, ¬ (se._status ≠ Status.WAITING ∧ int_sub se._ttl e < 0) →
        ∃ t ∈ (session.update_all e l).sessions, t._weak_ptr = se._weak_ptr) ∧
    (∀ t ∈ (session.update_all e l).removed,
        ∃ se ∈ l, t = session.aged e se ∧ se._status ≠ Status.WAITING ∧
          int_sub se._ttl e < 0) ∧
    (∀ se ∈ l, is_int (se._ttl - e) → int_sub se._ttl e = se._ttl - e) := by
  rw [session.update_all_eq e l hnd]
  refine ⟨?_, ?_, ?_, fun se _ h => int_sub_eq _ _ h⟩
  · intro se hmem hst httl
    have hx : session.expires e se = true := by simp [session.expires, hst, httl]
    refine ⟨List.mem_map.mpr ⟨se, List.mem_filter.mpr ⟨hmem, hx⟩, rfl⟩, ?_⟩
    intro t ht hp
    obtain ⟨s, hs, hst2⟩ := List.mem_filterMap.mp ht
    have hps : s._weak_ptr = se._weak_ptr := by
      rw [← session.tick_weak_ptr e s t hst2]; exact hp
    have : s = se := session.eq_of_mem_of_weak_ptr_eq l s se hnd hs hmem hps
    subst this
    have hge : ¬ int_sub s._ttl e ≥ 0 := by omega
    cases hs2 : s._status with
    | WAITING => exact hst hs2
    | VALID => simp [session.tick, hge, hs2] at hst2
    | INVALID => simp [session.tick, hge, hs2] at hst2
  · intro se hmem hno
    by_cases hge : int_sub se._ttl e ≥ 0
    · exact ⟨{ se with _ttl := int_sub se._ttl e },
        List.mem_filterMap.mpr ⟨se, hmem, by simp [session.tick, hge]⟩, rfl⟩
    · have hst : se._status = Status.WAITING := by
        by_contra hne
        exact hno ⟨hne, by omega⟩
      exact ⟨{ se with _status := Status.INVALID, _ttl := 30 * 1000 },
        List.mem_filterMap.mpr ⟨se, hmem, by simp [session.tick, hge, hst]⟩, rfl⟩
  · intro t ht
    simp only [List.mem_map, List.mem_filter] at ht
    obtain ⟨s, ⟨hs, hx⟩, rfl⟩ := ht
    simp only [session.expires, Bool.and_eq_true, decide_eq_true_eq, bne_iff_ne, ne_eq] at hx
    exact ⟨s, hs, rfl, hx.2, hx.1⟩

theorem session.update_all_removes_expired_witness :
    (∀ se ∈ [example_session 7 Status.VALID 10, example_session 8 Status.WAITING 10,
          example_session 9 Status.INVALID 30],
        se._status ≠ Status.WAITING → int_sub se._ttl 20 < 0 →
        session.aged 20 se ∈ (session.update_all 20 [example_session 7 Status.VALID 10,
          example_session 8 Status.WAITING 10, example_session 9 Status.INVALID 30]).removed ∧
        ∀ t ∈ (session.update_all 20 [example_session 7 Status.VALID 10,
          example_session 8 Status.WAITING 10, example_session 9 Status.INVALID 30]).sessions,
          t._weak_ptr ≠ se._weak_ptr) ∧
    (∀ se ∈ [example_session 7 Status.VALID 10, example_session 8 Status.WAITING 10,
          example_session 9 Status.INVALID 30],
        ¬ (se._status ≠ Status.WAITING ∧ int_sub se._ttl 20 < 0) →
        ∃ t ∈ (session.update_all 20 [example_session 7 Status.VALID 10,
          example_session 8 Status.WAITING 10, example_session 9 Status.INVALID 30]).sessions,
          t._weak_ptr = se._weak_ptr) ∧
    (∀ t ∈ (session.update_all 20 [example_session 7 Status.VALID 10,
          example_session 8 Status.WAITING 10, example_session 9 Status.INVALID 30]).removed,
        ∃ se ∈ [example_session 7 Status.VALID 10, example_session 8 Status.WAITING 10,
          example_session 9 Status.INVALID 30],
          t = session.aged 20 se ∧ se._status ≠ Status.WAITING ∧ int_sub se._ttl 20 < 0) ∧
    (∀ se ∈ [example_session 7 Status.VALID 10, example_session 8 Status.WAITING 10,
          example_session 9 Status.INVALID 30],
        is_int (se._ttl - 20) → int_sub se._ttl 20 = se._ttl - 20) :=
  session.update_all_removes_expired 20 [example_session 7 Status.VALID 10,
    example_session 8 Status.WAITING 10, example_session 9 Status.INVALID 30] (by decide)

/-- The run behind the witness of C2, evaluated: the `VALID` session whose ttl
ran out is handed to `remove_session` and leaves the list, the `WAITING` one
becomes `INVALID`, the third one only ages. -/
theorem session.update_all_example :
    session.update_all 20 [example_session 7 Status.VALID 10,
        example_session 8 Status.WAITING 10, example_session 9 Status.INVALID 30] =
      ⟨[example_session 8 Status.INVALID 30000, example_session 9 Status.INVALID 10],
       [example_session 7 Status.VALID (-10)]⟩ := by
  decide

/-- The `int` arithmetic of `update_all` at the ends of the range, evaluated:
a `WAITING` session with ttl 500 and the elapsed time -2147483648 becomes
`INVALID` (the `int` wraps below zero), and within the range the ttl is the
difference. -/
theorem session.update_all_wrap_example :
    session.update_all (-2147483648) [example_session 7 Status.WAITING 500] =
      ⟨[example_session 7 Status.INVALID 30000], []⟩ ∧
    session.update_all (-1) [example_session 7 Status.VALID 2147483646] =
      ⟨[example_session 7 Status.VALID 2147483647], []⟩ ∧
    session.update_all 2147483647 [example_session 7 Status.VALID 0] =
      ⟨[], [example_session 7 Status.VALID (-2147483647)]⟩ := by
  decide

/-- C3 as stated fails: a session whose ttl equals the elapsed time survives
the call with ttl 0. -/
theorem session.update_all_keeps_ttl_zero :
    example_session 7 Status.VALID 0
        ∈ (session.update_all 500 [example_session 7 Status.VALID 500]).sessions ∧
    ¬ (∀ s ∈ (session.update_all 500 [example_session 7 Status.VALID 500]).sessions,
        s._ttl > 0) := by
  decide

theorem session.update_all_loop_ttl_nonneg (e : Int) :
    ∀ (fuel : Nat) (visited removed rest : List session),
      rest.length < fuel →
      (∀ s ∈ visited, s._ttl ≥ 0) →
      ∀ s ∈ (session.update_all_loop e fuel visited removed rest).sessions, s._ttl ≥ 0 := by
  intro fuel
  induction fuel with
  | zero => intro _ _ rest h; exact absurd h (Nat.not_lt_zero _)
  | succ n ih =>
    intro visited removed rest hlen hv
    cases rest with
    | nil => simpa [session.update_all_loop] using hv
    | cons se rest =>
      have hlen2 : rest.length < n := by simpa using hlen
      have hfl : (session.list_remove se._weak_ptr rest).length < n :=
        lt_of_le_of_lt (List.length_filter_le _ _) hlen2
      have hvis : ∀ s ∈ session.list_remove se._weak_ptr visited, s._ttl ≥ 0 :=
        fun s hs => hv s (List.mem_of_mem_filter hs)
      simp only [session.update_all_loop]
      by_cases hge : int_sub se._ttl e ≥ 0
      · rw [if_pos hge]
        apply ih _ _ _ hlen2
        intro s hs
        rcases List.mem_append.mp hs with h | h
        · exact hv s h
        · rw [List.mem_singleton.mp h]; exact hge
      · rw [if_neg hge]
        cases hst : se._status with
        | WAITING =>
          apply ih _ _ _ hlen2
          intro s hs
          rcases List.mem_append.mp hs with h | h
          · exact hv s h
          · rw [List.mem_singleton.mp h]
            show (30 * 1000 : Int) ≥ 0
            decide
        | VALID => exact ih _ _ _ hfl hvis
        | INVALID => exact ih _ _ _ hfl hvis

/-- C3, amended: after every call of `update_all` every session still in the
list has ttl at least 0. -/
theorem session.update_all_ttl_nonneg (e : Int) (l : List session) :
    ∀ s ∈ (session.update_all e l).sessions, s._ttl ≥ 0 :=
  session.update_all_loop_ttl_nonneg e _ [] [] l (Nat.lt_succ_self _)
    (fun _ h => absurd h (List.not_mem_nil _))

theorem session.update_all_ttl_nonneg_witness :
    (example_session 7 Status.VALID 0)._ttl ≥ 0 :=
  session.update_all_ttl_nonneg 500 [example_session 7 Status.VALID 500]
    (example_session 7 Status.VALID 0) (by decide)

/-! ## The socket filter -/

theorem Interface.filter_take_eq :
    Interface.filter.take Interface.fprog_len =
      [⟨0x28, 0, 0, 12⟩, ⟨0x15, 0, 5, 0x86dd⟩, ⟨0x30, 0, 0, 20⟩, ⟨0x15, 0, 3, 58⟩,
       ⟨0x30, 0, 0, 54⟩, ⟨0x15, 0, 1, 135⟩, ⟨0x06, 0, 0, 4294967295⟩, ⟨0x06, 0, 0, 0⟩] := by
  decide

theorem bpf_run_ld_h (prog : List sock_filter) (frame : List Byte) (fuel pc acc k : Nat)
    (h : prog[pc]? = some ⟨0x28, 0, 0, k⟩) :
    bpf_run prog frame (fuel + 1) pc acc =
      match frame[k]?, frame[k + 1]? with
      | some hi, some lo => bpf_run prog frame fuel (pc + 1) (hi.val * 256 + lo.val)
      | _, _ => some 0 := by
  rw [bpf_run, h]
  have h1 : (BPF_LD ||| BPF_H ||| BPF_ABS) = 0x28 := by decide
  simp only [h1, if_true]

theorem bpf_run_ld_b (prog : List sock_filter) (frame : List Byte) (fuel pc acc k : Nat)
    (h : prog[pc]? = some ⟨0x30, 0, 0, k⟩) :
    bpf_run prog frame (fuel + 1) pc acc =
      match frame[k]? with
      | some b => bpf_run prog frame fuel (pc + 1) b.val
      | none => some 0 := by
  rw [bpf_run, h]
  have h1 : (BPF_LD ||| BPF_H ||| BPF_ABS) = 0x28 := by decide
  have h2 : (BPF_LD ||| BPF_B ||| BPF_ABS) = 0x30 := by decide
  simp only [h1, h2, if_true, show ¬ ((0x30 : Nat) = 0x28) by decide, if_false]

theorem bpf_run_jeq (prog : List sock_filter) (frame : List Byte) (fuel pc acc k jt jf : Nat)
    (h : prog[pc]? = some ⟨0x15, jt, jf, k⟩) :
    bpf_run prog frame (fuel + 1) pc acc =
      bpf_run prog frame fuel (pc + 1 + (if acc = k then jt else jf)) acc := by
  rw [bpf_run, h]
  have h1 : (BPF_LD ||| BPF_H ||| BPF_ABS) = 0x28 := by decide
  have h2 : (BPF_LD ||| BPF_B ||| BPF_ABS) = 0x30 := by decide
  have h3 : (BPF_JMP ||| BPF_JEQ ||| BPF_K) = 0x15 := by decide
  simp only [h1, h2, h3, if_true, show ¬ ((0x15 : Nat) = 0x28) by decide,
    show ¬ ((0x15 : Nat) = 0x30) by decide, if_false]

theorem bpf_run_ret (prog : List sock_filter) (frame : List Byte) (fuel pc acc k : Nat)
    (h : prog[pc]? = some ⟨0x06, 0, 0, k⟩) :
    bpf_run prog frame (fuel + 1) pc acc = some k := by
  rw [bpf_run, h]
  have h1 : (BPF_LD ||| BPF_H ||| BPF_ABS) = 0x28 := by decide
  have h2 : (BPF_LD ||| BPF_B ||| BPF_ABS) = 0x30 := by decide
  have h3 : (BPF_JMP ||| BPF_JEQ ||| BPF_K) = 0x15 := by decide
  have h4 : (BPF_RET ||| BPF_K) = 0x06 := by decide
  simp only [h1, h2, h3, h4, if_true, show ¬ ((0x06 : Nat) = 0x28) by decide,
    show ¬ ((0x06 : Nat) = 0x30) by decide, show ¬ ((0x06 : Nat) = 0x15) by decide, if_false]

theorem Byte.some_eq_iff (b : Byte) (n : Nat) (hn : n < 256) :
    (some b = some (⟨n, hn⟩ : Byte)) ↔ b.val = n := by
  rw [Option.some.injEq, Fin.ext_iff]

/-- C5: under classic BPF semantics the 8-instruction filter ends on every
frame with a verdict, and the verdict is non-zero (accept) if and only if the
octets at offsets 12 and 13 are `0x86 0xdd` (the big-endian 16-bit value at
offset 12 is `0x86dd`), the octet at offset 20 is 58 and the octet at offset 54
is 135; on every other frame, also one too short for these loads, the verdict
is 0. -/
theorem Interface.run_filter_spec (frame : List Byte) :
    ∃ r, Interface.run_filter frame = some r ∧
      (r ≠ 0 ↔ (frame[12]? = some 0x86 ∧ frame[13]? = some 0xdd ∧
        frame[20]? = some 58 ∧ frame[54]? = some 135)) := by
  rw [Interface.run_filter, Interface.filter_take_eq, Interface.fprog_len]
  rw [bpf_run_ld_h _ _ _ _ _ 12 rfl]
  rcases h12 : frame[12]? with _ | b12
  · exact ⟨0, rfl, by simp⟩
  rcases h13 : frame[13]? with _ | b13
  · exact ⟨0, rfl, by simp⟩
  simp only []
  have e12 : (some b12 = some (0x86 : Byte)) ↔ b12.val = 0x86 := Byte.some_eq_iff b12 0x86 (by decide)
  have e13 : (some b13 = some (0xdd : Byte)) ↔ b13.val = 0xdd := Byte.some_eq_iff b13 0xdd (by decide)
  have l12 := b12.isLt
  have l13 := b13.isLt
  rw [bpf_run_jeq _ _ _ _ _ 0x86dd 0 5 rfl]
  by_cases he : b12.val * 256 + b13.val = 0x86dd
  · rw [if_pos he, bpf_run_ld_b _ _ _ _ _ 20 rfl]
    have v12 : b12.val = 0x86 := by omega
    have v13 : b13.val = 0xdd := by omega
    rcases h20 : frame[20]? with _ | b20
    · exact ⟨0, rfl, by simp⟩
    simp only []
    have e20 : (some b20 = some (58 : Byte)) ↔ b20.val = 58 := Byte.some_eq_iff b20 58 (by decide)
    rw [bpf_run_jeq _ _ _ _ _ 58 0 3 rfl]
    by_cases he2 : b20.val = 58
    · rw [if_pos he2, bpf_run_ld_b _ _ _ _ _ 54 rfl]
      rcases h54 : frame[54]? with _ | b54
      · exact ⟨0, rfl, by simp⟩
      simp only []
      have e54 : (some b54 = some (135 : Byte)) ↔ b54.val = 135 :=
        Byte.some_eq_iff b54 135 (by decide)
      rw [bpf_run_jeq _ _ _ _ _ 135 0 1 rfl]
      by_cases he3 : b54.val = 135
      · rw [if_pos he3, bpf_run_ret _ _ _ _ _ 4294967295 rfl]
        exact ⟨4294967295, rfl, by rw [e12, e13, e20, e54]; exact ⟨fun _ => ⟨v12, v13, he2, he3⟩, fun _ => by decide⟩⟩
      · rw [if_neg he3, bpf_run_ret _ _ _ _ _ 0 rfl]
        exact ⟨0, rfl, by rw [e12, e13, e20, e54]; exact ⟨fun h => absurd rfl h, fun h => absurd h.2.2.2 he3⟩⟩
    · rw [if_neg he2, bpf_run_ret _ _ _ _ _ 0 rfl]
      exact ⟨0, rfl, by rw [e12, e13, e20]; exact ⟨fun h => absurd rfl h, fun h => absurd h.2.2.1 he2⟩⟩
  · rw [if_neg he, bpf_run_ret _ _ _ _ _ 0 rfl]
    refine ⟨0, rfl, ?_⟩
    rw [e12, e13]
    exact ⟨fun h => absurd rfl h, fun h => absurd (by omega) he⟩

/-! ## `Interface::packet_handler` -/

/-- C4 fails on the code: a solicit whose source address is one of the host's
own addresses makes `read_solicit` return 0, which `packet_handler` does not
tell from a solicit to handle; here `handle_solicit` is called on the proxy the
interface serves. -/
theorem Interface.packet_handler_local_saddr :
    Interface.is_local example_world addr_fe80_1 = true ∧
    (Interface.read_solicit example_world Buffer.zero
        (some (example_solicit_frame addr_fe80_1 addr_2001_db8_42))
        Address.zero Address.zero Address.zero) =
      ⟨0, addr_fe80_1, addr_ff02_1_ff00_42, addr_2001_db8_42⟩ ∧
    Interface.packet_handler example_world up0 [proxy_up0] [] Buffer.zero
        [example_solicit_frame addr_fe80_1 addr_2001_db8_42] =
      some [Event.handle_solicit proxy_up0 addr_fe80_1 addr_2001_db8_42 "up0"] := by
  decide

/-! ## Encoding and decoding -/

theorem list_exists_cons {α : Type} (l : List α) (n : Nat) (h : l.length = n + 1) :
    ∃ a t, l = a :: t ∧ t.length = n := by
  cases l with
  | nil => simp at h
  | cons a t => exact ⟨a, t, rfl, by simpa using h⟩

theorem Address.exists_octets (a : Address) :
    ∃ (a0 a1 a2 a3 a4 a5 a6 a7 a8 a9 a10 a11 a12 a13 a14 a15 : Byte) (h : [a0, a1, a2, a3, a4, a5, a6, a7, a8, a9, a10, a11, a12, a13, a14, a15].length = 16), a = ⟨[a0, a1, a2, a3, a4, a5, a6, a7, a8, a9, a10, a11, a12, a13, a14, a15], h⟩ := by
  obtain ⟨l, h⟩ := a
  obtain ⟨a0, l0, rfl, k0⟩ := list_exists_cons l _ h
  obtain ⟨a1, l1, rfl, k1⟩ := list_exists_cons l0 _ k0
  obtain ⟨a2, l2, rfl, k2⟩ := list_exists_cons l1 _ k1
  obtain ⟨a3, l3, rfl, k3⟩ := list_exists_cons l2 _ k2
  obtain ⟨a4, l4, rfl, k4⟩ := list_exists_cons l3 _ k3
  obtain ⟨a5, l5, rfl, k5⟩ := list_exists_cons l4 _ k4
  obtain ⟨a6, l6, rfl, k6⟩ := list_exists_cons l5 _ k5
  obtain ⟨a7, l7, rfl, k7⟩ := list_exists_cons l6 _ k6
  obtain ⟨a8, l8, rfl, k8⟩ := list_exists_cons l7 _ k7
  obtain ⟨a9, l9, rfl, k9⟩ := list_exists_cons l8 _ k8
  obtain ⟨a10, l10, rfl, k10⟩ := list_exists_cons l9 _ k9
  obtain ⟨a11, l11, rfl, k11⟩ := list_exists_cons l10 _ k10
  obtain ⟨a12, l12, rfl, k12⟩ := list_exists_cons l11 _ k11
  obtain ⟨a13, l13, rfl, k13⟩ := list_exists_cons l12 _ k12
  obtain ⟨a14, l14, rfl, k14⟩ := list_exists_cons l13 _ k13
  obtain ⟨a15, l15, rfl, k15⟩ := list_exists_cons l14 _ k14
  cases l15 with
  | nil => exact ⟨a0, a1, a2, a3, a4, a5, a6, a7, a8, a9, a10, a11, a12, a13, a14, a15, rfl, rfl⟩
  | cons _ _ => simp at k15

theorem ether_addr.exists_six_octets (a : ether_addr) :
    ∃ (h0 h1 h2 h3 h4 h5 : Byte) (h : [h0, h1, h2, h3, h4, h5].length = 6), a = ⟨[h0, h1, h2, h3, h4, h5], h⟩ := by
  obtain ⟨l, h⟩ := a
  obtain ⟨h0, l0, rfl, k0⟩ := list_exists_cons l _ h
  obtain ⟨h1, l1, rfl, k1⟩ := list_exists_cons l0 _ k0
  obtain ⟨h2, l2, rfl, k2⟩ := list_exists_cons l1 _ k1
  obtain ⟨h3, l3, rfl, k3⟩ := list_exists_cons l2 _ k2
  obtain ⟨h4, l4, rfl, k4⟩ := list_exists_cons l3 _ k3
  obtain ⟨h5, l5, rfl, k5⟩ := list_exists_cons l4 _ k4
  cases l5 with
  | nil => exact ⟨h0, h1, h2, h3, h4, h5, rfl, rfl⟩
  | cons _ _ => simp at k5

theorem Address.foldl_low24 (pre : List Byte) (x y z : Byte) :
    (pre ++ [x, y, z]).foldl (fun acc (b : Byte) => acc * 256 + b.val) 0 =
      pre.foldl (fun acc (b : Byte) => acc * 256 + b.val) 0 * 2 ^ 24 +
        (x.val * 65536 + y.val * 256 + z.val) := by
  rw [List.foldl_append]
  simp only [List.foldl]
  generalize pre.foldl (fun acc (b : Byte) => acc * 256 + b.val) 0 = P
  omega

/-- C7: the destination of the solicitation that `write_solicit` sends for the
target `T` is `ff02::1:ff00:0000` with its last three octets (13, 14, 15: the
low 24 bits) replaced by those of `T`; the first thirteen octets (104 bits) are
those of `ff02::1:ff00:0000`. -/
theorem Interface.write_solicit_daddr_spec (this : Interface) (T : Address) :
    ∃ d : Address, (Interface.write_solicit this T).daddr = some d ∧
      d.octets = [0xff, 0x02, 0, 0, 0, 0, 0, 0, 0, 0, 0, 0x01, 0xff,
        T.s6_addr 13, T.s6_addr 14, T.s6_addr 15] ∧
      d.toNat = 0xff0200000000000000000001ff000000 + T.toNat % 2 ^ 24 := by
  refine ⟨Interface.write_solicit_daddr T, rfl, rfl, ?_⟩
  obtain ⟨a0, a1, a2, a3, a4, a5, a6, a7, a8, a9, a10, a11, a12, a13, a14, a15, h, rfl⟩ :=
    Address.exists_octets T
  have hd : (Interface.write_solicit_daddr
      ⟨[a0, a1, a2, a3, a4, a5, a6, a7, a8, a9, a10, a11, a12, a13, a14, a15], h⟩).toNat =
      ([0xff, 0x02, 0, 0, 0, 0, 0, 0, 0, 0, 0, 0x01, 0xff] ++ [a13, a14, a15]).foldl
        (fun acc (b : Byte) => acc * 256 + b.val) 0 := rfl
  have ht : (⟨[a0, a1, a2, a3, a4, a5, a6, a7, a8, a9, a10, a11, a12, a13, a14, a15], h⟩ :
      Address).toNat =
      ([a0, a1, a2, a3, a4, a5, a6, a7, a8, a9, a10, a11, a12] ++ [a13, a14, a15]).foldl
        (fun acc (b : Byte) => acc * 256 + b.val) 0 := rfl
  have hc : ([0xff, 0x02, 0, 0, 0, 0, 0, 0, 0, 0, 0, 0x01, 0xff] : List Byte).foldl
      (fun acc (b : Byte) => acc * 256 + b.val) 0 = 0xff0200000000000000000001ff := by decide
  rw [hd, ht, Address.foldl_low24, Address.foldl_low24, hc]
  have := a13.isLt
  have := a14.isLt
  have := a15.isLt
  omega

theorem Interface.write_advert_eq (this : Interface) (daddr taddr : Address) (router : Bool) :
    Interface.write_advert this daddr taddr router =
      Event.sendmsg this._name daddr
        ([136, 0, 0, 0,
          Byte.ofNat ((if daddr.is_multicast then 0 else 0x40) + (if router then 0x80 else 0)),
          0, 0, 0] ++ taddr.octets ++ [2, 1] ++ this.hwaddr.octets) := by
  obtain ⟨a0, a1, a2, a3, a4, a5, a6, a7, a8, a9, a10, a11, a12, a13, a14, a15, h, rfl⟩ :=
    Address.exists_octets taddr
  obtain ⟨idx, name, hw⟩ := this
  obtain ⟨h0, h1, h2, h3, h4, h5, hh, rfl⟩ := ether_addr.exists_six_octets hw
  cases router <;> cases hm : daddr.is_multicast <;>
    simp only [Interface.write_advert, Interface.write_advert_buf, hm] <;> rfl

theorem Interface.write_solicit_eq (this : Interface) (taddr : Address) :
    Interface.write_solicit this taddr =
      Event.sendmsg this._name (Interface.write_solicit_daddr taddr)
        ([135, 0, 0, 0, 0, 0, 0, 0] ++ taddr.octets ++ [1, 1] ++ this.hwaddr.octets) := by
  obtain ⟨a0, a1, a2, a3, a4, a5, a6, a7, a8, a9, a10, a11, a12, a13, a14, a15, h, rfl⟩ :=
    Address.exists_octets taddr
  obtain ⟨idx, name, hw⟩ := this
  obtain ⟨h0, h1, h2, h3, h4, h5, hh, rfl⟩ := ether_addr.exists_six_octets hw
  rfl

theorem Address.is_unicast_eq (a : Address) : a.is_unicast = !a.is_multicast := rfl

/-- C6: for every destination `daddr`, target `taddr` and router flag, the
message `write_advert` sends goes to `daddr`, is 32 octets long and has type
136; in the flag octet the SOLICITED bit (0x40) is set if and only if `daddr`
is unicast, the ROUTER bit (0x80) if and only if `router` is true, and no other
bit of the 32-bit flag field is set; the target is `taddr`; then follows the
option of type 2 (target link-layer address) and length 1 with the six octets
of the interface's `hwaddr`. -/
theorem Interface.write_advert_spec (this : Interface) (daddr taddr : Address)
    (router : Bool) :
    ∃ (payload : List Byte) (flags : Byte),
      Interface.write_advert this daddr taddr router =
        Event.sendmsg this._name daddr payload ∧
      payload.length = 32 ∧
      payload[0]? = some 136 ∧
      payload[4]? = some flags ∧
      (flags.val &&& 0x40 ≠ 0 ↔ daddr.is_unicast = true) ∧
      (flags.val &&& 0x80 ≠ 0 ↔ router = true) ∧
      flags.val &&& 0x3f = 0 ∧
      payload[5]? = some 0 ∧ payload[6]? = some 0 ∧ payload[7]? = some 0 ∧
      (payload.drop 8).take 16 = taddr.octets ∧
      payload[24]? = some 2 ∧ payload[25]? = some 1 ∧
      payload.drop 26 = this.hwaddr.octets := by
  refine ⟨_, Byte.ofNat ((if daddr.is_multicast then 0 else 0x40) + (if router then 0x80 else 0)),
    Interface.write_advert_eq this daddr taddr router, ?_⟩
  obtain ⟨a0, a1, a2, a3, a4, a5, a6, a7, a8, a9, a10, a11, a12, a13, a14, a15, h, rfl⟩ :=
    Address.exists_octets taddr
  obtain ⟨idx, name, hw⟩ := this
  obtain ⟨h0, h1, h2, h3, h4, h5, hh, rfl⟩ := ether_addr.exists_six_octets hw
  refine ⟨rfl, rfl, rfl, ?_, ?_, ?_, rfl, rfl, rfl, rfl, rfl, rfl, rfl⟩
  · rw [Address.is_unicast_eq]
    cases router <;> cases daddr.is_multicast <;> decide
  · cases router <;> cases daddr.is_multicast <;> decide
  · cases router <;> cases daddr.is_multicast <;> decide

theorem Socket.recvmsg_append (stack : Buffer) (hdr payload : List Byte) (j : Nat)
    (hlen : hdr.length + payload.length ≤ 256) (hj : hdr.length ≤ j)
    (hj2 : j < hdr.length + payload.length) :
    Socket.recvmsg stack 256 (hdr ++ payload) j = payload.getD (j - hdr.length) 0 := by
  unfold Socket.recvmsg
  rw [List.take_of_length_le (by simpa using hlen)]
  rw [List.getD_eq_getElem?_getD, List.getD_eq_getElem?_getD,
    List.getElem?_append_right hj]
  have h2 : j - hdr.length < payload.length := by omega
  rw [List.getElem?_eq_getElem h2]
  rfl

theorem Interface.read_solicit_taddr (w : World) (stack : Buffer) (frame : List Byte)
    (s0 d0 t0 : Address) :
    (Interface.read_solicit w stack (some frame) s0 d0 t0).taddr =
      (Socket.recvmsg stack 256 frame).load_addr 62 := by
  simp only [Interface.read_solicit]
  split <;> rfl

/-- C8: for every target `T` and every interface (hardware address `H`), the
solicitation `write_solicit` builds is 32 octets long; placed after a 14-octet
Ethernet header and a 40-octet IPv6 header it is decoded by `read_solicit` to
the target `T`; and its option is of type 1 (source link-layer address),
length 1, with the six octets of `H`. -/
theorem Interface.solicit_roundtrip (w : World) (stack : Buffer) (this : Interface)
    (T : Address) (eth ip6 : List Byte) (heth : eth.length = 14) (hip6 : ip6.length = 40)
    (s0 d0 t0 : Address) :
    (Interface.write_solicit this T).payload.length = 32 ∧
    (Interface.read_solicit w stack
        (some (eth ++ ip6 ++ (Interface.write_solicit this T).payload)) s0 d0 t0).taddr = T ∧
    (Interface.write_solicit this T).payload[24]? = some 1 ∧
    (Interface.write_solicit this T).payload[25]? = some 1 ∧
    (Interface.write_solicit this T).payload.drop 26 = this.hwaddr.octets := by
  obtain ⟨a0, a1, a2, a3, a4, a5, a6, a7, a8, a9, a10, a11, a12, a13, a14, a15, h, rfl⟩ :=
    Address.exists_octets T
  obtain ⟨idx, name, hw⟩ := this
  obtain ⟨h0, h1, h2, h3, h4, h5, hh, rfl⟩ := ether_addr.exists_six_octets hw
  refine ⟨rfl, ?_, rfl, rfl, rfl⟩
  rw [Interface.read_solicit_taddr]
  have hhdr : (eth ++ ip6).length = 54 := by simp [heth, hip6]
  have hpl : (Interface.write_solicit ⟨idx, name, ⟨[h0, h1, h2, h3, h4, h5], hh⟩⟩
      ⟨[a0, a1, a2, a3, a4, a5, a6, a7, a8, a9, a10, a11, a12, a13, a14, a15], h⟩).payload.length
      = 32 := rfl
  have key : ∀ j, 54 ≤ j → j < 86 →
      Socket.recvmsg stack 256 (eth ++ ip6 ++ (Interface.write_solicit ⟨idx, name,
        ⟨[h0, h1, h2, h3, h4, h5], hh⟩⟩ ⟨[a0, a1, a2, a3, a4, a5, a6, a7, a8, a9, a10, a11,
          a12, a13, a14, a15], h⟩).payload) j =
      (Interface.write_solicit ⟨idx, name, ⟨[h0, h1, h2, h3, h4, h5], hh⟩⟩
        ⟨[a0, a1, a2, a3, a4, a5, a6, a7, a8, a9, a10, a11, a12, a13, a14, a15], h⟩).payload.getD
        (j - 54) 0 := by
    intro j hj hj2
    have := Socket.recvmsg_append stack (eth ++ ip6) (Interface.write_solicit ⟨idx, name,
        ⟨[h0, h1, h2, h3, h4, h5], hh⟩⟩ ⟨[a0, a1, a2, a3, a4, a5, a6, a7, a8, a9, a10, a11,
          a12, a13, a14, a15], h⟩).payload j (by rw [hhdr, hpl]; decide) (by rw [hhdr]; exact hj)
        (by rw [hhdr, hpl]; exact hj2)
    rw [hhdr] at this
    exact this
  simp only [Buffer.load_addr, Address.mk.injEq]
  show [0, 1, 2, 3, 4, 5, 6, 7, 8, 9, 10, 11, 12, 13, 14, 15].map _ = _
  simp only [List.map]
  rw [key 62 (by decide) (by decide), key 63 (by decide) (by decide),
    key 64 (by decide) (by decide), key 65 (by decide) (by decide),
    key 66 (by decide) (by decide), key 67 (by decide) (by decide),
    key 68 (by decide) (by decide), key 69 (by decide) (by decide),
    key 70 (by decide) (by decide), key 71 (by decide) (by decide),
    key 72 (by decide) (by decide), key 73 (by decide) (by decide),
    key 74 (by decide) (by decide), key 75 (by decide) (by decide),
    key 76 (by decide) (by decide), key 77 (by decide) (by decide)]
  rfl

theorem Interface.solicit_roundtrip_witness :
    (Interface.write_solicit dn0 addr_2001_db8_42).payload.length = 32 ∧
    (Interface.read_solicit example_world Buffer.zero
        (some (example_ether_header ++
          example_ip6_hdr addr_fe80_1 (Interface.write_solicit_daddr addr_2001_db8_42) ++
          (Interface.write_solicit dn0 addr_2001_db8_42).payload))
        Address.zero Address.zero Address.zero).taddr = addr_2001_db8_42 ∧
    (Interface.write_solicit dn0 addr_2001_db8_42).payload[24]? = some 1 ∧
    (Interface.write_solicit dn0 addr_2001_db8_42).payload[25]? = some 1 ∧
    (Interface.write_solicit dn0 addr_2001_db8_42).payload.drop 26 = dn0.hwaddr.octets :=
  Interface.solicit_roundtrip example_world Buffer.zero dn0 addr_2001_db8_42
    example_ether_header
    (example_ip6_hdr addr_fe80_1 (Interface.write_solicit_daddr addr_2001_db8_42))
    (by decide) (by decide) Address.zero Address.zero Address.zero

/-- The frame of the round trip passes the socket filter. -/
theorem Interface.run_filter_example :
    Interface.run_filter (example_solicit_frame addr_fe80_1 addr_2001_db8_42) =
      some 4294967295 := by
  decide

/-! ## `Interface::handle_local` -/

/-- C9 fails on the code: `handle_local` reads `rule->iface()->_index` without
the null check that `icmp6_handler` makes.  For a target that is a host-local
address and a proxy on this interface whose rule is static (no interface), the
claim has `handle_local` return false and write nothing; the code dereferences
a null pointer. -/
theorem Interface.handle_local_static_rule :
    Interface.is_local example_world_static addr_2001_db8_42 = false ∧
    Interface.handle_local example_world_static up0 addr_2001_db8_42 addr_2001_db8_9 = none ∧
    Interface.packet_handler example_world_static up0 [proxy_up0_static] [] Buffer.zero
        [example_solicit_frame addr_2001_db8_42 addr_2001_db8_9] = none := by
  decide

/-- The local shortcut on the example host: the target `2001:db8::9` is owned
on `dn0` and the proxy on `up0` has a rule bound to `dn0`, so exactly one
advert goes to the sender, with router = false, and no proxy sees the solicit. -/
theorem Interface.handle_local_example :
    Interface.packet_handler example_world up0 [proxy_up0] [] Buffer.zero
        [example_solicit_frame addr_2001_db8_42 addr_2001_db8_9] =
      some [Interface.write_advert up0 addr_2001_db8_42 addr_2001_db8_9 false] := by
  decide

theorem Interface.handle_local_rules_spec (index : Nat) (rules : List Rule)
    (hr : ∀ r ∈ rules, r.iface ≠ none) :
    ∃ b, Interface.handle_local_rules index rules = some b ∧
      (b = true ↔ ∃ r ∈ rules, ∃ ifa, r.iface = some ifa ∧ ifa._index = index) := by
  induction rules with
  | nil => exact ⟨false, rfl, by simp⟩
  | cons r rules ih =>
    obtain ⟨b, hb, hiff⟩ := ih (fun r hr2 => hr r (List.mem_cons_of_mem _ hr2))
    cases hi : r.iface with
    | none => exact absurd hi (hr r (List.mem_cons_self _ _))
    | some ifa =>
      by_cases hx : ifa._index = index
      · exact ⟨true, by simp [Interface.handle_local_rules, hi, hx],
          by simpa using Or.inl ⟨ifa, hi, hx⟩⟩
      · refine ⟨b, by simp [Interface.handle_local_rules, hi, hx, hb], ?_⟩
        rw [hiff]
        constructor
        · rintro ⟨r2, hr2, h2⟩
          exact ⟨r2, List.mem_cons_of_mem _ hr2, h2⟩
        · rintro ⟨r2, hr2, ifa2, h2, h3⟩
          rcases List.mem_cons.mp hr2 with rfl | hm
          · rw [hi] at h2
            cases h2
            exact absurd h3 hx
          · exact ⟨r2, hm, ifa2, h2, h3⟩

theorem Interface.handle_local_proxies_spec (this : Interface) (index : Nat)
    (proxies : List Proxy) (hr : ∀ p ∈ proxies, ∀ r ∈ p.rules, r.iface ≠ none) :
    ∃ b, Interface.handle_local_proxies this index proxies = some b ∧
      (b = true ↔ Interface.local_match this proxies index) := by
  induction proxies with
  | nil => exact ⟨false, rfl, by simp [Interface.local_match]⟩
  | cons p proxies ih =>
    obtain ⟨b, hb, hiff⟩ := ih (fun p hp => hr p (List.mem_cons_of_mem _ hp))
    by_cases hp : p.iface = some this
    · obtain ⟨b2, hb2, hiff2⟩ := Interface.handle_local_rules_spec index p.rules
        (hr p (List.mem_cons_self _ _))
      cases b2 with
      | true =>
        refine ⟨true, by simp [Interface.handle_local_proxies, hp, hb2], ?_⟩
        simp only [true_iff]
        obtain ⟨r, hr2, h2⟩ := hiff2.mp rfl
        exact ⟨p, List.mem_cons_self _ _, hp, r, hr2, h2⟩
      | false =>
        refine ⟨b, by simp [Interface.handle_local_proxies, hp, hb2, hb], ?_⟩
        rw [hiff]
        constructor
        · rintro ⟨q, hq, h2⟩
          exact ⟨q, List.mem_cons_of_mem _ hq, h2⟩
        · rintro ⟨q, hq, hq2, h2⟩
          rcases List.mem_cons.mp hq with rfl | hm
          · have := hiff2.mpr h2
            cases this
          · exact ⟨q, hm, hq2, h2⟩
    · refine ⟨b, by simp [Interface.handle_local_proxies, hp, hb], ?_⟩
      rw [hiff]
      constructor
      · rintro ⟨q, hq, h2⟩
        exact ⟨q, List.mem_cons_of_mem _ hq, h2⟩
      · rintro ⟨q, hq, hq2, h2⟩
        rcases List.mem_cons.mp hq with rfl | hm
        · exact absurd hq2 hp
        · exact ⟨q, hm, hq2, h2⟩

theorem Interface.handle_local_addresses_spec (this : Interface) (proxies : List Proxy)
    (target : Address) (nlas : List NetlinkAddress)
    (hr : ∀ p ∈ proxies, ∀ r ∈ p.rules, r.iface ≠ none) :
    ∃ b, Interface.handle_local_addresses this proxies target nlas = some b ∧
      (b = true ↔ ∃ nla ∈ nlas, nla.address = target ∧
        Interface.local_match this proxies nla.index) := by
  induction nlas with
  | nil => exact ⟨false, rfl, by simp⟩
  | cons nla nlas ih =>
    obtain ⟨b, hb, hiff⟩ := ih
    by_cases ha : nla.address = target
    · obtain ⟨b2, hb2, hiff2⟩ := Interface.handle_local_proxies_spec this nla.index proxies hr
      cases b2 with
      | true =>
        refine ⟨true, by simp [Interface.handle_local_addresses, ha, hb2], ?_⟩
        simp only [true_iff]
        exact ⟨nla, List.mem_cons_self _ _, ha, hiff2.mp rfl⟩
      | false =>
        refine ⟨b, by simp [Interface.handle_local_addresses, ha, hb2, hb], ?_⟩
        rw [hiff]
        constructor
        · rintro ⟨q, hq, h2⟩
          exact ⟨q, List.mem_cons_of_mem _ hq, h2⟩
        · rintro ⟨q, hq, hq2, h2⟩
          rcases List.mem_cons.mp hq with rfl | hm
          · have := hiff2.mpr h2
            cases this
          · exact ⟨q, hm, hq2, h2⟩
    · refine ⟨b, by simp [Interface.handle_local_addresses, ha, hb], ?_⟩
      rw [hiff]
      constructor
      · rintro ⟨q, hq, h2⟩
        exact ⟨q, List.mem_cons_of_mem _ hq, h2⟩
      · rintro ⟨q, hq, hq2, h2⟩
        rcases List.mem_cons.mp hq with rfl | hm
        · exact absurd hq2 ha
        · exact ⟨q, hm, hq2, h2⟩

/-- What C9 says holds where no rule lacks its interface: if the target is a
host-local address with index `i` and a proxy on this interface has a rule
bound to the interface with index `i`, `handle_local` writes exactly one
advert, to the source, for the target, with router = false, and returns true,
and the body of `packet_handler` causes nothing else; otherwise `handle_local`
writes nothing and returns false. -/
theorem Interface.handle_local_of_bound_rules (w : World) (this : Interface)
    (_serves _parents : List Proxy) (source target : Address)
    (hr : ∀ p ∈ w.proxies, ∀ r ∈ p.rules, r.iface ≠ none) :
    ((∃ nla ∈ w.local_addresses, nla.address = target ∧
        Interface.local_match this w.proxies nla.index) →
      Interface.handle_local w this source target =
        some (true, [Interface.write_advert this source target false]) ∧
      Interface.packet_handler_body w this _serves _parents source target =
        some [Interface.write_advert this source target false]) ∧
    (¬ (∃ nla ∈ w.local_addresses, nla.address = target ∧
        Interface.local_match this w.proxies nla.index) →
      Interface.handle_local w this source target = some (false, [])) := by
  obtain ⟨b, hb, hiff⟩ := Interface.handle_local_addresses_spec this w.proxies target
    w.local_addresses hr
  constructor
  · intro h
    have hbt : b = true := hiff.mpr h
    subst hbt
    simp [Interface.packet_handler_body, Interface.handle_local, hb]
  · intro h
    have hbf : b = false := by
      cases b with
      | false => rfl
      | true => exact absurd (hiff.mp rfl) h
    subst hbf
    simp [Interface.handle_local, hb]

/-! ## `Interface::icmp6_handler` -/

/-- C10 fails on the code: a parent proxy without upstream interface makes
`icmp6_handler` return, so the parents after it never see the advert.  With
the unbound proxy first, `handle_advert` is called on no proxy although the
second parent has a rule for the target bound to this interface; with the two
parents in the other order it is called on that proxy. -/
theorem Interface.icmp6_handler_unbound_parent :
    Interface.is_local example_world addr_2001_db8_42 = false ∧
    Rule.relevant addr_2001_db8_42 dn0._name rule_dn0 = true ∧
    Interface.icmp6_handler example_world dn0 [proxy_unbound, proxy_up0] Buffer.zero
        [(addr_2001_db8_42, example_advert addr_2001_db8_42)] = [] ∧
    Interface.icmp6_handler example_world dn0 [proxy_up0, proxy_unbound] Buffer.zero
        [(addr_2001_db8_42, example_advert addr_2001_db8_42)] =
      [Event.handle_advert proxy_up0 addr_2001_db8_42 addr_2001_db8_42 "dn0" false] := by
  decide

/-- What C10 says holds where every parent has its upstream interface: for an
advert `(saddr, taddr)` the loop over `_parents` calls `handle_advert` once for
each entry of `_parents` that has a relevant rule, with the `autovia` of the
first such rule, on no other proxy, and does not leave the handler. -/
theorem Interface.icmp6_handler_parents_of_bound (this : Interface) (saddr taddr : Address)
    (parents : List Proxy) (hb : ∀ p ∈ parents, p.iface ≠ none) :
    Interface.icmp6_handler_parents this saddr taddr parents =
      (parents.filterMap (fun p =>
          (p.rules.find? (Rule.relevant taddr this._name)).map
            (fun rule => Event.handle_advert p saddr taddr this._name rule.autovia)),
        false) := by
  induction parents with
  | nil => rfl
  | cons p parents ih =>
    have hp : p.iface.isNone = false := by
      cases hi : p.iface with
      | none => exact absurd hi (hb p (List.mem_cons_self _ _))
      | some _ => rfl
    have ih2 := ih (fun q hq => hb q (List.mem_cons_of_mem _ hq))
    have hrel : (fun rule : Rule => rule.cidr.contains taddr &&
        (rule.iface.isSome && decide (rule.iface.map Interface._name = some this._name))) =
        Rule.relevant taddr this._name := rfl
    simp only [Interface.icmp6_handler_parents, hp, hrel, ih2]
    cases hf : p.rules.find? (Rule.relevant taddr this._name) with
    | none => simp [List.filterMap_cons, hf]
    | some rule => simp [List.filterMap_cons, hf]

/-- C11 fails on the code: for a packet whose sender is one of the host's own
addresses `read_advert` returns 0 and leaves `taddr` unset, and
`icmp6_handler`, which only stops on a negative result, goes on to the parents;
a parent with a rule `::/0` bound to this interface (it contains every target)
gets `handle_advert`. -/
theorem Interface.icmp6_handler_local_saddr :
    Interface.is_local example_world addr_fe80_1 = true ∧
    (Interface.read_advert example_world Buffer.zero
        (some (addr_fe80_1, example_advert addr_2001_db8_42)) Address.zero Address.zero).ret
      = 0 ∧
    Interface.icmp6_handler example_world dn0 [proxy_up0_any] Buffer.zero
        [(addr_fe80_1, example_advert addr_2001_db8_42)] =
      [Event.handle_advert proxy_up0_any addr_fe80_1 Address.zero "dn0" false] := by
  decide

/-! ## `Interface::handle_reverse_advert` -/

/-- C12 as stated fails: `handle_reverse_advert` tests the rule's CIDR against
the solicit's source address, not its target.  An unbound parent with a rule
for `2001:db8::/64` bound to `dn0` gets no stateless advert for a solicit from
`fe80::2` for the target `2001:db8::42`, and gets one for a solicit from
`2001:db8::42` for the target `fe80::2`. -/
theorem Interface.handle_reverse_advert_tests_saddr :
    proxy_unbound.iface = none ∧
    rule_dn0 ∈ proxy_unbound.rules ∧
    rule_dn0.cidr.contains addr_2001_db8_42 = true ∧
    rule_dn0.cidr.contains addr_fe80_2 = false ∧
    rule_dn0.iface.map Interface._name = some dn0._name ∧
    Interface.packet_handler_body example_world dn0 [] [proxy_unbound]
        addr_fe80_2 addr_2001_db8_42 = some [] ∧
    Interface.packet_handler_body example_world dn0 [] [proxy_unbound]
        addr_2001_db8_42 addr_fe80_2 =
      some [Event.handle_stateless_advert proxy_unbound addr_2001_db8_42 addr_2001_db8_42
        "dn0" false] := by
  decide

theorem Interface.handle_reverse_advert_rules_eq (proxy : Proxy) (saddr : Address)
    (ifname : String) (rules : List Rule)
    (hr : ∀ r ∈ rules, r.cidr.contains saddr = true → r.iface ≠ none) :
    Interface.handle_reverse_advert_rules proxy saddr ifname rules =
      some ((rules.filter (Rule.reverse_match saddr ifname)).map
        (fun r => Event.handle_stateless_advert proxy saddr saddr ifname r.autovia)) := by
  induction rules with
  | nil => rfl
  | cons r rules ih =>
    have ih2 := ih (fun q hq => hr q (List.mem_cons_of_mem _ hq))
    by_cases hc : r.cidr.contains saddr = true
    · cases hi : r.iface with
      | none => exact absurd hi (hr r (List.mem_cons_self _ _) hc)
      | some ifa =>
        by_cases hn : ifa._name = ifname
        · have hm : Rule.reverse_match saddr ifname r = true := by
            simp [Rule.reverse_match, hc, hi, hn]
          simp [Interface.handle_reverse_advert_rules, hc, hi, hn, ih2, List.filter_cons, hm]
        · have hm : Rule.reverse_match saddr ifname r = false := by
            simp [Rule.reverse_match, hi, hn]
          simp [Interface.handle_reverse_advert_rules, hc, hi, hn, ih2, List.filter_cons, hm]
    · have hm : Rule.reverse_match saddr ifname r = false := by
        simp [Rule.reverse_match, hc]
      simp [Interface.handle_reverse_advert_rules, hc, ih2, List.filter_cons, hm]

theorem Interface.handle_reverse_advert_parents_eq (saddr : Address) (ifname : String)
    (parents : List Proxy)
    (hr : ∀ p ∈ parents, p.iface = none →
      ∀ r ∈ p.rules, r.cidr.contains saddr = true → r.iface ≠ none) :
    Interface.handle_reverse_advert_parents saddr ifname parents =
      some ((parents.filter (fun p => p.iface.isNone)).flatMap (fun p =>
        (p.rules.filter (Rule.reverse_match saddr ifname)).map
          (fun r => Event.handle_stateless_advert p saddr saddr ifname r.autovia))) := by
  induction parents with
  | nil => rfl
  | cons p parents ih =>
    have ih2 := ih (fun q hq => hr q (List.mem_cons_of_mem _ hq))
    cases hi : p.iface with
    | some ifa =>
      simp [Interface.handle_reverse_advert_parents, hi, ih2, List.filter_cons]
    | none =>
      have h1 := Interface.handle_reverse_advert_rules_eq p saddr ifname p.rules
        (hr p (List.mem_cons_self _ _) hi)
      simp [Interface.handle_reverse_advert_parents, hi, ih2, List.filter_cons, h1,
        List.flatMap_cons]

/-- C12, amended: where every rule that `handle_reverse_advert` dereferences
has its interface, the calls of `handle_stateless_advert(saddr, saddr, n,
autovia)` it makes for a solicit from `saddr` on the interface named `n` are,
in order, one for each rule of each parent proxy without bound upstream
interface whose CIDR contains the source address `saddr` and whose interface
name equals `n`, and only when `saddr` is unicast; so a parent gets such a
call exactly when `saddr` is unicast, it has no bound upstream interface and it
has such a rule. -/
theorem Interface.handle_reverse_advert_spec (parents : List Proxy) (saddr : Address)
    (n : String)
    (hr : ∀ p ∈ parents, p.iface = none →
      ∀ r ∈ p.rules, r.cidr.contains saddr = true → r.iface ≠ none) :
    ∃ evs, Interface.handle_reverse_advert parents saddr n = some evs ∧
      evs = (if saddr.is_unicast then
          (parents.filter (fun p => p.iface.isNone)).flatMap (fun p =>
            (p.rules.filter (Rule.reverse_match saddr n)).map
              (fun r => Event.handle_stateless_advert p saddr saddr n r.autovia))
        else []) ∧
      (∀ ev ∈ evs, ∃ p a, ev = Event.handle_stateless_advert p saddr saddr n a) ∧
      (∀ p, (∃ a, Event.handle_stateless_advert p saddr saddr n a ∈ evs) ↔
        (saddr.is_unicast = true ∧ p ∈ parents ∧ p.iface = none ∧
          ∃ r ∈ p.rules, r.cidr.contains saddr = true ∧
            r.iface.map Interface._name = some n)) := by
  cases hu : saddr.is_unicast with
  | false =>
    refine ⟨[], by simp [Interface.handle_reverse_advert, hu], by simp, by simp, by simp⟩
  | true =>
    refine ⟨(parents.filter (fun p => p.iface.isNone)).flatMap (fun p =>
        (p.rules.filter (Rule.reverse_match saddr n)).map
          (fun r => Event.handle_stateless_advert p saddr saddr n r.autovia)),
      by simp [Interface.handle_reverse_advert, hu,
        Interface.handle_reverse_advert_parents_eq saddr n parents hr], by simp, ?_, ?_⟩
    · intro ev hev
      simp only [List.mem_flatMap, List.mem_map, List.mem_filter] at hev
      obtain ⟨p, _, r, _, rfl⟩ := hev
      exact ⟨p, r.autovia, rfl⟩
    · intro p
      simp only [List.mem_flatMap, List.mem_map, List.mem_filter, Rule.reverse_match,
        Bool.and_eq_true, decide_eq_true_eq, Option.isNone_iff_eq_none, true_and]
      constructor
      · rintro ⟨a, q, ⟨hq, hqi⟩, r, ⟨hr1, hr2, hr3⟩, heq⟩
        cases heq
        exact ⟨hq, hqi, r, hr1, hr2, hr3⟩
      · rintro ⟨hp, hpi, r, hr1, hr2, hr3⟩
        exact ⟨r.autovia, p, ⟨hp, hpi⟩, r, ⟨hr1, hr2, hr3⟩, rfl⟩

theorem Interface.handle_reverse_advert_spec_witness :
    ∃ evs, Interface.handle_reverse_advert [proxy_up0, proxy_unbound] addr_2001_db8_42 "dn0"
        = some evs ∧
      evs = (if addr_2001_db8_42.is_unicast then
          ([proxy_up0, proxy_unbound].filter (fun p => p.iface.isNone)).flatMap (fun p =>
            (p.rules.filter (Rule.reverse_match addr_2001_db8_42 "dn0")).map
              (fun r => Event.handle_stateless_advert p addr_2001_db8_42 addr_2001_db8_42
                "dn0" r.autovia))
        else []) ∧
      (∀ ev ∈ evs, ∃ p a,
        ev = Event.handle_stateless_advert p addr_2001_db8_42 addr_2001_db8_42 "dn0" a) ∧
      (∀ p, (∃ a, Event.handle_stateless_advert p addr_2001_db8_42 addr_2001_db8_42 "dn0" a
            ∈ evs) ↔
        (addr_2001_db8_42.is_unicast = true ∧ p ∈ [proxy_up0, proxy_unbound] ∧
          p.iface = none ∧
          ∃ r ∈ p.rules, r.cidr.contains addr_2001_db8_42 = true ∧
            r.iface.map Interface._name = some "dn0")) :=
  Interface.handle_reverse_advert_spec [proxy_up0, proxy_unbound] addr_2001_db8_42 "dn0"
    (by decide)

/-- The run behind the witness of C12, evaluated. -/
theorem Interface.handle_reverse_advert_example :
    Interface.handle_reverse_advert [proxy_up0, proxy_unbound] addr_2001_db8_42 "dn0" =
      some [Event.handle_stateless_advert proxy_unbound addr_2001_db8_42 addr_2001_db8_42
        "dn0" false] := by
  decide

/-! ## The targets of the adverts of `Interface::packet_handler` -/

/-- C13 as stated fails: the stateless advert of the reverse path has the
solicit's source address as its target.  A solicit from `2001:db8::42` for the
target `2001:db8::9` on `dn0`, whose unbound parent has a rule for
`2001:db8::/64` bound to `dn0`, causes an advert for `2001:db8::42`. -/
theorem Interface.packet_handler_reverse_target :
    Interface.packet_handler example_world_static dn0 [] [proxy_unbound] Buffer.zero
        [example_solicit_frame addr_2001_db8_42 addr_2001_db8_9] =
      some [Event.handle_stateless_advert proxy_unbound addr_2001_db8_42 addr_2001_db8_42
        "dn0" false] ∧
    (Event.handle_stateless_advert proxy_unbound addr_2001_db8_42 addr_2001_db8_42
        "dn0" false).advert_target = some addr_2001_db8_42 ∧
    addr_2001_db8_42 ≠ addr_2001_db8_9 := by
  decide

theorem Interface.write_advert_target (this : Interface) (daddr taddr : Address)
    (router : Bool) :
    (Interface.write_advert this daddr taddr router).advert_target = some taddr := by
  rw [Interface.write_advert_eq]
  obtain ⟨a0, a1, a2, a3, a4, a5, a6, a7, a8, a9, a10, a11, a12, a13, a14, a15, h, rfl⟩ :=
    Address.exists_octets taddr
  obtain ⟨idx, name, hw⟩ := this
  obtain ⟨h0, h1, h2, h3, h4, h5, hh, rfl⟩ := ether_addr.exists_six_octets hw
  rfl

theorem Interface.handle_reverse_advert_rules_events (proxy : Proxy) (saddr : Address)
    (ifname : String) (rules : List Rule) (evs : List Event)
    (h : Interface.handle_reverse_advert_rules proxy saddr ifname rules = some evs) :
    ∀ ev ∈ evs, ∃ p a, ev = Event.handle_stateless_advert p saddr saddr ifname a := by
  induction rules generalizing evs with
  | nil =>
    simp only [Interface.handle_reverse_advert_rules, Option.some.injEq] at h
    subst h
    simp
  | cons r rules ih =>
    simp only [Interface.handle_reverse_advert_rules] at h
    split at h
    · split at h
      · cases h
      · split at h
        · cases h2 : Interface.handle_reverse_advert_rules proxy saddr ifname rules with
          | none => simp [h2] at h
          | some evs2 =>
            simp only [h2, Option.map_some', Option.some.injEq] at h
            subst h
            intro ev hev
            rcases List.mem_cons.mp hev with rfl | hm
            · exact ⟨proxy, r.autovia, rfl⟩
            · exact ih evs2 h2 ev hm
        · exact ih evs h
    · exact ih evs h

theorem Interface.handle_reverse_advert_parents_events (saddr : Address) (ifname : String)
    (parents : List Proxy) (evs : List Event)
    (h : Interface.handle_reverse_advert_parents saddr ifname parents = some evs) :
    ∀ ev ∈ evs, ∃ p a, ev = Event.handle_stateless_advert p saddr saddr ifname a := by
  induction parents generalizing evs with
  | nil =>
    simp only [Interface.handle_reverse_advert_parents, Option.some.injEq] at h
    subst h
    simp
  | cons p parents ih =>
    simp only [Interface.handle_reverse_advert_parents] at h
    split at h
    · exact ih evs h
    · split at h
      · cases h
      · rename_i evs1 h1
        cases h2 : Interface.handle_reverse_advert_parents saddr ifname parents with
        | none => simp [h2] at h
        | some evs2 =>
          simp only [h2, Option.map_some', Option.some.injEq] at h
          subst h
          intro ev hev
          rcases List.mem_append.mp hev with hm | hm
          · exact Interface.handle_reverse_advert_rules_events p saddr ifname p.rules evs1 h1 ev hm
          · exact ih evs2 h2 ev hm

/-- C13, amended: every event the body of `packet_handler` causes for a
solicit `(saddr, taddr)` is the advert `handle_local` writes, whose target is
`taddr`, or a reverse-path call of `handle_stateless_advert`, whose target is
the solicit's source address `saddr`, or a call of `handle_solicit` for
`(saddr, taddr)`. -/
theorem Interface.packet_handler_body_targets (w : World) (this : Interface)
    (_serves _parents : List Proxy) (saddr taddr : Address) (evs : List Event)
    (h : Interface.packet_handler_body w this _serves _parents saddr taddr = some evs) :
    ∀ ev ∈ evs,
      (ev = Interface.write_advert this saddr taddr false ∧
        ev.advert_target = some taddr) ∨
      (∃ p a, ev = Event.handle_stateless_advert p saddr saddr this._name a ∧
        ev.advert_target = some saddr) ∨
      (∃ p, ev = Event.handle_solicit p saddr taddr this._name ∧
        ev.advert_target = none) := by
  simp only [Interface.packet_handler_body, Interface.handle_local] at h
  cases hl : Interface.handle_local_addresses this w.proxies taddr w.local_addresses with
  | none => simp [hl] at h
  | some b =>
    cases b with
    | true =>
      simp only [hl, Option.some.injEq] at h
      subst h
      intro ev hev
      rw [List.mem_singleton.mp hev]
      exact Or.inl ⟨rfl, Interface.write_advert_target this saddr taddr false⟩
    | false =>
      simp only [hl] at h
      cases hrev : Interface.handle_reverse_advert _parents saddr this._name with
      | none => simp [hrev] at h
      | some evs2 =>
        simp only [hrev, Option.some.injEq, List.nil_append] at h
        subst h
        intro ev hev
        rcases List.mem_append.mp hev with hm | hm
        · have hp : ∀ ev ∈ evs2, ∃ p a,
              ev = Event.handle_stateless_advert p saddr saddr this._name a := by
            unfold Interface.handle_reverse_advert at hrev
            split at hrev
            · cases hrev
              simp
            · exact Interface.handle_reverse_advert_parents_events saddr this._name _parents
                evs2 hrev
          obtain ⟨p, a, rfl⟩ := hp ev hm
          exact Or.inr (Or.inl ⟨p, a, rfl, rfl⟩)
        · obtain ⟨p, _, rfl⟩ := List.mem_map.mp hm
          exact Or.inr (Or.inr ⟨p, rfl, rfl⟩)

theorem Interface.packet_handler_body_targets_witness :
    (Interface.write_advert up0 addr_2001_db8_42 addr_2001_db8_9 false =
        Interface.write_advert up0 addr_2001_db8_42 addr_2001_db8_9 false ∧
      (Interface.write_advert up0 addr_2001_db8_42 addr_2001_db8_9 false).advert_target =
        some addr_2001_db8_9) ∨
    (∃ p a, Interface.write_advert up0 addr_2001_db8_42 addr_2001_db8_9 false =
        Event.handle_stateless_advert p addr_2001_db8_42 addr_2001_db8_42 up0._name a ∧
      (Interface.write_advert up0 addr_2001_db8_42 addr_2001_db8_9 false).advert_target =
        some addr_2001_db8_42) ∨
    (∃ p, Interface.write_advert up0 addr_2001_db8_42 addr_2001_db8_9 false =
        Event.handle_solicit p addr_2001_db8_42 addr_2001_db8_9 up0._name ∧
      (Interface.write_advert up0 addr_2001_db8_42 addr_2001_db8_9 false).advert_target =
        none) :=
  Interface.packet_handler_body_targets example_world up0 [proxy_up0] [] addr_2001_db8_42
    addr_2001_db8_9 [Interface.write_advert up0 addr_2001_db8_42 addr_2001_db8_9 false]
    (by decide) (Interface.write_advert up0 addr_2001_db8_42 addr_2001_db8_9 false)
    (List.mem_singleton.mpr rfl)

/-! ## Sessions over time -/

theorem session.tick_key (e : Int) (se t : session)
    (h : session.tick e se = some t) : t.key = se.key := by
  unfold session.tick at h
  split at h
  · cases h; rfl
  · split at h
    · cases h; rfl
    · cases h

theorem session.map_filterMap_tick_sublist {β : Type} (f : session → β) (e : Int)
    (hf : ∀ se t, session.tick e se = some t → f t = f se) (l : List session) :
    ((l.filterMap (session.tick e)).map f).Sublist (l.map f) := by
  induction l with
  | nil => simp
  | cons a l ih =>
    cases ht : session.tick e a with
    | none =>
      rw [List.filterMap_cons_none ht]
      exact List.Sublist.cons _ ih
    | some t =>
      rw [List.filterMap_cons_some ht, List.map_cons, List.map_cons, hf a t ht]
      exact List.Sublist.cons₂ _ ih

theorem session.update_all_nodup (e : Int) (l : List session)
    (hnd : (l.map session._weak_ptr).Nodup) :
    ((session.update_all e l).sessions.map session._weak_ptr).Nodup := by
  rw [session.update_all_eq e l hnd]
  exact List.Nodup.sublist
    (session.map_filterMap_tick_sublist session._weak_ptr e (session.tick_weak_ptr e) l) hnd

theorem session.update_all_mem_of_tick (e : Int) (l : List session) (se t : session)
    (hnd : (l.map session._weak_ptr).Nodup) (hmem : se ∈ l)
    (ht : session.tick e se = some t) : t ∈ (session.update_all e l).sessions := by
  rw [session.update_all_eq e l hnd]
  exact List.mem_filterMap.mpr ⟨se, hmem, ht⟩

theorem session.update_all_weak_ptr_mem (e : Int) (l : List session) (t : session)
    (hnd : (l.map session._weak_ptr).Nodup)
    (ht : t ∈ (session.update_all e l).sessions) :
    ∃ s ∈ l, session.tick e s = some t := by
  rw [session.update_all_eq e l hnd] at ht
  exact List.mem_filterMap.mp ht

theorem session.run_nodup (es : List Int) (l : List session)
    (hnd : (l.map session._weak_ptr).Nodup) :
    ((session.run es l).map session._weak_ptr).Nodup := by
  induction es generalizing l with
  | nil => exact hnd
  | cons e es ih => exact ih _ (session.update_all_nodup e l hnd)

theorem session.run_append (es1 es2 : List Int) (l : List session) :
    session.run (es1 ++ es2) l = session.run es2 (session.run es1 l) := by
  simp [session.run, List.foldl_append]

theorem session.run_absent (es : List Int) (l : List session) (p : Nat)
    (hnd : (l.map session._weak_ptr).Nodup)
    (h : ∀ x ∈ l, x._weak_ptr ≠ p) :
    ∀ x ∈ session.run es l, x._weak_ptr ≠ p := by
  induction es generalizing l with
  | nil => exact h
  | cons e es ih =>
    apply ih _ (session.update_all_nodup e l hnd)
    intro x hx
    obtain ⟨s, hs, hst⟩ := session.update_all_weak_ptr_mem e l x hnd hx
    rw [session.tick_weak_ptr e s x hst]
    exact h s hs

theorem session.ticks_none (es : List Int) :
    es.foldl (fun o e => o.bind (session.tick e)) none = none := by
  induction es with
  | nil => rfl
  | cons e es ih => simpa [List.foldl] using ih

theorem session.run_ticks (es : List Int) (l : List session) (se : session)
    (hnd : (l.map session._weak_ptr).Nodup) (hmem : se ∈ l) :
    (∀ t, session.ticks es se = some t → t ∈ session.run es l) ∧
    (session.ticks es se = none → ∀ x ∈ session.run es l, x._weak_ptr ≠ se._weak_ptr) := by
  induction es generalizing l se with
  | nil =>
    constructor
    · intro t ht
      simp only [session.ticks, List.foldl, Option.some.injEq] at ht
      subst ht
      exact hmem
    · intro ht
      simp [session.ticks] at ht
  | cons e es ih =>
    have hnd2 := session.update_all_nodup e l hnd
    cases hte : session.tick e se with
    | none =>
      have hnone : session.ticks (e :: es) se = none := by
        simp only [session.ticks, List.foldl, Option.bind, hte]
        exact session.ticks_none es
      constructor
      · intro t ht
        rw [hnone] at ht
        cases ht
      · intro _
        apply session.run_absent es _ _ hnd2
        intro x hx hp
        obtain ⟨s, hs, hst⟩ := session.update_all_weak_ptr_mem e l x hnd hx
        have hps : s._weak_ptr = se._weak_ptr := by
          rw [← session.tick_weak_ptr e s x hst]; exact hp
        have : s = se := session.eq_of_mem_of_weak_ptr_eq l s se hnd hs hmem hps
        subst this
        rw [hte] at hst
        cases hst
    | some se1 =>
      have hm1 := session.update_all_mem_of_tick e l se se1 hnd hmem hte
      have hstep : session.ticks (e :: es) se = session.ticks es se1 := by
        simp only [session.ticks, List.foldl, Option.bind, hte]
      have hp1 := session.tick_weak_ptr e se se1 hte
      obtain ⟨ih1, ih2⟩ := ih _ se1 hnd2 hm1
      constructor
      · intro t ht
        rw [hstep] at ht
        exact ih1 t ht
      · intro ht
        rw [hstep] at ht
        rw [← hp1]
        exact ih2 ht

theorem session.ticks_append (es1 es2 : List Int) (se : session) :
    session.ticks (es1 ++ es2) se = (session.ticks es1 se).bind (session.ticks es2) := by
  simp only [session.ticks, List.foldl_append]
  cases h : List.foldl (fun o e => o.bind (session.tick e)) (some se) es1 with
  | none => simpa using session.ticks_none es2
  | some t => rfl

theorem session.ticks_aging (es : List Int) (se : session)
    (hpos : ∀ x ∈ es, 0 ≤ x) (hsum : es.sum ≤ se._ttl) (hint : se._ttl ≤ INT_MAX) :
    session.ticks es se = some { se with _ttl := se._ttl - es.sum } := by
  induction es generalizing se with
  | nil => simp [session.ticks]
  | cons e es ih =>
    have he : 0 ≤ e := hpos e (List.mem_cons_self _ _)
    have hes : 0 ≤ es.sum := List.sum_nonneg (fun x hx => hpos x (List.mem_cons_of_mem _ hx))
    rw [List.sum_cons] at hsum
    have hsub : int_sub se._ttl e = se._ttl - e :=
      int_sub_eq _ _ ⟨by unfold INT_MIN; omega, by omega⟩
    have hge : se._ttl - e ≥ 0 := by omega
    have hte : session.tick e se = some { se with _ttl := se._ttl - e } := by
      simp [session.tick, hsub, hge]
    have hstep : session.ticks (e :: es) se =
        session.ticks es { se with _ttl := se._ttl - e } := by
      simp only [session.ticks, List.foldl, Option.bind, hte]
    rw [hstep, ih _ (fun x hx => hpos x (List.mem_cons_of_mem _ hx)) (by simp only; omega)
      (by simp only; omega)]
    simp only [List.sum_cons]
    congr 1
    simp only [session.mk.injEq, true_and, and_true]
    omega

theorem session.ticks_cons (e : Int) (es : List Int) (se : session) :
    session.ticks (e :: es) se = (session.tick e se).bind (session.ticks es) := by
  cases h : session.tick e se with
  | none =>
    simp only [session.ticks, List.foldl, Option.bind, h]
    exact session.ticks_none es
  | some t => simp only [session.ticks, List.foldl, Option.bind, h]

/-- C14: for a list of distinct session objects, a `WAITING` session with ttl
`t` and non-negative elapsed times fed one by one to `update_all` (the ttl and
the elapsed times being values of the type `int`): while the
sum of the elapsed times is at most `t` the session is in the list, `WAITING`,
with ttl `t` minus the sum; the call with which the sum exceeds `t` makes it
`INVALID`, and while the sum of the elapsed times fed after that call is at
most 30000 it is in the list as `INVALID` with ttl 30000 minus that sum; with
the call with which that sum exceeds 30000 it leaves the list, for good. -/
theorem session.waiting_lifecycle (l : List session) (se : session)
    (hnd : (l.map session._weak_ptr).Nodup) (hmem : se ∈ l)
    (hst : se._status = Status.WAITING) (hint : is_int se._ttl) :
    (∀ es : List Int, (∀ x ∈ es, 0 ≤ x) → es.sum ≤ se._ttl →
      ({ se with _status := Status.WAITING, _ttl := se._ttl - es.sum } : session)
        ∈ session.run es l) ∧
    (∀ (es1 : List Int) (e : Int) (es2 : List Int),
      (∀ x ∈ es1, 0 ≤ x) → is_int e → (∀ x ∈ es2, 0 ≤ x) →
      es1.sum ≤ se._ttl → se._ttl < es1.sum + e → es2.sum ≤ 30000 →
      ({ se with _status := Status.INVALID, _ttl := 30000 - es2.sum } : session)
        ∈ session.run (es1 ++ e :: es2) l) ∧
    (∀ (es1 : List Int) (e : Int) (es2 : List Int) (e2 : Int) (es3 : List Int),
      (∀ x ∈ es1, 0 ≤ x) → is_int e → (∀ x ∈ es2, 0 ≤ x) → is_int e2 →
      es1.sum ≤ se._ttl → se._ttl < es1.sum + e →
      es2.sum ≤ 30000 → 30000 < es2.sum + e2 →
      ∀ x ∈ session.run (es1 ++ e :: (es2 ++ e2 :: es3)) l,
        x._weak_ptr ≠ se._weak_ptr) := by
  have hmax : se._ttl ≤ INT_MAX := hint.2
  have hinv : ∀ (es1 : List Int) (e : Int), (∀ x ∈ es1, 0 ≤ x) → is_int e →
      es1.sum ≤ se._ttl → se._ttl < es1.sum + e →
      session.ticks (es1 ++ [e]) se =
        some { se with _status := Status.INVALID, _ttl := 30000 } := by
    intro es1 e h1 he hs1 hs2
    rw [session.ticks_append, session.ticks_aging es1 se h1 hs1 hmax]
    have hes : 0 ≤ es1.sum := List.sum_nonneg h1
    have hemax : e ≤ INT_MAX := he.2
    have hsub : int_sub (se._ttl - es1.sum) e = se._ttl - es1.sum - e :=
      int_sub_eq _ _ ⟨by unfold INT_MIN; unfold INT_MAX at hemax; omega, by omega⟩
    have hlt : se._ttl - es1.sum < e := by omega
    simp [session.ticks, session.tick, hsub, hlt, hst]
  have hinv2 : ∀ (es1 : List Int) (e : Int) (es2 : List Int), (∀ x ∈ es1, 0 ≤ x) →
      is_int e → (∀ x ∈ es2, 0 ≤ x) → es1.sum ≤ se._ttl → se._ttl < es1.sum + e →
      es2.sum ≤ 30000 →
      session.ticks ((es1 ++ [e]) ++ es2) se =
        some { se with _status := Status.INVALID, _ttl := 30000 - es2.sum } := by
    intro es1 e es2 h1 he h2 hs1 hs2 hs3
    rw [session.ticks_append, hinv es1 e h1 he hs1 hs2]
    exact session.ticks_aging es2 _ h2 hs3
      (by show (30000 : Int) ≤ INT_MAX; unfold INT_MAX; omega)
  refine ⟨?_, ?_, ?_⟩
  · intro es hpos hsum
    have h := session.ticks_aging es se hpos hsum hmax
    have hse : ({ se with _status := Status.WAITING, _ttl := se._ttl - es.sum } : session) =
        { se with _ttl := se._ttl - es.sum } := by rw [← hst]
    rw [hse]
    exact (session.run_ticks es l se hnd hmem).1 _ h
  · intro es1 e es2 h1 he h2 hs1 hs2 hs3
    have h := hinv2 es1 e es2 h1 he h2 hs1 hs2 hs3
    rw [List.append_assoc, List.singleton_append] at h
    exact (session.run_ticks _ l se hnd hmem).1 _ h
  · intro es1 e es2 e2 es3 h1 he h2 he2 hs1 hs2 hs3 hs4
    have h : session.ticks (((es1 ++ [e]) ++ es2) ++ e2 :: es3) se = none := by
      rw [session.ticks_append, hinv2 es1 e es2 h1 he h2 hs1 hs2 hs3, Option.some_bind,
        session.ticks_cons]
      have hes : 0 ≤ es2.sum := List.sum_nonneg h2
      have hemax : e2 ≤ INT_MAX := he2.2
      have hsub : int_sub (30000 - es2.sum) e2 = 30000 - es2.sum - e2 :=
        int_sub_eq _ _ ⟨by unfold INT_MIN; unfold INT_MAX at hemax; omega,
          by unfold INT_MAX; omega⟩
      have hlt : ¬ (30000 - es2.sum - e2 ≥ 0) := by omega
      simp [session.tick, hsub, hlt]
    have hl : ((es1 ++ [e]) ++ es2) ++ e2 :: es3 = es1 ++ e :: (es2 ++ e2 :: es3) := by
      simp
    rw [hl] at h
    exact (session.run_ticks _ l se hnd hmem).2 h

theorem session.waiting_lifecycle_witness :
    (∀ es : List Int, (∀ x ∈ es, 0 ≤ x) → es.sum ≤ (example_session 7 Status.WAITING 500)._ttl →
      ({ example_session 7 Status.WAITING 500 with
          _status := Status.WAITING,
          _ttl := (example_session 7 Status.WAITING 500)._ttl - es.sum } : session)
        ∈ session.run es [example_session 7 Status.WAITING 500]) ∧
    (∀ (es1 : List Int) (e : Int) (es2 : List Int),
      (∀ x ∈ es1, 0 ≤ x) → is_int e → (∀ x ∈ es2, 0 ≤ x) →
      es1.sum ≤ (example_session 7 Status.WAITING 500)._ttl →
      (example_session 7 Status.WAITING 500)._ttl < es1.sum + e → es2.sum ≤ 30000 →
      ({ example_session 7 Status.WAITING 500 with
          _status := Status.INVALID, _ttl := 30000 - es2.sum } : session)
        ∈ session.run (es1 ++ e :: es2) [example_session 7 Status.WAITING 500]) ∧
    (∀ (es1 : List Int) (e : Int) (es2 : List Int) (e2 : Int) (es3 : List Int),
      (∀ x ∈ es1, 0 ≤ x) → is_int e → (∀ x ∈ es2, 0 ≤ x) → is_int e2 →
      es1.sum ≤ (example_session 7 Status.WAITING 500)._ttl →
      (example_session 7 Status.WAITING 500)._ttl < es1.sum + e →
      es2.sum ≤ 30000 → 30000 < es2.sum + e2 →
      ∀ x ∈ session.run (es1 ++ e :: (es2 ++ e2 :: es3))
          [example_session 7 Status.WAITING 500],
        x._weak_ptr ≠ (example_session 7 Status.WAITING 500)._weak_ptr) :=
  session.waiting_lifecycle [example_session 7 Status.WAITING 500]
    (example_session 7 Status.WAITING 500) (by decide) (by decide) (by decide) (by decide)

/-- A run of the life cycle of C14, evaluated: timeout 500, elapsed times 200,
300, 1, 29999, 1, 1. -/
theorem session.lifecycle_run_example :
    session.run [200, 300] [example_session 7 Status.WAITING 500] =
      [example_session 7 Status.WAITING 0] ∧
    session.run [200, 300, 1] [example_session 7 Status.WAITING 500] =
      [example_session 7 Status.INVALID 30000] ∧
    session.run [200, 300, 1, 29999, 1] [example_session 7 Status.WAITING 500] =
      [example_session 7 Status.INVALID 0] ∧
    session.run [200, 300, 1, 29999, 1, 1] [example_session 7 Status.WAITING 500] = [] := by
  decide

/-! ## `session::create` -/

/-- C15 fails on the code: `session::create` sets the ttl of the new session
to the constant 500 and does not read the timeout of the owning proxy; for a
proxy configured with timeout 1000 the new session has ttl 500. -/
theorem session.create_ignores_timeout :
    example_proxy_slow._timeout = 1000 ∧
    (session.create [] 7 example_proxy_slow addr_fe80_2 addr_ff02_1_ff00_42
        addr_2001_db8_42).1._ttl = 500 ∧
    (session.create [] 7 example_proxy_slow addr_fe80_2 addr_ff02_1_ff00_42
        addr_2001_db8_42).1._ttl ≠ example_proxy_slow._timeout := by
  decide

/-- What `session::create` does for every proxy and every `saddr`, `daddr`,
`taddr`: the session it returns belongs to the proxy, has the three addresses,
is `WAITING` (as the constructor leaves it) and has ttl 500, and the session
list afterwards is the list before with that session appended. -/
theorem session.create_spec (l : List session) (p : Nat) (pr : proxy)
    (saddr daddr taddr : Address) :
    (session.create l p pr saddr daddr taddr).1 =
      ⟨p, pr, saddr, daddr, taddr, Status.WAITING, 500, []⟩ ∧
    (session.create l p pr saddr daddr taddr).2 =
      l ++ [(session.create l p pr saddr daddr taddr).1] :=
  ⟨rfl, rfl⟩

/-- C16 as stated fails: `session::create` does not look for a session with
the same proxy, target and source; called twice with the same arguments it
leaves two such sessions in the list. -/
theorem session.create_twice :
    ((session.create
        (session.create [] 7 example_proxy addr_fe80_2 addr_ff02_1_ff00_42
          addr_2001_db8_42).2
        8 example_proxy addr_fe80_2 addr_ff02_1_ff00_42 addr_2001_db8_42).2.map
      session.key) =
      [(1, addr_2001_db8_42, addr_fe80_2), (1, addr_2001_db8_42, addr_fe80_2)] ∧
    ¬ ((session.create
        (session.create [] 7 example_proxy addr_fe80_2 addr_ff02_1_ff00_42
          addr_2001_db8_42).2
        8 example_proxy addr_fe80_2 addr_ff02_1_ff00_42 addr_2001_db8_42).2.map
      session.key).Nodup := by
  decide

/-- C16, amended: in every state reachable through `update_all` and through
`create` called only for a `(proxy, taddr, saddr)` that no session of the list
has, the session list holds distinct objects and at most one session for any
`(proxy, taddr, saddr)`. -/
theorem session.reachable_unique (l : List session) (h : session.Reachable l) :
    (l.map session._weak_ptr).Nodup ∧ (l.map session.key).Nodup := by
  induction h with
  | init => exact ⟨List.nodup_nil, List.nodup_nil⟩
  | create l p pr saddr daddr taddr _ hp hk ih =>
    obtain ⟨ih1, ih2⟩ := ih
    have e1 : (session.create l p pr saddr daddr taddr).2.map session._weak_ptr =
        l.map session._weak_ptr ++ [p] := by
      simp [session.create, session.new]
    have e2 : (session.create l p pr saddr daddr taddr).2.map session.key =
        l.map session.key ++ [(pr.ptr, taddr, saddr)] := by
      simp [session.create, session.new, session.key]
    rw [e1, e2]
    refine ⟨List.Nodup.append ih1 (List.nodup_singleton _) ?_,
      List.Nodup.append ih2 (List.nodup_singleton _) ?_⟩
    · intro x hx hx2
      rw [List.mem_singleton.mp hx2] at hx
      exact hp hx
    · intro x hx hx2
      rw [List.mem_singleton.mp hx2] at hx
      exact hk hx
  | update_all l e _ ih =>
    obtain ⟨ih1, ih2⟩ := ih
    refine ⟨session.update_all_nodup e l ih1, ?_⟩
    rw [session.update_all_eq e l ih1]
    exact List.Nodup.sublist
      (session.map_filterMap_tick_sublist session.key e (session.tick_key e) l) ih2

theorem session.reachable_unique_witness :
    (((session.update_all 100
        (session.create [] 7 example_proxy addr_fe80_2 addr_ff02_1_ff00_42
          addr_2001_db8_42).2).sessions).map session._weak_ptr).Nodup ∧
    (((session.update_all 100
        (session.create [] 7 example_proxy addr_fe80_2 addr_ff02_1_ff00_42
          addr_2001_db8_42).2).sessions).map session.key).Nodup :=
  session.reachable_unique _
    (session.Reachable.update_all _ 100
      (session.Reachable.create [] 7 example_proxy addr_fe80_2 addr_ff02_1_ff00_42
        addr_2001_db8_42 session.Reachable.init (by decide) (by decide)))

/-! ## The frame of `session::update_all` -/

theorem session.tick_eq_none_iff (e : Int) (s : session) :
    session.tick e s = none ↔ session.expires e s = true := by
  unfold session.tick session.expires
  by_cases hge : int_sub s._ttl e ≥ 0
  · have : ¬ (int_sub s._ttl e < 0) := by omega
    simp [hge, this]
  · have : int_sub s._ttl e < 0 := by omega
    cases hs : s._status <;> simp [hge, this]

theorem session.filterMap_tick_length (e : Int) (l : List session)
    (h : ∀ s ∈ l, session.expires e s = false) :
    (l.filterMap (session.tick e)).length = l.length := by
  induction l with
  | nil => rfl
  | cons a l ih =>
    cases ht : session.tick e a with
    | none =>
      have := (session.tick_eq_none_iff e a).mp ht
      rw [h a (List.mem_cons_self _ _)] at this
      cases this
    | some t =>
      rw [List.filterMap_cons_some ht, List.length_cons, List.length_cons,
        ih (fun s hs => h s (List.mem_cons_of_mem _ hs))]

theorem session.filterMap_tick_count (e : Int) (l : List session) :
    (l.filterMap (session.tick e)).length + (l.filter (session.expires e)).length =
      l.length := by
  induction l with
  | nil => rfl
  | cons a l ih =>
    cases ht : session.tick e a with
    | none =>
      have hx := (session.tick_eq_none_iff e a).mp ht
      rw [List.filterMap_cons_none ht, List.filter_cons_of_pos hx, List.length_cons,
        List.length_cons]
      omega
    | some t =>
      have hx : session.expires e a = false := by
        cases hx : session.expires e a with
        | false => rfl
        | true =>
          rw [(session.tick_eq_none_iff e a).mpr hx] at ht
          cases ht
      rw [List.filterMap_cons_some ht, List.filter_cons_of_neg (by simp [hx]),
        List.length_cons, List.length_cons]
      omega

/-- C17 as stated fails: the position of the session in the list is not kept
when a session before it is removed.  With the elapsed time 20 the session of
ttl 50 at index 1 moves to index 0, because the session of ttl 10 before it is
handed to `remove_session`. -/
theorem session.update_all_shifts_position :
    (0 : Int) ≤ 20 ∧ (20 : Int) ≤ (example_session 8 Status.VALID 50)._ttl ∧
    [example_session 7 Status.VALID 10, example_session 8 Status.VALID 50][1]? =
      some (example_session 8 Status.VALID 50) ∧
    (session.update_all 20
        [example_session 7 Status.VALID 10, example_session 8 Status.VALID 50]).sessions =
      [example_session 8 Status.VALID 30] ∧
    (session.update_all 20
        [example_session 7 Status.VALID 10, example_session 8 Status.VALID 50]).sessions[1]? =
      none ∧
    (session.update_all 20
        [example_session 7 Status.VALID 10, example_session 8 Status.VALID 50]).sessions[0]? =
      some (example_session 8 Status.VALID 30) := by
  decide

/-- C17, amended: in a list of distinct session objects, for an elapsed time
`e` that is at least 0 and a session whose ttl (an `int`) is at least `e`,
`update_all e` lowers its ttl by exactly `e` and changes no other field (status,
addresses, interface list); the sessions before it in the list afterwards are
what `update_all e` leaves of those before it, and likewise after it, so it
keeps its place among the sessions that stay: its index is lowered by the
number of sessions before it that the call hands to `remove_session`, and is
unchanged when there is none. -/
theorem session.update_all_frame (e : Int) (l1 l2 : List session) (se : session)
    (hnd : ((l1 ++ se :: l2).map session._weak_ptr).Nodup)
    (he : 0 ≤ e) (httl : e ≤ se._ttl) (hint : is_int se._ttl) :
    (session.update_all e (l1 ++ se :: l2)).sessions =
      (session.update_all e l1).sessions ++
        { se with _ttl := se._ttl - e } :: (session.update_all e l2).sessions ∧
    (session.update_all e l1).sessions.length + (session.update_all e l1).removed.length =
      l1.length ∧
    (session.update_all e (l1 ++ se :: l2)).sessions[
        l1.length - (session.update_all e l1).removed.length]? =
      some { se with _ttl := se._ttl - e } ∧
    ((∀ s ∈ l1, session.expires e s = false) →
      (session.update_all e (l1 ++ se :: l2)).sessions[l1.length]? =
        some { se with _ttl := se._ttl - e }) := by
  have hnd1 : (l1.map session._weak_ptr).Nodup := by
    rw [List.map_append] at hnd
    exact (List.nodup_append.mp hnd).1
  have hnd2 : (l2.map session._weak_ptr).Nodup := by
    rw [List.map_append, List.map_cons] at hnd
    exact (List.nodup_cons.mp (List.nodup_append.mp hnd).2.1).2
  have hmax : se._ttl ≤ INT_MAX := hint.2
  have hsub : int_sub se._ttl e = se._ttl - e :=
    int_sub_eq _ _ ⟨by unfold INT_MIN; omega, by omega⟩
  have hge : se._ttl - e ≥ 0 := by omega
  have hte : session.tick e se = some { se with _ttl := se._ttl - e } := by
    simp [session.tick, hsub, hge]
  have heq : (session.update_all e (l1 ++ se :: l2)).sessions =
      (session.update_all e l1).sessions ++
        { se with _ttl := se._ttl - e } :: (session.update_all e l2).sessions := by
    rw [session.update_all_eq e _ hnd, session.update_all_eq e _ hnd1,
      session.update_all_eq e _ hnd2]
    simp only [List.filterMap_append, List.filterMap_cons_some hte]
  have hcount : (session.update_all e l1).sessions.length +
      (session.update_all e l1).removed.length = l1.length := by
    rw [session.update_all_eq e _ hnd1]
    simp only [List.length_map]
    exact session.filterMap_tick_count e l1
  refine ⟨heq, hcount, ?_, ?_⟩
  · rw [heq]
    have hidx : l1.length - (session.update_all e l1).removed.length =
        (session.update_all e l1).sessions.length := by omega
    rw [hidx, List.getElem?_append_right (le_refl _)]
    simp
  · intro hno
    rw [heq, session.update_all_eq e _ hnd1]
    have hlen := session.filterMap_tick_length e l1 hno
    simp only
    rw [← hlen, List.getElem?_append_right (le_refl _)]
    simp

theorem session.update_all_frame_witness :
    (session.update_all 20 ([example_session 7 Status.VALID 10] ++
        example_session 8 Status.VALID 50 :: [example_session 9 Status.INVALID 30])).sessions =
      (session.update_all 20 [example_session 7 Status.VALID 10]).sessions ++
        { example_session 8 Status.VALID 50 with
          _ttl := (example_session 8 Status.VALID 50)._ttl - 20 } ::
          (session.update_all 20 [example_session 9 Status.INVALID 30]).sessions ∧
    (session.update_all 20 [example_session 7 Status.VALID 10]).sessions.length +
        (session.update_all 20 [example_session 7 Status.VALID 10]).removed.length =
      [example_session 7 Status.VALID 10].length ∧
    (session.update_all 20 ([example_session 7 Status.VALID 10] ++
        example_session 8 Status.VALID 50 ::
          [example_session 9 Status.INVALID 30])).sessions[
            [example_session 7 Status.VALID 10].length -
              (session.update_all 20 [example_session 7 Status.VALID 10]).removed.length]? =
      some { example_session 8 Status.VALID 50 with
        _ttl := (example_session 8 Status.VALID 50)._ttl - 20 } ∧
    ((∀ s ∈ [example_session 7 Status.VALID 10], session.expires 20 s = false) →
      (session.update_all 20 ([example_session 7 Status.VALID 10] ++
        example_session 8 Status.VALID 50 ::
          [example_session 9 Status.INVALID 30])).sessions[
            [example_session 7 Status.VALID 10].length]? =
        some { example_session 8 Status.VALID 50 with
          _ttl := (example_session 8 Status.VALID 50)._ttl - 20 }) :=
  session.update_all_frame 20 [example_session 7 Status.VALID 10]
    [example_session 9 Status.INVALID 30] (example_session 8 Status.VALID 50)
    (by decide) (by decide) (by decide) (by decide)

/-- The run behind the witness of C17, evaluated: the session before is
removed, the session of ttl 50 has ttl 30 and is now the first of the list. -/
theorem session.update_all_position_example :
    session.update_all 20 [example_session 7 Status.VALID 10,
        example_session 8 Status.VALID 50, example_session 9 Status.INVALID 30] =
      ⟨[example_session 8 Status.VALID 30, example_session 9 Status.INVALID 10],
       [example_session 7 Status.VALID (-10)]⟩ := by
  decide

/-! ## `configure` -/

/-- C18 fails on the code: `configure` adds a static rule only inside the
branch `addr.prefix() <= 120` that logs the warning.  For the entry
`rule 2001:db8::1/128` without `iface` no rule is added (and nothing is
logged); for `rule 2001:db8::/64` the rule is added with the warning. -/
theorem configure_static_rule_dropped :
    (example_parse "2001:db8::1/128").prefix_len = 128 ∧
    (conf_rule_host.get "iface").isNone = true ∧
    configure example_proxy_open example_parse
        (some (conf_root [conf_proxy_up0 [conf_rule_host]])) =
      ⟨true, [⟨⟨1, false, 30000, 1000⟩, "up0", []⟩], []⟩ ∧
    configure example_proxy_open example_parse
        (some (conf_root [conf_proxy_up0 [conf_rule_net]])) =
      ⟨true, [⟨⟨1, false, 30000, 1000⟩, "up0", [⟨⟨addr_2001_db8, 64⟩, none⟩]⟩],
        [LogEntry.warning_static_prefix 64]⟩ := by
  decide

/-- What `configure` does with a rule entry that has an address and no `iface`
key: the static rule is added, with the warning, when the prefix is at most
120, and the entry is passed over when it is above 120. -/
theorem configure_rules_static_entry (parse : String → Cidr) (ru_cf : conf)
    (rest : List conf) (rules : List configured_rule) (log : List LogEntry)
    (hv : ru_cf.as_str ≠ "") (hi : ru_cf.get "iface" = none) :
    configure_rules parse (ru_cf :: rest) rules log =
      if (parse ru_cf.as_str).prefix_len ≤ 120 then
        configure_rules parse rest (rules ++ [⟨parse ru_cf.as_str, none⟩])
          (log ++ [LogEntry.warning_static_prefix (parse ru_cf.as_str).prefix_len])
      else configure_rules parse rest rules log := by
  simp only [configure_rules, hv, hi, if_false]

theorem configure_settings_spec (pr_cf : conf) (pr : proxy) (ifname : String)
    (rules : List configured_rule) :
    configured_proxy.has_settings_of ⟨configure_settings pr_cf pr, ifname, rules⟩ pr_cf := by
  unfold configured_proxy.has_settings_of configure_settings
  cases pr_cf.get "router" <;> cases pr_cf.get "ttl" <;> cases pr_cf.get "timeout" <;>
    exact ⟨rfl, rfl, rfl⟩

theorem configure_proxies_settings (proxy_open : String → Option proxy)
    (parse : String → Cidr) :
    ∀ (blocks : List conf) (acc : List configured_proxy) (log : List LogEntry),
      ∃ new : List configured_proxy,
        (configure_proxies proxy_open parse blocks acc log).proxies = acc ++ new ∧
        ((configure_proxies proxy_open parse blocks acc log).ret = true →
          new.length = blocks.length) ∧
        (∀ (i : Nat) (p : configured_proxy), new[i]? = some p →
          ∃ pr_cf, blocks[i]? = some pr_cf ∧ p.has_settings_of pr_cf ∧
            p.ifname = pr_cf.as_str) := by
  intro blocks
  induction blocks with
  | nil =>
    intro acc log
    exact ⟨[], by simp [configure_proxies], fun _ => rfl, by simp⟩
  | cons pr_cf rest ih =>
    intro acc log
    by_cases hv : pr_cf.as_str = ""
    · exact ⟨[], by simp [configure_proxies, hv], by simp [configure_proxies, hv], by simp⟩
    · cases ho : proxy_open pr_cf.as_str with
      | none =>
        exact ⟨[], by simp [configure_proxies, hv, ho], by simp [configure_proxies, hv, ho],
          by simp⟩
      | some pr =>
        cases hr : (configure_rules parse (pr_cf.find_all "rule") [] log).1 with
        | false =>
          refine ⟨[⟨configure_settings pr_cf pr, pr_cf.as_str,
              (configure_rules parse (pr_cf.find_all "rule") [] log).2.1⟩],
            by simp [configure_proxies, hv, ho, hr],
            by simp [configure_proxies, hv, ho, hr], ?_⟩
          intro i p hp
          cases i with
          | zero =>
            simp only [List.getElem?_cons_zero, Option.some.injEq] at hp
            subst hp
            exact ⟨pr_cf, List.getElem?_cons_zero, configure_settings_spec pr_cf pr _ _, rfl⟩
          | succ i => simp at hp
        | true =>
          obtain ⟨new, h1, h2, h3⟩ := ih
            (acc ++ [⟨configure_settings pr_cf pr, pr_cf.as_str,
              (configure_rules parse (pr_cf.find_all "rule") [] log).2.1⟩])
            (configure_rules parse (pr_cf.find_all "rule") [] log).2.2
          refine ⟨⟨configure_settings pr_cf pr, pr_cf.as_str,
              (configure_rules parse (pr_cf.find_all "rule") [] log).2.1⟩ :: new, ?_, ?_, ?_⟩
          · simp only [configure_proxies, hv, ho, hr, if_false, if_true]
            rw [h1]
            simp
          · intro hret
            simp only [configure_proxies, hv, ho, hr, if_false, if_true] at hret
            simp [h2 hret]
          · intro i p hp
            cases i with
            | zero =>
              simp only [List.getElem?_cons_zero, Option.some.injEq] at hp
              subst hp
              exact ⟨pr_cf, List.getElem?_cons_zero, configure_settings_spec pr_cf pr _ _, rfl⟩
            | succ i =>
              simp only [List.getElem?_cons_succ] at hp ⊢
              exact h3 i p hp

theorem digitChar_spec (k : Nat) (h : k < 10) :
    (Nat.digitChar k).isDigit = true ∧ (Nat.digitChar k).toNat - 48 = k := by
  interval_cases k <;> decide

theorem isDigit_not_space (c : Char) (h : c.isDigit = true) :
    isspace c = false ∧ (c == '-') = false ∧ (c == '+') = false := by
  refine ⟨?_, ?_, ?_⟩
  · cases hs : isspace c with
    | false => rfl
    | true =>
      simp only [isspace, Bool.or_eq_true, beq_iff_eq] at hs
      rcases hs with ((((h1 | h1) | h1) | h1) | h1) | h1 <;> (subst h1; revert h; decide)
  · cases hs : (c == '-') with
    | false => rfl
    | true =>
      rw [beq_iff_eq] at hs
      subst hs; revert h; decide
  · cases hs : (c == '+') with
    | false => rfl
    | true =>
      rw [beq_iff_eq] at hs
      subst hs; revert h; decide

theorem strtol_digits_toDigitsCore :
    ∀ (fuel n : Nat) (ds : List Char), n < fuel →
      ∃ cs : List Char, Nat.toDigitsCore 10 fuel n ds = cs ++ ds ∧
        (∃ c cs2, cs = c :: cs2 ∧ c.isDigit = true) ∧
        ∀ (acc : Nat) (tail : List Char),
          strtol_digits acc (cs ++ tail) = strtol_digits (acc * 10 ^ cs.length + n) tail := by
  intro fuel
  induction fuel with
  | zero => intro n _ h; exact absurd h (Nat.not_lt_zero _)
  | succ f ih =>
    intro n ds hn
    obtain ⟨hd1, hd2⟩ := digitChar_spec (n % 10) (Nat.mod_lt _ (by decide))
    by_cases h0 : n / 10 = 0
    · refine ⟨[Nat.digitChar (n % 10)], ?_, ⟨_, [], rfl, hd1⟩, ?_⟩
      · simp [Nat.toDigitsCore, h0]
      · intro acc tail
        have hlt : n % 10 = n := by omega
        simp only [List.singleton_append, strtol_digits, hd1, if_true, hd2, List.length_singleton,
          pow_one]
        rw [hlt]
        rfl
    · have hlt : n / 10 < f := by omega
      obtain ⟨cs, h1, ⟨c, cs2, hc, hcd⟩, h3⟩ := ih (n / 10) (Nat.digitChar (n % 10) :: ds) hlt
      refine ⟨cs ++ [Nat.digitChar (n % 10)], ?_, ⟨c, cs2 ++ [Nat.digitChar (n % 10)], ?_, hcd⟩, ?_⟩
      · simp [Nat.toDigitsCore, h0, h1]
      · rw [hc]; rfl
      · intro acc tail
        rw [List.append_assoc, h3 acc]
        simp only [List.singleton_append, strtol_digits, hd1, if_true, hd2, List.length_append,
          List.length_singleton, pow_succ]
        congr 1
        have := Nat.div_add_mod n 10
        nlinarith [this]

theorem strtol_digits_repr (n : Nat) :
    ∃ c cs, (Nat.repr n).data = c :: cs ∧ c.isDigit = true ∧
      strtol_digits 0 (Nat.repr n).data = n := by
  obtain ⟨cs, h1, ⟨c, cs2, hc, hcd⟩, h3⟩ :=
    strtol_digits_toDigitsCore (n + 1) n [] (Nat.lt_succ_self _)
  have hdata : (Nat.repr n).data = cs := by
    simp only [Nat.repr, Nat.toDigits, List.asString, h1, List.append_nil]
  refine ⟨c, cs2, by rw [hdata, hc], hcd, ?_⟩
  have := h3 0 []
  simp only [List.append_nil, Nat.zero_mul, Nat.zero_add, strtol_digits] at this
  rw [hdata, this]

/-- What `atoi` gives for the decimal text of a number within the range of
`int`: the number, also behind a minus sign. -/
theorem atoi_repr (n : Nat) :
    ((n : Int) ≤ INT_MAX → atoi (Nat.repr n).data = n) ∧
    ((n : Int) ≤ 2147483648 → atoi ('-' :: (Nat.repr n).data) = -(n : Int)) := by
  obtain ⟨c, cs, hd, hc, hv⟩ := strtol_digits_repr n
  obtain ⟨h1, h2, h3⟩ := isDigit_not_space c hc
  constructor
  · intro hn
    unfold INT_MAX at hn
    have hs : strtol (Nat.repr n).data = min LONG_MAX (n : Int) := by
      unfold strtol
      rw [hd] at hv ⊢
      simp only [List.dropWhile, h1, cstr_deref, List.headD, h2, h3, hv]
      simp
    unfold atoi int_of_long
    rw [hs]
    unfold LONG_MAX
    omega
  · intro hn
    have hs : strtol ('-' :: (Nat.repr n).data) = max LONG_MIN (-(n : Int)) := by
      unfold strtol
      have hsp : isspace '-' = false := by decide
      simp only [List.dropWhile, hsp, cstr_deref, List.headD, List.drop, hv]
      simp
    unfold atoi int_of_long
    rw [hs]
    unfold LONG_MIN
    omega

theorem conf.find_loop_dropWhile (k : String) (l : List (String × conf)) :
    conf.find_loop (l.dropWhile (fun kv => kv.1 != k)) 0 =
      (l.find? (fun kv => kv.1 == k)).map Prod.snd := by
  induction l with
  | nil => rfl
  | cons kv l ih =>
    by_cases hk : kv.1 = k
    · have h1 : (kv.1 != k) = false := by simp [hk]
      have h2 : (kv.1 == k) = true := by simp [hk]
      simp only [List.dropWhile_cons, List.find?_cons, h1, h2, Bool.false_eq_true, if_false,
        Option.map_some', conf.find_loop, le_refl, if_true]
    · have h1 : (kv.1 != k) = true := by simp [hk]
      have h2 : (kv.1 == k) = false := by simp [hk]
      simp only [List.dropWhile_cons, List.find?_cons, h1, h2, if_true]
      exact ih

/-- The function `conf::operator[]` gives the first child stored under the
key, and the null pointer when there is none. -/
theorem conf.get_eq_find (cf : conf) (k : String) :
    cf.get k = (cf._map.find? (fun kv => kv.1 == k)).map Prod.snd := by
  unfold conf.get conf.find
  exact conf.find_loop_dropWhile k cf._map

/-- The function `conf::as_bool` is true for the values "true" and "yes" in
any mix of cases, and for no other value. -/
theorem conf.as_bool_iff (cf : conf) :
    cf.as_bool = true ↔
      cf._value.data.map Char.toLower = ['t', 'r', 'u', 'e'] ∨
      cf._value.data.map Char.toLower = ['y', 'e', 's'] := by
  simp [conf.as_bool]

/-- The function `conf::as_int` on the decimal text of a number within the
range of `int`. -/
theorem conf.as_int_repr (cf : conf) (n : Nat) (hn : (n : Int) ≤ INT_MAX)
    (hv : cf._value = Nat.repr n) : cf.as_int = n := by
  unfold conf.as_int
  rw [hv]
  exact (atoi_repr n).1 hn

/-- C19: `configure` opens the proxies for the `proxy` blocks in order, one
for each block when it returns true.  The proxy of a block has the router flag
true when the block has no key `router`, and otherwise the value of the first
`router` entry read as a truth value ("true" or "yes" in any mix of cases is
true, every other value false); it has ttl 30000 when the block has no key
`ttl`, and otherwise the value of the first `ttl` entry read by `atoi`, which
for the decimal text of a number within the range of `int` is that number; and
likewise the timeout, with 500 when the key `timeout` is absent. -/
theorem configure_sets_settings (proxy_open : String → Option proxy)
    (parse : String → Cidr) (cf : conf) :
    ((configure proxy_open parse (some cf)).ret = true →
      (configure proxy_open parse (some cf)).proxies.length =
        (cf.find_all "proxy").length) ∧
    (∀ (i : Nat) (p : configured_proxy),
      (configure proxy_open parse (some cf)).proxies[i]? = some p →
      ∃ pr_cf, (cf.find_all "proxy")[i]? = some pr_cf ∧
        (pr_cf._map.find? (fun kv => kv.1 == "router") = none → p.pr._router = true) ∧
        (∀ kv, pr_cf._map.find? (fun kv => kv.1 == "router") = some kv →
          (p.pr._router = true ↔
            kv.2._value.data.map Char.toLower = ['t', 'r', 'u', 'e'] ∨
            kv.2._value.data.map Char.toLower = ['y', 'e', 's'])) ∧
        (pr_cf._map.find? (fun kv => kv.1 == "ttl") = none → p.pr._ttl = 30000) ∧
        (∀ kv, pr_cf._map.find? (fun kv => kv.1 == "ttl") = some kv →
          p.pr._ttl = atoi kv.2._value.data ∧
          ∀ n : Nat, (n : Int) ≤ INT_MAX → kv.2._value = Nat.repr n → p.pr._ttl = n) ∧
        (pr_cf._map.find? (fun kv => kv.1 == "timeout") = none → p.pr._timeout = 500) ∧
        (∀ kv, pr_cf._map.find? (fun kv => kv.1 == "timeout") = some kv →
          p.pr._timeout = atoi kv.2._value.data ∧
          ∀ n : Nat, (n : Int) ≤ INT_MAX → kv.2._value = Nat.repr n →
            p.pr._timeout = n)) := by
  obtain ⟨new, h1, h2, h3⟩ :=
    configure_proxies_settings proxy_open parse (cf.find_all "proxy") [] []
  simp only [configure]
  rw [h1]
  refine ⟨fun hret => by simpa using h2 hret, ?_⟩
  intro i p hp
  rw [List.nil_append] at hp
  obtain ⟨pr_cf, hb, ⟨hr, ht, hto⟩, _⟩ := h3 i p hp
  rw [conf.get_eq_find] at hr ht hto
  refine ⟨pr_cf, hb, ?_, ?_, ?_, ?_, ?_, ?_⟩
  · intro hnone
    rw [hnone] at hr
    exact hr
  · intro kv hsome
    rw [hsome] at hr
    simp only [Option.map_some'] at hr
    rw [hr]
    exact conf.as_bool_iff kv.2
  · intro hnone
    rw [hnone] at ht
    exact ht
  · intro kv hsome
    rw [hsome] at ht
    simp only [Option.map_some'] at ht
    refine ⟨ht, fun n hn hv => ?_⟩
    rw [ht]
    exact conf.as_int_repr kv.2 n hn hv
  · intro hnone
    rw [hnone] at hto
    exact hto
  · intro kv hsome
    rw [hsome] at hto
    simp only [Option.map_some'] at hto
    refine ⟨hto, fun n hn hv => ?_⟩
    rw [hto]
    exact conf.as_int_repr kv.2 n hn hv

theorem configure_sets_settings_witness :
    ∃ pr_cf, ((conf_root [conf_proxy_up0 [conf_rule_dn0]]).find_all "proxy")[0]? = some pr_cf ∧
      (pr_cf._map.find? (fun kv => kv.1 == "router") = none →
        (⟨⟨1, false, 30000, 1000⟩, "up0", [⟨⟨addr_2001_db8, 64⟩, some "dn0"⟩]⟩ :
          configured_proxy).pr._router = true) ∧
      (∀ kv, pr_cf._map.find? (fun kv => kv.1 == "router") = some kv →
        ((⟨⟨1, false, 30000, 1000⟩, "up0", [⟨⟨addr_2001_db8, 64⟩, some "dn0"⟩]⟩ :
          configured_proxy).pr._router = true ↔
          kv.2._value.data.map Char.toLower = ['t', 'r', 'u', 'e'] ∨
          kv.2._value.data.map Char.toLower = ['y', 'e', 's'])) ∧
      (pr_cf._map.find? (fun kv => kv.1 == "ttl") = none →
        (⟨⟨1, false, 30000, 1000⟩, "up0", [⟨⟨addr_2001_db8, 64⟩, some "dn0"⟩]⟩ :
          configured_proxy).pr._ttl = 30000) ∧
      (∀ kv, pr_cf._map.find? (fun kv => kv.1 == "ttl") = some kv →
        (⟨⟨1, false, 30000, 1000⟩, "up0", [⟨⟨addr_2001_db8, 64⟩, some "dn0"⟩]⟩ :
          configured_proxy).pr._ttl = atoi kv.2._value.data ∧
        ∀ n : Nat, (n : Int) ≤ INT_MAX → kv.2._value = Nat.repr n →
          (⟨⟨1, false, 30000, 1000⟩, "up0", [⟨⟨addr_2001_db8, 64⟩, some "dn0"⟩]⟩ :
            configured_proxy).pr._ttl = n) ∧
      (pr_cf._map.find? (fun kv => kv.1 == "timeout") = none →
        (⟨⟨1, false, 30000, 1000⟩, "up0", [⟨⟨addr_2001_db8, 64⟩, some "dn0"⟩]⟩ :
          configured_proxy).pr._timeout = 500) ∧
      (∀ kv, pr_cf._map.find? (fun kv => kv.1 == "timeout") = some kv →
        (⟨⟨1, false, 30000, 1000⟩, "up0", [⟨⟨addr_2001_db8, 64⟩, some "dn0"⟩]⟩ :
          configured_proxy).pr._timeout = atoi kv.2._value.data ∧
        ∀ n : Nat, (n : Int) ≤ INT_MAX → kv.2._value = Nat.repr n →
          (⟨⟨1, false, 30000, 1000⟩, "up0", [⟨⟨addr_2001_db8, 64⟩, some "dn0"⟩]⟩ :
            configured_proxy).pr._timeout = n) :=
  (configure_sets_settings example_proxy_open example_parse
    (conf_root [conf_proxy_up0 [conf_rule_dn0]])).2 0
    ⟨⟨1, false, 30000, 1000⟩, "up0", [⟨⟨addr_2001_db8, 64⟩, some "dn0"⟩]⟩ (by decide)

/-- The conversions of `configure` on some values, evaluated: white space of
every kind is skipped before the number, a number beyond the range of `int`
is cut to its low 32 bits, one beyond the range of `long` gives -1, and a text
without digits gives 0. -/
theorem atoi_example :
    atoi "1000".data = 1000 ∧ atoi "\x0b\x0c 42".data = 42 ∧ atoi "-7".data = -7 ∧
    atoi "+7ms".data = 7 ∧ atoi "abc".data = 0 ∧ atoi "".data = 0 ∧
    atoi "2147483648".data = -2147483648 ∧ atoi "4294967297".data = 1 ∧
    atoi "99999999999999999999".data = -1 ∧
    (conf.leaf "YES").as_bool = true ∧ (conf.leaf "True").as_bool = true ∧
    (conf.leaf "no").as_bool = false ∧ (conf.leaf "1").as_bool = false := by
  decide

/-- The configuration behind the witness of C19, evaluated: `router no` gives
false, the absent `ttl` gives 30000, `timeout 1000` gives 1000. -/
theorem configure_example :
    configure example_proxy_open example_parse
        (some (conf_root [conf_proxy_up0 [conf_rule_dn0]])) =
      ⟨true, [⟨⟨1, false, 30000, 1000⟩, "up0", [⟨⟨addr_2001_db8, 64⟩, some "dn0"⟩]⟩],
        []⟩ := by
  decide

/-! ## `main` -/

/-- C20 fails on the code: when `iface::poll_all` reports an error the loop
ends, `main` logs "iface::poll_all() failed" and returns 0.  A failed
configuration gives the return value -1 (exit status 255) and a failed
`daemonize` gives 1. -/
theorem main_returns_zero_on_poll_error :
    main false 0 true ⟨100, 0⟩ [(-1, ⟨100, 500⟩)] = some ⟨0, []⟩ ∧
    main false 0 true ⟨100, 0⟩ [(0, ⟨100, 250000⟩), (-1, ⟨101, 0⟩)] = some ⟨0, [250]⟩ ∧
    exit_status 0 = 0 ∧
    main false 0 false ⟨100, 0⟩ [(-1, ⟨100, 500⟩)] = some ⟨-1, []⟩ ∧
    exit_status (-1) = 255 ∧
    main true (-1) true ⟨100, 0⟩ [(-1, ⟨100, 500⟩)] = some ⟨1, []⟩ := by
  decide

theorem main_loop_exit_code (t1 : timeval) (polls : List (Int × timeval)) (calls : List Int)
    (r : main_result) (h : main_loop t1 polls calls = some r) :
    r.exit_code = 0 ∧ ∃ entry ∈ polls, entry.1 < 0 := by
  induction polls generalizing t1 calls with
  | nil => simp [main_loop] at h
  | cons entry rest ih =>
    obtain ⟨poll, t2⟩ := entry
    simp only [main_loop] at h
    split at h
    · obtain ⟨h1, e, he, hlt⟩ := ih t2 _ h
      exact ⟨h1, e, List.mem_cons_of_mem _ he, hlt⟩
    · rename_i hneg
      cases h
      exact ⟨rfl, (poll, t2), List.mem_cons_self _ _, by simpa using hneg⟩

/-- What `main` returns, whenever it returns: 1 when `daemonize` failed, -1
when `configure` returned false, and 0 in the one remaining case, that the
loop ended because `iface::poll_all` gave a negative result. -/
theorem main_exit_code (daemon : Bool) (daemonize_ret : Int) (configure_ret : Bool)
    (t1 : timeval) (polls : List (Int × timeval)) (r : main_result)
    (h : main daemon daemonize_ret configure_ret t1 polls = some r) :
    (r.exit_code = 1 ∧ daemon = true ∧ daemonize_ret < 0) ∨
    (r.exit_code = -1 ∧ configure_ret = false) ∨
    (r.exit_code = 0 ∧ configure_ret = true ∧ ∃ entry ∈ polls, entry.1 < 0) := by
  unfold main at h
  split at h
  · rename_i hd
    cases h
    simp only [Bool.and_eq_true, decide_eq_true_eq] at hd
    exact Or.inl ⟨rfl, hd.1, hd.2⟩
  · split at h
    · rename_i hc
      cases h
      exact Or.inr (Or.inl ⟨rfl, by simpa using hc⟩)
    · rename_i hc
      obtain ⟨h1, h2⟩ := main_loop_exit_code t1 polls [] r h
      exact Or.inr (Or.inr ⟨h1, by simpa using hc, h2⟩)

/-- The configuration tree with a rule whose `iface` entry has an empty
value, and the one with a rule without address, given to `configure`: the
first gives true with the error in the log, the second false. -/
theorem configure_iface_tree_example :
    configure example_proxy_open example_parse
        (some (conf_root [conf_proxy_up0 [conf_rule_iface_empty]])) =
      ⟨true, [⟨⟨1, false, 30000, 1000⟩, "up0", []⟩],
        [LogEntry.error "'iface' expected an interface name or 'auto' as argument"]⟩ ∧
    configure example_proxy_open example_parse
        (some (conf_root [conf_proxy_up0 [conf_rule_empty]])) =
      ⟨false, [⟨⟨1, false, 30000, 1000⟩, "up0", []⟩],
        [LogEntry.error "'rule' is missing an IPv6 address/net"]⟩ := by
  decide

/-- The configuration text with the `iface` name written as an empty quoted
text on one line: `conf::parse` stops on the closing quote, the text does not
parse, `conf::load` gives the null pointer and `configure` returns false. -/
theorem configure_iface_quoted :
    (conf.load 10 conf_text_iface_quoted.data).map (fun o => o.isNone) = some true ∧
    (conf.load 10 conf_text_iface_quoted.data).map
        (configure example_proxy_open example_parse) = some ⟨false, [], []⟩ := by
  decide

/-- C21 fails on the code: for an `iface` entry without interface name
`configure` logs the error and goes on with the next rule.  The configuration
file with the rule `rule 2001:db8::/64` whose block holds the bare word `iface`
is parsed by `conf::load` into a tree whose `iface` entry has the empty value;
`configure` returns true for it, with the error in the log and a proxy without
rules.  The other errors end `configure` with false, as for the file whose rule
has no address. -/
theorem configure_iface_error_not_fatal :
    (conf.load 10 conf_text_iface_bare.data).map
        (fun o => o.map (fun cf => conf.view cf._map)) =
      some (some [("proxy", "up0", [("rule", "2001:db8::/64", [("iface", "")])])]) ∧
    (conf.load 10 conf_text_iface_bare.data).map
        (configure example_proxy_open example_parse) =
      some ⟨true, [⟨⟨1, true, 30000, 500⟩, "up0", []⟩],
        [LogEntry.error "'iface' expected an interface name or 'auto' as argument"]⟩ ∧
    (conf.load 10 conf_text_rule_bare.data).map
        (configure example_proxy_open example_parse) =
      some ⟨false, [⟨⟨1, true, 30000, 500⟩, "up0", []⟩],
        [LogEntry.error "'rule' is missing an IPv6 address/net"]⟩ :=
  ⟨rfl, by decide, by decide⟩

theorem configure_rules_log (parse : String → Cidr) :
    ∀ (entries : List conf) (rules : List configured_rule) (log : List LogEntry),
      (configure_rules parse entries rules log).1 = true →
      (∀ x ∈ log, x.passed_over) →
      ∀ x ∈ (configure_rules parse entries rules log).2.2, x.passed_over := by
  intro entries
  induction entries with
  | nil =>
    intro rules log _ hl
    simpa [configure_rules] using hl
  | cons ru_cf rest ih =>
    intro rules log hret hl
    by_cases hv : ru_cf.as_str = ""
    · simp [configure_rules, hv] at hret
    · cases hget : ru_cf.get "iface" with
      | none =>
        by_cases hp : (parse ru_cf.as_str).prefix_len ≤ 120
        · simp only [configure_rules, hv, hget, hp, if_false, if_true] at hret ⊢
          apply ih _ _ hret
          intro x hx
          rcases List.mem_append.mp hx with h | h
          · exact hl x h
          · rw [List.mem_singleton.mp h]
            exact Or.inl ⟨_, rfl⟩
        · simp only [configure_rules, hv, hget, hp, if_false] at hret ⊢
          exact ih _ _ hret hl
      | some x_cf =>
        by_cases hx : x_cf.as_str = ""
        · simp only [configure_rules, hv, hget, hx, if_false, if_true] at hret ⊢
          apply ih _ _ hret
          intro x hx2
          rcases List.mem_append.mp hx2 with h | h
          · exact hl x h
          · rw [List.mem_singleton.mp h]
            exact Or.inr rfl
        · simp only [configure_rules, hv, hget, hx, if_false] at hret ⊢
          exact ih _ _ hret hl

theorem configure_proxies_log (proxy_open : String → Option proxy) (parse : String → Cidr) :
    ∀ (blocks : List conf) (acc : List configured_proxy) (log : List LogEntry),
      (configure_proxies proxy_open parse blocks acc log).ret = true →
      (∀ x ∈ log, x.passed_over) →
      ∀ x ∈ (configure_proxies proxy_open parse blocks acc log).log, x.passed_over := by
  intro blocks
  induction blocks with
  | nil =>
    intro acc log _ hl
    simpa [configure_proxies] using hl
  | cons pr_cf rest ih =>
    intro acc log hret hl
    by_cases hv : pr_cf.as_str = ""
    · simp [configure_proxies, hv] at hret
    · cases ho : proxy_open pr_cf.as_str with
      | none => simp [configure_proxies, hv, ho] at hret
      | some pr =>
        cases hr : (configure_rules parse (pr_cf.find_all "rule") [] log).1 with
        | false => simp [configure_proxies, hv, ho, hr] at hret
        | true =>
          simp only [configure_proxies, hv, ho, hr, if_false, if_true] at hret ⊢
          exact ih _ _ hret (configure_rules_log parse _ _ _ hr hl)

/-- What C21 says holds for three of the four errors: when `configure` returns
true its log holds no error but that for an `iface` entry without a name (and
the warnings for static rules); a proxy section without interface name, a
proxy that cannot be opened and a rule without address end it with false. -/
theorem configure_true_log (proxy_open : String → Option proxy) (parse : String → Cidr)
    (load : Option conf) (h : (configure proxy_open parse load).ret = true) :
    ∀ x ∈ (configure proxy_open parse load).log, x.passed_over := by
  cases load with
  | none => simp [configure] at h
  | some cf =>
    simp only [configure] at h ⊢
    exact configure_proxies_log proxy_open parse _ _ _ h (by simp)

/-! ## `conf::find` -/

/-- C24 fails on the code: `conf::find` walks from the first child stored
under `name` to the end of the map, not to the end of the children stored
under `name`.  With the children `a -> x` and `b -> y`, `find("a", 1)` is the
child stored under `b`, where `find_all("a")` has the single element `x`. -/
theorem conf.find_runs_into_next_key :
    (conf_two_keys.find_all "a").map conf.as_str = ["x"] ∧
    (conf_two_keys.find "a" 0).map conf.as_str = some "x" ∧
    (conf_two_keys.find "a" 1).map conf.as_str = some "y" ∧
    conf_two_keys._map.map Prod.fst = ["a", "b"] := by
  decide

theorem conf.find_loop_eq (l : List (String × conf)) (i : Nat) :
    conf.find_loop l (i : Int) = (l.map Prod.snd)[i]? := by
  induction l generalizing i with
  | nil => simp [conf.find_loop]
  | cons kv rest ih =>
    cases i with
    | zero => simp [conf.find_loop]
    | succ i =>
      have h1 : ¬ ((i : Int) + 1 ≤ 0) := by omega
      have h2 : ((i : Int) + 1 - 1) = (i : Int) := by omega
      simp only [conf.find_loop, Nat.cast_succ, h1, if_false, h2, List.map_cons,
        List.getElem?_cons_succ]
      exact ih i

/-- What `conf::find` returns when the children stored under `name` stand
together in the map (as they do in a multimap), `block` after `pre` and before
`post`: for an index below their number the element of `find_all(name)` with
that index, and, when there are such children, for a larger index the child
that many places further on, stored under another name, until the map ends. -/
theorem conf.find_of_contiguous (cf : conf) (name : String)
    (pre block post : List (String × conf))
    (hmap : cf._map = pre ++ block ++ post)
    (hpre : ∀ kv ∈ pre, kv.1 ≠ name) (hblock : ∀ kv ∈ block, kv.1 = name)
    (hpost : ∀ kv ∈ post, kv.1 ≠ name) :
    cf.find_all name = block.map Prod.snd ∧
    (∀ i : Nat, i < block.length → cf.find name i = (cf.find_all name)[i]?) ∧
    (block ≠ [] → ∀ i : Nat, block.length ≤ i →
      cf.find name i = (post.map Prod.snd)[i - block.length]?) := by
  have hfa : cf.find_all name = block.map Prod.snd := by
    have h1 : pre.filter (fun kv => kv.1 == name) = [] := by
      rw [List.filter_eq_nil_iff]
      intro kv hkv
      simpa using hpre kv hkv
    have h2 : post.filter (fun kv => kv.1 == name) = [] := by
      rw [List.filter_eq_nil_iff]
      intro kv hkv
      simpa using hpost kv hkv
    have h3 : block.filter (fun kv => kv.1 == name) = block := by
      rw [List.filter_eq_self]
      intro kv hkv
      simpa using hblock kv hkv
    simp [conf.find_all, hmap, List.filter_append, h1, h2, h3]
  have hdrop : block ≠ [] →
      cf._map.dropWhile (fun kv => kv.1 != name) = block ++ post := by
    intro hne
    obtain ⟨kv, rest, rfl⟩ := List.exists_cons_of_ne_nil hne
    have hk : kv.1 = name := hblock kv (List.mem_cons_self _ _)
    have hpre2 : pre.dropWhile (fun kv => kv.1 != name) = [] := by
      rw [List.dropWhile_eq_nil_iff]
      intro x hx
      simpa using hpre x hx
    rw [hmap, List.append_assoc, List.dropWhile_append, hpre2]
    simp [List.dropWhile, hk]
  refine ⟨hfa, ?_, ?_⟩
  · intro i hi
    have hne : block ≠ [] := by
      intro h
      rw [h] at hi
      exact Nat.not_lt_zero _ hi
    rw [conf.find, hdrop hne, conf.find_loop_eq, hfa, List.map_append,
      List.getElem?_append_left (by simpa using hi)]
  · intro hne i hi
    rw [conf.find, hdrop hne, conf.find_loop_eq, List.map_append,
      List.getElem?_append_right (by simpa using hi)]
    simp

/-! ## The elapsed time of `main` -/

/-- C26 as stated fails: for the time stamps `(0 s, 352500 us)` and
`(2147484 s, 0 us)`, whose distance is 2147483647.5 ms, below 2^31 ms, the
sum of `main` is 2147483648, which the `int` variable `elapsed_time` holds as
-2147483648. -/
theorem elapsed_time_wraps :
    (0 : Int) ≤ (2147484 - 0) * 1000000 + (0 - 352500) ∧
    ((2147484 - 0) * 1000000 + (0 - 352500) : Int) < 2 ^ 31 * 1000 ∧
    (2147484 - 0) * 1000 + Int.tdiv (0 - 352500) 1000 = (2147483648 : Int) ∧
    elapsed_time ⟨0, 352500⟩ ⟨2147484, 0⟩ = -2147483648 ∧
    ¬ (0 ≤ elapsed_time ⟨0, 352500⟩ ⟨2147484, 0⟩) := by
  decide

theorem Int.tdiv_thousand_bounds (x : Int) :
    (0 ≤ x → 1000 * Int.tdiv x 1000 ≤ x ∧ x < 1000 * Int.tdiv x 1000 + 1000) ∧
    (x ≤ 0 → x ≤ 1000 * Int.tdiv x 1000 ∧ 1000 * Int.tdiv x 1000 - 1000 < x) := by
  constructor
  · intro h
    rw [Int.tdiv_eq_ediv h (by decide)]
    omega
  · intro h
    have h2 : Int.tdiv x 1000 = - ((-x) / 1000) := by
      have := Int.neg_tdiv (-x) 1000
      rw [neg_neg] at this
      rw [this, Int.tdiv_eq_ediv (by omega) (by decide)]
    rw [h2]
    omega

/-- C26, amended: for time stamps `t1 <= t2` whose distance is at most
2^31 - 1 ms (the microsecond fields may lie in [0, 999999] or not), the
`elapsed_time` of `main` is the sum
`(t2.sec - t1.sec) * 1000 + (t2.usec - t1.usec) / 1000` with truncating
division, is non-negative and differs from the exact elapsed time by less than
1 ms (stated in microseconds: by less than 1000). -/
theorem elapsed_time_bounds (t1 t2 : timeval)
    (hle : 0 ≤ (t2.tv_sec - t1.tv_sec) * 1000000 + (t2.tv_usec - t1.tv_usec))
    (hd : (t2.tv_sec - t1.tv_sec) * 1000000 + (t2.tv_usec - t1.tv_usec) ≤
      (2 ^ 31 - 1) * 1000) :
    elapsed_time t1 t2 =
      (t2.tv_sec - t1.tv_sec) * 1000 + Int.tdiv (t2.tv_usec - t1.tv_usec) 1000 ∧
    0 ≤ elapsed_time t1 t2 ∧
    |elapsed_time t1 t2 * 1000 -
      ((t2.tv_sec - t1.tv_sec) * 1000000 + (t2.tv_usec - t1.tv_usec))| < 1000 := by
  obtain ⟨hp, hn⟩ := Int.tdiv_thousand_bounds (t2.tv_usec - t1.tv_usec)
  have hval : 0 ≤ (t2.tv_sec - t1.tv_sec) * 1000 + Int.tdiv (t2.tv_usec - t1.tv_usec) 1000 ∧
      (t2.tv_sec - t1.tv_sec) * 1000 + Int.tdiv (t2.tv_usec - t1.tv_usec) 1000 < 2 ^ 31 ∧
      |((t2.tv_sec - t1.tv_sec) * 1000 + Int.tdiv (t2.tv_usec - t1.tv_usec) 1000) * 1000 -
        ((t2.tv_sec - t1.tv_sec) * 1000000 + (t2.tv_usec - t1.tv_usec))| < 1000 := by
    rw [abs_lt]
    rcases le_total 0 (t2.tv_usec - t1.tv_usec) with h | h
    · have := hp h
      omega
    · have := hn h
      omega
  have hwrap : elapsed_time t1 t2 =
      (t2.tv_sec - t1.tv_sec) * 1000 + Int.tdiv (t2.tv_usec - t1.tv_usec) 1000 := by
    unfold elapsed_time int_of_long
    omega
  rw [hwrap]
  exact ⟨rfl, hval.1, hval.2.2⟩

theorem elapsed_time_bounds_witness :
    elapsed_time ⟨100, 900000⟩ ⟨102, 100500⟩ =
      (102 - 100) * 1000 + Int.tdiv (100500 - 900000) 1000 ∧
    0 ≤ elapsed_time ⟨100, 900000⟩ ⟨102, 100500⟩ ∧
    |elapsed_time ⟨100, 900000⟩ ⟨102, 100500⟩ * 1000 -
      ((102 - 100) * 1000000 + (100500 - 900000))| < 1000 :=
  elapsed_time_bounds ⟨100, 900000⟩ ⟨102, 100500⟩ (by decide) (by decide)

/-! ## `Interface::get_or_create` -/

/-- C27 fails on the code: `get_or_create` returns a live instance that has
the given index or the given name.  With a live interface of index 1 and name
`eth0` registered, `get_or_create(1, "eth1")` returns it, with the name `eth0`,
and `get_or_create(2, "eth0")` returns it, with the index 1. -/
theorem Interface.get_or_create_other_name :
    (Interface.get_or_create registry_eth0 101 1 "eth1").1.iface._name = "eth0" ∧
    (Interface.get_or_create registry_eth0 101 1 "eth1").1.iface._name ≠ "eth1" ∧
    (Interface.get_or_create registry_eth0 101 2 "eth0").1.iface._index = 1 ∧
    (Interface.get_or_create registry_eth0 101 2 "eth0").1.iface._index ≠ 2 ∧
    (Interface.get_or_create registry_eth0 101 1 "eth1").2 = registry_eth0 := by
  decide

/-- What `get_or_create(index, name)` returns in every registry state: a
live instance that has the given index or the given name, and, when it makes a
new instance, one with the given index and the given name. -/
theorem Interface.get_or_create_index_or_name (reg : List registered) (p index : Nat)
    (name : String) :
    ((Interface.get_or_create reg p index name).1.iface._index = index ∨
      (Interface.get_or_create reg p index name).1.iface._name = name) ∧
    (Interface.get_or_create reg p index name).1.live = true ∧
    ((Interface.get_or_create reg p index name).2 ≠ reg →
      (Interface.get_or_create reg p index name).1.iface._index = index ∧
      (Interface.get_or_create reg p index name).1.iface._name = name) := by
  unfold Interface.get_or_create
  cases hf : reg.find? (fun e =>
      e.live && (decide (e.iface._index = index) || decide (e.iface._name = name))) with
  | none => exact ⟨Or.inl rfl, rfl, fun _ => ⟨rfl, rfl⟩⟩
  | some e =>
    have hp := List.find?_some hf
    simp only [Bool.and_eq_true, Bool.or_eq_true, decide_eq_true_eq] at hp
    exact ⟨hp.2, hp.1, fun h => absurd rfl h⟩

theorem Interface.registry_apart (reg : List registered)
    (h : Interface.RegistryReachable reg) : reg.Pairwise registered.apart := by
  induction h with
  | init => exact List.Pairwise.nil
  | get_or_create reg p index name _ hp ih =>
    unfold Interface.get_or_create
    cases hf : reg.find? (fun e =>
        e.live && (decide (e.iface._index = index) || decide (e.iface._name = name))) with
    | some e => exact ih
    | none =>
      rw [List.find?_eq_none] at hf
      simp only
      rw [List.pairwise_append]
      refine ⟨ih, List.pairwise_singleton _ _, ?_⟩
      intro a ha b hb
      rw [List.mem_singleton.mp hb]
      refine ⟨fun hpe => hp (by
        have hm : a.ptr ∈ reg.map registered.ptr := List.mem_map_of_mem _ ha
        rw [hpe] at hm
        exact hm), ?_⟩
      intro hla _
      have := hf a ha
      simp only [hla, Bool.true_and, Bool.or_eq_true, decide_eq_true_eq, not_or] at this
      exact this
  | expire reg p _ ih =>
    unfold Interface.registry_expire
    rw [List.pairwise_map]
    refine List.Pairwise.imp ?_ ih
    intro a b hab
    obtain ⟨h1, h2⟩ := hab
    constructor
    · have hptr : ∀ x : registered,
          (if x.ptr = p then { x with live := false } else x).ptr = x.ptr := by
        intro x
        split <;> rfl
      rw [hptr a, hptr b]
      exact h1
    · intro hla hlb
      by_cases ha : a.ptr = p
      · simp [ha] at hla
      · by_cases hb : b.ptr = p
        · simp [hb] at hlb
        · simp only [ha, hb, if_false] at hla hlb ⊢
          exact h2 hla hlb

/-- What a call `get_or_create(index, name)` does in any state of the
registry: the instance it returns is live and is in the registry afterwards;
when no live instance has the index or the name, it is a new instance with
that index and name, added at the end of the registry; and a second call with
the same index and name returns the same instance and adds nothing. -/
theorem Interface.get_or_create_registers (reg : List registered) (p index : Nat)
    (name : String) :
    (Interface.get_or_create reg p index name).1 ∈ (Interface.get_or_create reg p index name).2 ∧
    (Interface.get_or_create reg p index name).1.live = true ∧
    ((∀ e ∈ reg, e.live = true → e.iface._index ≠ index ∧ e.iface._name ≠ name) →
      Interface.get_or_create reg p index name =
        (⟨p, ⟨index, name, ether_addr.unset⟩, true⟩,
          reg ++ [⟨p, ⟨index, name, ether_addr.unset⟩, true⟩])) ∧
    (∀ q : Nat,
      Interface.get_or_create (Interface.get_or_create reg p index name).2 q index name =
        ((Interface.get_or_create reg p index name).1,
          (Interface.get_or_create reg p index name).2)) := by
  cases hf : reg.find? (fun e =>
      e.live && (decide (e.iface._index = index) || decide (e.iface._name = name))) with
  | some e =>
    have hres : Interface.get_or_create reg p index name = (e, reg) := by
      simp only [Interface.get_or_create, hf]
    have hp := List.find?_some hf
    simp only [Bool.and_eq_true, Bool.or_eq_true, decide_eq_true_eq] at hp
    rw [hres]
    refine ⟨List.mem_of_find?_eq_some hf, hp.1, ?_, ?_⟩
    · intro hno
      have := hno e (List.mem_of_find?_eq_some hf) hp.1
      rcases hp.2 with h | h
      · exact absurd h this.1
      · exact absurd h this.2
    · intro q
      simp only [Interface.get_or_create, hf]
  | none =>
    have hres : Interface.get_or_create reg p index name =
        (⟨p, ⟨index, name, ether_addr.unset⟩, true⟩,
          reg ++ [⟨p, ⟨index, name, ether_addr.unset⟩, true⟩]) := by
      simp only [Interface.get_or_create, hf]
    rw [hres]
    refine ⟨by simp, rfl, fun _ => rfl, ?_⟩
    intro q
    have hfind : (reg ++ [(⟨p, ⟨index, name, ether_addr.unset⟩, true⟩ : registered)]).find?
        (fun e => e.live && (decide (e.iface._index = index) || decide (e.iface._name = name))) =
        some ⟨p, ⟨index, name, ether_addr.unset⟩, true⟩ := by
      rw [List.find?_append, hf]
      simp
    simp only [Interface.get_or_create, hfind]

/-- C22: in every state the registry reaches through `get_or_create(index,
name)` calls (and the end of the life of instances), no two live Interfaces
have the same index and name, and a call with the index and name of a live
Interface returns that instance and leaves the registry as it is.  Every call
leaves the instance it returns in the registry, live: a new instance, with the
given index and name, is added at the end when no live instance has the index
or the name, and a second call with the same index and name returns the same
instance and adds nothing. -/
theorem Interface.registry_unique (reg : List registered)
    (h : Interface.RegistryReachable reg) :
    ((reg.filter (fun e => e.live)).map
      (fun e => (e.iface._index, e.iface._name))).Nodup ∧
    (∀ e ∈ reg, e.live = true → ∀ p : Nat,
      Interface.get_or_create reg p e.iface._index e.iface._name = (e, reg)) ∧
    (∀ (p index : Nat) (name : String),
      (Interface.get_or_create reg p index name).1 ∈
        (Interface.get_or_create reg p index name).2 ∧
      (Interface.get_or_create reg p index name).1.live = true ∧
      ((∀ e ∈ reg, e.live = true → e.iface._index ≠ index ∧ e.iface._name ≠ name) →
        Interface.get_or_create reg p index name =
          (⟨p, ⟨index, name, ether_addr.unset⟩, true⟩,
            reg ++ [⟨p, ⟨index, name, ether_addr.unset⟩, true⟩])) ∧
      (∀ q : Nat,
        Interface.get_or_create (Interface.get_or_create reg p index name).2 q index name =
          ((Interface.get_or_create reg p index name).1,
            (Interface.get_or_create reg p index name).2))) := by
  have hap := Interface.registry_apart reg h
  refine ⟨?_, ?_, fun p index name => Interface.get_or_create_registers reg p index name⟩
  · rw [List.Nodup, List.pairwise_map]
    have hf : (reg.filter (fun e => e.live)).Pairwise registered.apart :=
      List.Pairwise.sublist (List.filter_sublist _) hap
    refine List.Pairwise.imp_of_mem ?_ hf
    intro a b ha hb hab heq
    have hla : a.live = true := (List.mem_filter.mp ha).2
    have hlb : b.live = true := (List.mem_filter.mp hb).2
    have := (hab.2 hla hlb).1
    simp only [Prod.mk.injEq] at heq
    exact this heq.1
  · intro e he hl p
    obtain ⟨as, bs, rfl⟩ := List.append_of_mem he
    have hfind : (as ++ e :: bs).find? (fun x =>
        x.live && (decide (x.iface._index = e.iface._index) ||
          decide (x.iface._name = e.iface._name))) = some e := by
      rw [List.find?_eq_some]
      refine ⟨by simp [hl], as, bs, rfl, ?_⟩
      intro a ha
      have hae : registered.apart a e :=
        (List.pairwise_append.mp hap).2.2 a ha e (List.mem_cons_self _ _)
      cases hla : a.live with
      | false => simp
      | true =>
        have := hae.2 hla hl
        simp [this.1, this.2]
    simp only [Interface.get_or_create, hfind]

theorem Interface.registry_unique_witness :
    ((registry_two.filter (fun e => e.live)).map
      (fun e => (e.iface._index, e.iface._name))).Nodup ∧
    (∀ e ∈ registry_two, e.live = true → ∀ p : Nat,
      Interface.get_or_create registry_two p e.iface._index e.iface._name =
        (e, registry_two)) ∧
    (∀ (p index : Nat) (name : String),
      (Interface.get_or_create registry_two p index name).1 ∈
        (Interface.get_or_create registry_two p index name).2 ∧
      (Interface.get_or_create registry_two p index name).1.live = true ∧
      ((∀ e ∈ registry_two, e.live = true →
          e.iface._index ≠ index ∧ e.iface._name ≠ name) →
        Interface.get_or_create registry_two p index name =
          (⟨p, ⟨index, name, ether_addr.unset⟩, true⟩,
            registry_two ++ [⟨p, ⟨index, name, ether_addr.unset⟩, true⟩])) ∧
      (∀ q : Nat,
        Interface.get_or_create (Interface.get_or_create registry_two p index name).2 q
            index name =
          ((Interface.get_or_create registry_two p index name).1,
            (Interface.get_or_create registry_two p index name).2))) :=
  Interface.registry_unique registry_two
    (Interface.RegistryReachable.get_or_create _ 101 2 "eth1"
      (Interface.RegistryReachable.get_or_create [] 100 1 "eth0"
        Interface.RegistryReachable.init (by decide))
      (by decide))

/-- The registry of the witness of C22, evaluated, and a second call for the
first interface. -/
theorem Interface.registry_example :
    registry_two =
      [⟨100, ⟨1, "eth0", ether_addr.unset⟩, true⟩,
       ⟨101, ⟨2, "eth1", ether_addr.unset⟩, true⟩] ∧
    Interface.get_or_create
        [⟨100, ⟨1, "eth0", ether_addr.unset⟩, true⟩,
         ⟨101, ⟨2, "eth1", ether_addr.unset⟩, true⟩] 102 1 "eth0" =
      (⟨100, ⟨1, "eth0", ether_addr.unset⟩, true⟩,
       [⟨100, ⟨1, "eth0", ether_addr.unset⟩, true⟩,
        ⟨101, ⟨2, "eth1", ether_addr.unset⟩, true⟩]) := by
  decide

/-! ## Interface flags -/

theorem flag_test (flags b : Nat) : ((flags &&& 2 ^ b) != 0) = flags.testBit b := by
  rw [Nat.and_two_pow]
  cases flags.testBit b <;> simp

theorem ifr_flags_set_testBit (flags b i : Nat) (hb : b < 16) (hf : flags < 2 ^ 16) :
    (ifr_flags_set flags (2 ^ b)).testBit i = (flags.testBit i || decide (b = i)) := by
  unfold ifr_flags_set
  rw [Nat.testBit_mod_two_pow, Nat.testBit_lor, Nat.testBit_two_pow]
  by_cases hi : i < 16
  · simp [hi]
  · have h1 : flags.testBit i = false :=
      Nat.testBit_lt_two_pow (lt_of_lt_of_le hf (Nat.pow_le_pow_right (by decide) (by omega)))
    have h2 : ¬ b = i := by omega
    simp [hi, h1, h2]

theorem ifr_flags_clear_testBit (flags b i : Nat) (hf : flags < 2 ^ 16) :
    (ifr_flags_clear flags (2 ^ b)).testBit i = (flags.testBit i && !decide (b = i)) := by
  unfold ifr_flags_clear
  rw [Nat.testBit_land, Nat.testBit_xor, Nat.testBit_two_pow_sub_one, Nat.testBit_two_pow]
  by_cases hi : i < 16
  · by_cases hbi : b = i <;> simp [hi, hbi]
  · have h1 : flags.testBit i = false :=
      Nat.testBit_lt_two_pow (lt_of_lt_of_le hf (Nat.pow_le_pow_right (by decide) (by omega)))
    simp [h1]

theorem ifr_flags_clear_lt (flags mask : Nat) (hf : flags < 2 ^ 16) :
    ifr_flags_clear flags mask < 2 ^ 16 :=
  lt_of_le_of_lt Nat.and_le_left hf

theorem ifr_flags_set_lt (flags mask : Nat) : ifr_flags_set flags mask < 2 ^ 16 :=
  Nat.mod_lt _ (by decide)

/-- What `allmulti` and `promisc` do for the flag of bit `b`: they return the
old state of the bit, leave the bit in the state asked for and every other bit
as it was, and write the new word when they change it. -/
theorem Interface.toggle_flag_spec (b : Nat) (hb : b < 16) (k : nic) (state : Bool)
    (hf : k.flags < 2 ^ 16) :
    (Interface.toggle_flag (2 ^ b) k state).1 = (if k.flags.testBit b then 1 else 0) ∧
    (Interface.toggle_flag (2 ^ b) k state).2.flags < 2 ^ 16 ∧
    (Interface.toggle_flag (2 ^ b) k state).2.flags.testBit b = state ∧
    (∀ i, i ≠ b → (Interface.toggle_flag (2 ^ b) k state).2.flags.testBit i =
      k.flags.testBit i) ∧
    ((Interface.toggle_flag (2 ^ b) k state).2.writes = k.writes ∨
      (Interface.toggle_flag (2 ^ b) k state).2.writes =
        k.writes ++ [(Interface.toggle_flag (2 ^ b) k state).2.flags]) := by
  unfold Interface.toggle_flag
  simp only [flag_test]
  by_cases hs : state = k.flags.testBit b
  · rw [if_pos hs]
    exact ⟨rfl, hf, hs.symm, fun _ _ => rfl, Or.inl rfl⟩
  · rw [if_neg hs]
    refine ⟨rfl, ?_, ?_, ?_, Or.inr rfl⟩
    · cases state
      · exact ifr_flags_clear_lt _ _ hf
      · exact ifr_flags_set_lt _ _
    · cases state
      · simp [ifr_flags_clear_testBit _ _ _ hf]
      · simp [ifr_flags_set_testBit _ _ _ hb hf]
    · intro i hi
      have hbi : ¬ b = i := fun h => hi h.symm
      cases state
      · simp [ifr_flags_clear_testBit _ _ _ hf, hbi]
      · simp [ifr_flags_set_testBit _ _ _ hb hf, hbi]

theorem Interface.allmulti_eq (k : nic) (state : Bool) :
    Interface.allmulti k state = Interface.toggle_flag (2 ^ 9) k state := rfl

theorem Interface.promisc_eq (k : nic) (state : Bool) :
    Interface.promisc k state = Interface.toggle_flag (2 ^ 8) k state := rfl

theorem flags_agree_of_toggle (b : Nat) (hb : b = 8 ∨ b = 9) (x y z : Nat)
    (h : ∀ i, i ≠ b → x.testBit i = y.testBit i) (hyz : flags_agree y z) :
    flags_agree x z := by
  intro i h8 h9
  rw [h i (by rcases hb with rfl | rfl <;> assumption)]
  exact hyz i h8 h9

theorem Interface.ensure_packet_socket_open (da dp : Bool) (o : Interface.members) (k : nic)
    (ho : o._packet_socket = true) (args : List Bool) :
    Interface.ensure_packet_socket_calls da dp o k args = (o, k) := by
  induction args with
  | nil => rfl
  | cons a rest ih =>
    have h1 : Interface.ensure_packet_socket da dp o k a = (o, k) := by
      simp [Interface.ensure_packet_socket, ho]
    simp only [Interface.ensure_packet_socket_calls, List.foldl, h1]
    exact ih

theorem Interface.ensure_packet_socket_first (da dp : Bool) (o : Interface.members) (k : nic)
    (a : Bool) (ho : o._packet_socket = false) (hf : k.flags < 2 ^ 16) :
    (Interface.ensure_packet_socket da dp o k a).1._packet_socket = true ∧
    (Interface.ensure_packet_socket da dp o k a).1._prev_allmulti =
      (if k.flags.testBit 9 then 1 else 0) ∧
    (Interface.ensure_packet_socket da dp o k a).1._prev_promisc =
      (if a then (if k.flags.testBit 8 then 1 else 0) else -1) ∧
    (a = false → (Interface.ensure_packet_socket da dp o k a).2.flags.testBit 8 =
      k.flags.testBit 8) ∧
    (Interface.ensure_packet_socket da dp o k a).2.flags < 2 ^ 16 ∧
    flags_agree (Interface.ensure_packet_socket da dp o k a).2.flags k.flags ∧
    (∀ w ∈ (Interface.ensure_packet_socket da dp o k a).2.writes,
      w ∈ k.writes ∨ flags_agree w k.flags) := by
  obtain ⟨a1, a2, _, a4, a5⟩ := Interface.toggle_flag_spec 9 (by decide) k da hf
  have hk : flags_agree k.flags k.flags := fun _ _ _ => rfl
  have g1 : flags_agree (Interface.toggle_flag (2 ^ 9) k da).2.flags k.flags :=
    flags_agree_of_toggle 9 (Or.inr rfl) _ _ _ a4 hk
  have w1 : ∀ w ∈ (Interface.toggle_flag (2 ^ 9) k da).2.writes,
      w ∈ k.writes ∨ flags_agree w k.flags := by
    intro w hw
    rcases a5 with h | h
    · rw [h] at hw
      exact Or.inl hw
    · rw [h] at hw
      rcases List.mem_append.mp hw with h2 | h2
      · exact Or.inl h2
      · rw [List.mem_singleton.mp h2]
        exact Or.inr g1
  cases a with
  | false =>
    have hens : Interface.ensure_packet_socket da dp o k false =
        (⟨true, (Interface.toggle_flag (2 ^ 9) k da).1, -1⟩,
          (Interface.toggle_flag (2 ^ 9) k da).2) := by
      simp [Interface.ensure_packet_socket, ho, Interface.allmulti_eq]
    rw [hens]
    exact ⟨rfl, a1, rfl, fun _ => a4 8 (by decide), a2, g1, w1⟩
  | true =>
    obtain ⟨b1, b2, _, b4, b5⟩ := Interface.toggle_flag_spec 8 (by decide)
      (Interface.toggle_flag (2 ^ 9) k da).2 dp a2
    have g2 : flags_agree
        (Interface.toggle_flag (2 ^ 8) (Interface.toggle_flag (2 ^ 9) k da).2 dp).2.flags
        k.flags := flags_agree_of_toggle 8 (Or.inl rfl) _ _ _ b4 g1
    have hens : Interface.ensure_packet_socket da dp o k true =
        (⟨true, (Interface.toggle_flag (2 ^ 9) k da).1,
            (Interface.toggle_flag (2 ^ 8) (Interface.toggle_flag (2 ^ 9) k da).2 dp).1⟩,
          (Interface.toggle_flag (2 ^ 8) (Interface.toggle_flag (2 ^ 9) k da).2 dp).2) := by
      simp [Interface.ensure_packet_socket, ho, Interface.allmulti_eq, Interface.promisc_eq]
    rw [hens]
    refine ⟨rfl, a1, ?_, fun h => Bool.noConfusion h, b2, g2, ?_⟩
    · show (Interface.toggle_flag (2 ^ 8) (Interface.toggle_flag (2 ^ 9) k da).2 dp).1 = _
      rw [b1, a4 8 (by decide)]
      rfl
    · intro w hw
      rcases b5 with h | h
      · rw [h] at hw
        exact w1 w hw
      · rw [h] at hw
        rcases List.mem_append.mp hw with h2 | h2
        · exact w1 w h2
        · rw [List.mem_singleton.mp h2]
          exact Or.inr g2

theorem Interface.destroy_spec (o : Interface.members) (k : nic) (x8 x9 : Bool)
    (ho : o._packet_socket = true)
    (h9 : o._prev_allmulti = (if x9 then 1 else 0))
    (h8 : (o._prev_promisc = -1 ∧ k.flags.testBit 8 = x8) ∨
      o._prev_promisc = (if x8 then 1 else 0))
    (hf : k.flags < 2 ^ 16) :
    (Interface.destroy o k).flags.testBit 9 = x9 ∧
    (Interface.destroy o k).flags.testBit 8 = x8 ∧
    flags_agree (Interface.destroy o k).flags k.flags ∧
    (∀ w ∈ (Interface.destroy o k).writes, w ∈ k.writes ∨ flags_agree w k.flags) := by
  have hk : flags_agree k.flags k.flags := fun _ _ _ => rfl
  have hpa : o._prev_allmulti ≥ 0 := by rw [h9]; cases x9 <;> decide
  have hsa : decide (o._prev_allmulti ≠ 0) = x9 := by rw [h9]; cases x9 <;> decide
  obtain ⟨_, a2, a3, a4, a5⟩ := Interface.toggle_flag_spec 9 (by decide) k x9 hf
  have g1 : flags_agree (Interface.toggle_flag (2 ^ 9) k x9).2.flags k.flags :=
    flags_agree_of_toggle 9 (Or.inr rfl) _ _ _ a4 hk
  have w1 : ∀ w ∈ (Interface.toggle_flag (2 ^ 9) k x9).2.writes,
      w ∈ k.writes ∨ flags_agree w k.flags := by
    intro w hw
    rcases a5 with h | h
    · rw [h] at hw
      exact Or.inl hw
    · rw [h] at hw
      rcases List.mem_append.mp hw with h2 | h2
      · exact Or.inl h2
      · rw [List.mem_singleton.mp h2]
        exact Or.inr g1
  rcases h8 with ⟨hp, hb8⟩ | hp
  · have hneg : ¬ (o._prev_promisc ≥ 0) := by rw [hp]; decide
    simp only [Interface.destroy, ho, hpa, hsa, hneg, Interface.allmulti_eq, if_true,
      if_false]
    exact ⟨a3, by rw [a4 8 (by decide)]; exact hb8, g1, w1⟩
  · have hpp : o._prev_promisc ≥ 0 := by rw [hp]; cases x8 <;> decide
    have hsp : decide (o._prev_promisc ≠ 0) = x8 := by rw [hp]; cases x8 <;> decide
    obtain ⟨_, _, b3, b4, b5⟩ := Interface.toggle_flag_spec 8 (by decide)
      (Interface.toggle_flag (2 ^ 9) k x9).2 x8 a2
    have g2 : flags_agree
        (Interface.toggle_flag (2 ^ 8) (Interface.toggle_flag (2 ^ 9) k x9).2 x8).2.flags
        k.flags := flags_agree_of_toggle 8 (Or.inl rfl) _ _ _ b4 g1
    simp only [Interface.destroy, ho, hpa, hsa, hpp, hsp, Interface.allmulti_eq,
      Interface.promisc_eq, if_true]
    refine ⟨by rw [b4 9 (by decide)]; exact a3, b3, g2, ?_⟩
    intro w hw
    rcases b5 with h | h
    · rw [h] at hw
      exact w1 w hw
    · rw [h] at hw
      rcases List.mem_append.mp hw with h2 | h2
      · exact w1 w h2
      · rw [List.mem_singleton.mp h2]
        exact Or.inr g2

/-- C23: for every 16-bit flag word, either default of `allmulti()` and
`promisc()` and every sequence of one or more calls of `ensure_packet_socket`
(with any `promisc` arguments) on an interface without packet socket, followed
by the destructor: the flag word afterwards is the initial one, so the
`IFF_ALLMULTI` and `IFF_PROMISC` bits have their values from before the first
call; and the word after the calls and every word written on the way agree
with the initial word in every other bit. -/
theorem Interface.flags_restored (flags : Nat) (hf : flags < 2 ^ 16)
    (allmulti_default promisc_default : Bool) (prev_allmulti prev_promisc : Int)
    (a : Bool) (rest : List Bool) :
    (Interface.destroy
      (Interface.ensure_packet_socket_calls allmulti_default promisc_default
        ⟨false, prev_allmulti, prev_promisc⟩ ⟨flags, []⟩ (a :: rest)).1
      (Interface.ensure_packet_socket_calls allmulti_default promisc_default
        ⟨false, prev_allmulti, prev_promisc⟩ ⟨flags, []⟩ (a :: rest)).2).flags = flags ∧
    flags_agree
      (Interface.ensure_packet_socket_calls allmulti_default promisc_default
        ⟨false, prev_allmulti, prev_promisc⟩ ⟨flags, []⟩ (a :: rest)).2.flags flags ∧
    (∀ w ∈ (Interface.destroy
      (Interface.ensure_packet_socket_calls allmulti_default promisc_default
        ⟨false, prev_allmulti, prev_promisc⟩ ⟨flags, []⟩ (a :: rest)).1
      (Interface.ensure_packet_socket_calls allmulti_default promisc_default
        ⟨false, prev_allmulti, prev_promisc⟩ ⟨flags, []⟩ (a :: rest)).2).writes,
      flags_agree w flags) := by
  obtain ⟨e1, e2, e3, e4, e5, e6, e7⟩ := Interface.ensure_packet_socket_first
    allmulti_default promisc_default ⟨false, prev_allmulti, prev_promisc⟩ ⟨flags, []⟩ a rfl hf
  have hcalls : Interface.ensure_packet_socket_calls allmulti_default promisc_default
      ⟨false, prev_allmulti, prev_promisc⟩ ⟨flags, []⟩ (a :: rest) =
      Interface.ensure_packet_socket allmulti_default promisc_default
        ⟨false, prev_allmulti, prev_promisc⟩ ⟨flags, []⟩ a := by
    have := Interface.ensure_packet_socket_open allmulti_default promisc_default
      (Interface.ensure_packet_socket allmulti_default promisc_default
        ⟨false, prev_allmulti, prev_promisc⟩ ⟨flags, []⟩ a).1
      (Interface.ensure_packet_socket allmulti_default promisc_default
        ⟨false, prev_allmulti, prev_promisc⟩ ⟨flags, []⟩ a).2 e1 rest
    simpa [Interface.ensure_packet_socket_calls, List.foldl] using this
  rw [hcalls]
  have h8 : ((Interface.ensure_packet_socket allmulti_default promisc_default
        ⟨false, prev_allmulti, prev_promisc⟩ ⟨flags, []⟩ a).1._prev_promisc = -1 ∧
      (Interface.ensure_packet_socket allmulti_default promisc_default
        ⟨false, prev_allmulti, prev_promisc⟩ ⟨flags, []⟩ a).2.flags.testBit 8 =
        flags.testBit 8) ∨
      (Interface.ensure_packet_socket allmulti_default promisc_default
        ⟨false, prev_allmulti, prev_promisc⟩ ⟨flags, []⟩ a).1._prev_promisc =
        (if flags.testBit 8 then 1 else 0) := by
    cases a with
    | false => exact Or.inl ⟨e3, e4 rfl⟩
    | true => exact Or.inr e3
  obtain ⟨d1, d2, d3, d4⟩ := Interface.destroy_spec _ _ (flags.testBit 8) (flags.testBit 9)
    e1 e2 h8 e5
  refine ⟨?_, e6, ?_⟩
  · apply Nat.eq_of_testBit_eq
    intro i
    by_cases h9 : i = 9
    · rw [h9]; exact d1
    · by_cases h8i : i = 8
      · rw [h8i]; exact d2
      · rw [d3 i h8i h9]
        exact e6 i h8i h9
  · intro w hw
    rcases d4 w hw with h | h
    · rcases e7 w h with h2 | h2
      · simp at h2
      · exact h2
    · intro i h8i h9
      rw [h i h8i h9]
      exact e6 i h8i h9

theorem Interface.flags_restored_witness :
    (Interface.destroy
      (Interface.ensure_packet_socket_calls true true ⟨false, 7, 7⟩ ⟨0x1043, []⟩
        (true :: [false])).1
      (Interface.ensure_packet_socket_calls true true ⟨false, 7, 7⟩ ⟨0x1043, []⟩
        (true :: [false])).2).flags = 0x1043 ∧
    flags_agree
      (Interface.ensure_packet_socket_calls true true ⟨false, 7, 7⟩ ⟨0x1043, []⟩
        (true :: [false])).2.flags 0x1043 ∧
    (∀ w ∈ (Interface.destroy
      (Interface.ensure_packet_socket_calls true true ⟨false, 7, 7⟩ ⟨0x1043, []⟩
        (true :: [false])).1
      (Interface.ensure_packet_socket_calls true true ⟨false, 7, 7⟩ ⟨0x1043, []⟩
        (true :: [false])).2).writes,
      flags_agree w 0x1043) :=
  Interface.flags_restored 0x1043 (by decide) true true 7 7 true [false]

/-- The run behind the witness of C23, evaluated: from the flag word 0x1043
the calls set `IFF_ALLMULTI` and `IFF_PROMISC` (0x1343), and the destructor
clears them again. -/
theorem Interface.flags_example :
    Interface.ensure_packet_socket_calls true true ⟨false, 7, 7⟩ ⟨0x1043, []⟩
        [true, false] = (⟨true, 0, 0⟩, ⟨0x1343, [0x1243, 0x1343]⟩) ∧
    Interface.destroy ⟨true, 0, 0⟩ ⟨0x1343, [0x1243, 0x1343]⟩ =
      ⟨0x1043, [0x1243, 0x1343, 0x1143, 0x1043]⟩ := by
  decide

/-! ## The configuration parser -/

/-- The parser on a small configuration text, evaluated: the whole text is
read and the tree has the proxy block with its rule. -/
theorem conf.parse_block_example :
    (conf.parse_block 10 "proxy up0 \x7b\n  rule 2001:db8::/64 \x7b iface dn0 \x7d\n\x7d\n".data []).map
        (fun r => (r.1, r.2.1, conf.view r.2.2)) =
      some (true, [], [("proxy", "up0", [("rule", "2001:db8::/64", [("iface", "dn0")])])]) := by
  rfl

theorem conf.parse_with_control (pb : List Char → Option (conf.parsed (List (String × conf)))) :
    conf.parse_with pb ['\x01'] = some (true, ['\x01'], conf.mk "" false []) := by
  rfl

theorem conf.parse_block_control_step (fuel : Nat) (m : List (String × conf)) :
    conf.parse_block (fuel + 1) ['\x01'] m =
      conf.parse_block fuel ['\x01'] (conf.map_insert m ("", conf.mk "" false [])) := by
  rfl

/-- C25 fails on the code: on the text that consists of the control character
`\x01` (neither white space nor printable) `conf::parse` returns true without
consuming anything, so the loop of `parse_block` goes round at the same read
position, adding an empty child each time, and `parse_block` does not return:
whatever the bound on the number of iterations, it is used up. -/
theorem conf.parse_block_diverges :
    isspace '\x01' = false ∧ isgraph '\x01' = false ∧
    conf.skip ['\x01'] true = ['\x01'] ∧
    (∀ pb, conf.parse_with pb ['\x01'] = some (true, ['\x01'], conf.mk "" false [])) ∧
    (∀ (fuel : Nat) (m : List (String × conf)), conf.parse_block fuel ['\x01'] m = none) := by
  refine ⟨by decide, by decide, by decide, conf.parse_with_control, ?_⟩
  intro fuel
  induction fuel with
  | zero => intro m; rfl
  | succ n ih =>
    intro m
    rw [conf.parse_block_control_step]
    exact ih _


end ndppd
